import Mathlib

/-!
# Verification of the dial override engine

Shallow embedding of `src/dial/update_dials.py` and `src/dial/dial_utils.py`.

Modelling conventions:
* JSON-like Python values are modelled by the inductive type `J`; Python dicts
  become insertion-ordered association lists (`List (String × J)`), matching
  CPython dict semantics: lookup finds the first (unique) occurrence,
  assignment replaces the value in place or appends a new entry at the end,
  and `pop`/`del` removes the entry.
* Python floats are modelled as rationals.  Python `round(x, 3)` (round half
  to even on the underlying value) is modelled by `pyRound3`.  The model
  rounds the exact rational, while CPython rounds the nearest binary double;
  the two agree except when a decimal tie (a value of the form `k + 1/2000`)
  is not exactly representable in binary, which never happens for the
  concrete values appearing below.
* Raised exceptions become `Except DialErr`; each constructor of `DialErr`
  corresponds to one `raise` site of the source.
* In-place mutation of a resolved target node becomes explicit state passing:
  the mutated node is written back along the resolved path (`setLeaf`),
  which is observationally equivalent for alias-free documents (documents
  loaded from JSON are trees, never DAGs).
-/

/-- A Python/JSON value: string, number (floats as rationals), boolean,
`None`, list, or an insertion-ordered dict. -/
inductive J where
  | s : String → J
  | q : ℚ → J
  | b : Bool → J
  | null : J
  | arr : List J → J
  | obj : List (String × J) → J

mutual

/-- Structural equality of `J` values (Python `==` on JSON trees). -/
def J.beq (a b : J) : Bool :=
  match a, b with
  | .s a, .s b => a == b
  | .q a, .q b => a == b
  | .b a, .b b => a == b
  | .null, .null => true
  | .arr xs, .arr ys => J.beqList xs ys
  | .obj xs, .obj ys => J.beqObj xs ys
  | _, _ => false

def J.beqList (xs ys : List J) : Bool :=
  match xs, ys with
  | [], [] => true
  | x :: xs, y :: ys => J.beq x y && J.beqList xs ys
  | _, _ => false

def J.beqObj (xs ys : List (String × J)) : Bool :=
  match xs, ys with
  | [], [] => true
  | (k, v) :: xs, (k2, v2) :: ys => k == k2 && J.beq v v2 && J.beqObj xs ys
  | _, _ => false

end

mutual

theorem J.beq_iff (a b : J) : J.beq a b = true ↔ a = b :=
  match a, b with
  | .s a, .s b => by simp [J.beq]
  | .q a, .q b => by simp [J.beq]
  | .b a, .b b => by simp [J.beq]
  | .null, .null => by simp [J.beq]
  | .arr xs, .arr ys => by
      rw [J.beq]
      rw [J.beqList_iff xs ys]
      simp
  | .obj xs, .obj ys => by
      rw [J.beq]
      rw [J.beqObj_iff xs ys]
      simp
  | .s _, .q _ | .s _, .b _ | .s _, .null | .s _, .arr _ | .s _, .obj _
  | .q _, .s _ | .q _, .b _ | .q _, .null | .q _, .arr _ | .q _, .obj _
  | .b _, .s _ | .b _, .q _ | .b _, .null | .b _, .arr _ | .b _, .obj _
  | .null, .s _ | .null, .q _ | .null, .b _ | .null, .arr _ | .null, .obj _
  | .arr _, .s _ | .arr _, .q _ | .arr _, .b _ | .arr _, .null | .arr _, .obj _
  | .obj _, .s _ | .obj _, .q _ | .obj _, .b _ | .obj _, .null | .obj _, .arr _ => by
      simp [J.beq]

theorem J.beqList_iff (xs ys : List J) : J.beqList xs ys = true ↔ xs = ys :=
  match xs, ys with
  | [], [] => by simp [J.beqList]
  | x :: xs, y :: ys => by
      rw [J.beqList]
      rw [Bool.and_eq_true]
      rw [J.beq_iff x y]
      rw [J.beqList_iff xs ys]
      simp
  | [], _ :: _ => by simp [J.beqList]
  | _ :: _, [] => by simp [J.beqList]

theorem J.beqObj_iff (xs ys : List (String × J)) : J.beqObj xs ys = true ↔ xs = ys :=
  match xs, ys with
  | [], [] => by simp [J.beqObj]
  | (k, v) :: xs, (k2, v2) :: ys => by
      rw [J.beqObj]
      rw [Bool.and_eq_true, Bool.and_eq_true]
      rw [J.beq_iff v v2]
      rw [J.beqObj_iff xs ys]
      simp [Prod.ext_iff, and_assoc]
  | [], _ :: _ => by simp [J.beqObj]
  | _ :: _, [] => by simp [J.beqObj]

end

instance : DecidableEq J := fun a b =>
  decidable_of_iff (J.beq a b = true) (J.beq_iff a b)

/-- First-occurrence lookup in an association list (Python `d[k]` /
`d.get(k)` semantics; keys are unique in dicts produced by `json.load`). -/
def lookupKey : List (String × J) → String → Option J
  | [], _ => none
  | (k, v) :: rest, key => if k = key then some v else lookupKey rest key

/-- Python `k in d`. -/
def hasKey (kvs : List (String × J)) (key : String) : Bool :=
  (lookupKey kvs key).isSome

/-- Python `d[k] = v`: replace the first occurrence in place, else append. -/
def setKey : List (String × J) → String → J → List (String × J)
  | [], key, v => [(key, v)]
  | (k, w) :: rest, key, v =>
    if k = key then (k, v) :: rest else (k, w) :: setKey rest key v

/-- Python `d.pop(k, None)`: remove the entry for `k` when present. -/
def popKey : List (String × J) → String → List (String × J)
  | [], _ => []
  | (k, w) :: rest, key => if k = key then rest else (k, w) :: popKey rest key

/-- Python `d.get(k)` (default `None`): a stored `None` is indistinguishable
from a missing key, so both map to `none`. -/
def pyGet (kvs : List (String × J)) (key : String) : Option J :=
  match lookupKey kvs key with
  | some J.null => none
  | some v => some v
  | none => none

/-- Python `d.get(k)` on a `J` that may not be a dict (yields `none` when the
receiver is not a dict only where the source guards with `isinstance`). -/
def getJ (v : J) (key : String) : Option J :=
  match v with
  | .obj kvs => pyGet kvs key
  | _ => none

/-- Python truthiness of a value. -/
def jTruthy : J → Bool
  | .s v => !v.isEmpty
  | .q v => !(v == 0)
  | .b v => v
  | .null => false
  | .arr xs => !xs.isEmpty
  | .obj kvs => !kvs.isEmpty

/-- Keys of an association list are pairwise distinct (always true for dicts
deserialized from JSON). -/
def distinctKeys : List (String × J) → Bool
  | [] => true
  | (k, _) :: rest => rest.all (fun p => !(p.1 == k)) && distinctKeys rest

/-- One error constructor per `raise` site of `update_dials.py` /
`dial_utils.py` (Python `KeyError` / `ValueError` / `TypeError`). -/
inductive DialErr where
  | missingTransitionPath (state transition : String)
  | missingDetailPath (state transition detail : String)
  | simpleOverwriteOfCohort (path : String)
  | missingCohortShock (path : String)
  | shockNotObject (path : String)
  | cohortConversionRefused (path : String)
  | cohortsNotList (path : String)
  | cohortNotFound (cohort : J) (path : String)
  | malformedShorthand
  | conflictingTargetSpec
  | ambiguousOverrideShape
  | targetsEmpty
  | targetMissingStateTransition
  | targetEntryInvalid
  | overrideNotObject
  | stateNotObject
  | unrecognizedVersion (v : String)
  | flatMonthsNotPositive
  | rampMonthsNotPositive
  | missingField (name : String)
  | keyMissing
  | typeError (msg : String)
deriving DecidableEq

instance {ε α : Type} [DecidableEq ε] [DecidableEq α] : DecidableEq (Except ε α) :=
  fun a b =>
  match a, b with
  | .ok x, .ok y => decidable_of_iff (x = y) (by simp)
  | .error e, .error f => decidable_of_iff (e = f) (by simp)
  | .ok _, .error _ => isFalse (by simp)
  | .error _, .ok _ => isFalse (by simp)

/-- Monotone non-increasing check on a list of rationals. -/
def qNonIncreasing : List ℚ → Bool
  | a :: b :: rest => decide (b ≤ a) && qNonIncreasing (b :: rest)
  | _ => true

/-! ## Character and string helpers (Python `str` methods) -/

/-- Python whitespace for `str.strip()` / regex `\s` (ASCII range). -/
def isPySpace (c : Char) : Bool :=
  c == ' ' || c == '\t' || c == '\n' || c == '\r' || c == '\x0b' || c == '\x0c'

/-- Python `str.strip()` on a character list. -/
def pyStripL (cs : List Char) : List Char :=
  ((cs.dropWhile isPySpace).reverse.dropWhile isPySpace).reverse

/-- Python `str.strip()`. -/
def pyStrip (v : String) : String := ⟨pyStripL v.data⟩

/-- Value of a decimal digit character. -/
def digitVal (c : Char) : ℕ := c.toNat - 48

/-- Decimal value of a digit string (Python `int(...)` on digits). -/
def digitsToNat (ds : List Char) : ℕ := ds.foldl (fun a c => a * 10 + digitVal c) 0

/-- The decimal digit character for `d < 10`. -/
def digitChar (d : ℕ) : Char := Char.ofNat (48 + d)

/-- Big-endian decimal digits of a natural number, fuel-based so that the
definition reduces by iota (the fuel is always sufficient below). -/
def natDigitsFuel : ℕ → ℕ → List Char → List Char
  | 0, _, acc => acc
  | fuel + 1, n, acc =>
    if n = 0 then acc else natDigitsFuel fuel (n / 10) (digitChar (n % 10) :: acc)

/-- Big-endian decimal digits of a natural number (Python `str(n)`). -/
def natDigits (n : ℕ) : List Char := if n = 0 then ['0'] else natDigitsFuel n n []

/-- Python `str(n)` for a natural number. -/
def natRepr (n : ℕ) : String := ⟨natDigits n⟩

/-- First occurrence of `pat` in a character list: `some (pre, post)` with the
list equal to `pre ++ pat ++ post` at the earliest position, else `none`. -/
def splitFirst (pat : List Char) : List Char → Option (List Char × List Char)
  | [] => if pat.isPrefixOf ([] : List Char) then some ([], []) else none
  | c :: rest =>
    if pat.isPrefixOf (c :: rest) then some ([], (c :: rest).drop pat.length)
    else (splitFirst pat rest).map (fun pr => (c :: pr.1, pr.2))

/-- Python `str.partition(sep)`: split at the first occurrence of `sep`,
returning `(before, sep, after)`, or `(s, "", "")` when absent. -/
def pyPartition (v sep : String) : String × String × String :=
  match splitFirst sep.data v.data with
  | some (pre, post) => (⟨pre⟩, sep, ⟨post⟩)
  | none => (v, "", "")

/-! ## Version utilities (`_split_version`, `_bump_version_string`) -/

/-- The seven capture groups of `_VERSION_RE` (all segments kept as the
matched strings, as in the source). -/
structure SplitV where
  pfx : String
  majorS : String
  minorS : String
  patchPfx : String
  patchS : String
  extraPfx : String
  extraS : Option String
deriving DecidableEq

/-- Consume an optional `[Vv]` prefix. -/
def takeVPfx (cs : List Char) : List Char × List Char :=
  match cs with
  | c :: rest => if c == 'v' || c == 'V' then ([c], rest) else ([], cs)
  | [] => ([], [])

/-- Deterministic parser equivalent to the anchored regex `_VERSION_RE`
`^[Vv]?\d+\.\d+\.[Vv]?\d+(?:\.[Vv]?\d+)?$` (digit runs are maximal, so no
backtracking can produce a different match). -/
def parseVersionCore (cs : List Char) : Option SplitV :=
  let (p, cs) := takeVPfx cs
  let ma := cs.takeWhile Char.isDigit
  let cs := cs.drop ma.length
  if ma.isEmpty then none
  else
    match cs with
    | '.' :: cs =>
      let mi := cs.takeWhile Char.isDigit
      let cs := cs.drop mi.length
      if mi.isEmpty then none
      else
        match cs with
        | '.' :: cs =>
          let (pp, cs) := takeVPfx cs
          let pa := cs.takeWhile Char.isDigit
          let cs := cs.drop pa.length
          if pa.isEmpty then none
          else
            match cs with
            | [] => some ⟨⟨p⟩, ⟨ma⟩, ⟨mi⟩, ⟨pp⟩, ⟨pa⟩, "", none⟩
            | '.' :: cs =>
              let (ep, cs) := takeVPfx cs
              let ex := cs.takeWhile Char.isDigit
              let cs := cs.drop ex.length
              if ex.isEmpty then none
              else
                match cs with
                | [] => some ⟨⟨p⟩, ⟨ma⟩, ⟨mi⟩, ⟨pp⟩, ⟨pa⟩, ⟨ep⟩, some ⟨ex⟩⟩
                | _ => none
            | _ => none
        | _ => none
    | _ => none

/-- `_split_version`: match the stripped string against the version grammar
(`None` on failure; the source raises there, see `_bump_version_string`). -/
def _split_version (version : String) : Option SplitV :=
  parseVersionCore (pyStripL version.data)

/-- Python `int(...)` on a digit-string segment. -/
def segToNat (v : String) : ℕ := digitsToNat v.data

/-- `_bump_version_string`: increment the extra segment when present, else
the patch segment, preserving each segment's `v`/`V` prefix. -/
def _bump_version_string (version : String) : Except DialErr String :=
  match _split_version version with
  | none => .error (.unrecognizedVersion version)
  | some g =>
    match g.extraS with
    | some ex =>
        .ok (g.pfx ++ g.majorS ++ "." ++ g.minorS ++ "." ++ g.patchPfx ++ g.patchS ++
             "." ++ g.extraPfx ++ natRepr (segToNat ex + 1))
    | none =>
        .ok (g.pfx ++ g.majorS ++ "." ++ g.minorS ++ "." ++ g.patchPfx ++
             natRepr (segToNat g.patchS + 1))

/-! ## Target shorthand (`_parse_target_shorthand`, `_format_target_shorthand`) -/

/-- `_parse_target_shorthand`: parse `"STATE->TRANSITION"` or
`"STATE->TRANSITION@DETAIL"` into the target dict; fails when the input is
not a string, the `->` separator is missing, or either side is empty after
stripping. -/
def _parse_target_shorthand (value : J) : Except DialErr (List (String × J)) :=
  match value with
  | .s v =>
    let raw := (pyPartition v "@").1
    let detail := (pyPartition v "@").2.2
    let state := pyStrip (pyPartition raw "->").1
    let sep := (pyPartition raw "->").2.1
    let transition := pyStrip (pyPartition raw "->").2.2
    let detail := pyStrip detail
    if sep = "" ∨ state = "" ∨ transition = "" then .error .malformedShorthand
    else
      .ok ([("state", J.s state), ("transition", J.s transition)] ++
           (if detail ≠ "" then [("detail", J.s detail)] else []))
  | _ => .error (.typeError "Target shorthand must be a string")

/-- `_format_target_shorthand`: `"STATE->TRANSITION"` with `"@DETAIL"`
appended when the detail is truthy. -/
def _format_target_shorthand (state transition : String) (detail : Option String) : String :=
  let value := state ++ "->" ++ transition
  match detail with
  | some d => if d.isEmpty then value else value ++ "@" ++ d
  | none => value

/-! ## Rounding and float formatting -/

/-- Round a rational to the nearest integer, ties to even (Python `round`). -/
def roundHalfEven (v : ℚ) : ℤ :=
  let f := ⌊v⌋
  let r := v - f
  if r < 1/2 then f
  else if 1/2 < r then f + 1
  else if f % 2 = 0 then f else f + 1

/-- Integer thousandths of `round(v, 3)`. -/
def round3K (v : ℚ) : ℤ := roundHalfEven (v * 1000)

/-- Python `round(v, 3)`. -/
def pyRound3 (v : ℚ) : ℚ := (round3K v : ℚ) / 1000

/-- `_is_identity_dial`: `round(float(value), 3) == 1.0`. -/
def _is_identity_dial (value : ℚ) : Bool := pyRound3 value == 1

/-- Thousandths of a rational that is an exact multiple of `1/1000` (all
values formatted below are produced by `pyRound3`). -/
def qTo3 (v : ℚ) : ℤ := ⌊v * 1000⌋

/-- Drop trailing `'0'` characters. -/
def stripTrailingZeros (ds : List Char) : List Char :=
  (ds.reverse.dropWhile (fun c => c == '0')).reverse

/-- Three zero-padded decimal digits of `f < 1000`. -/
def pad3 (f : ℕ) : List Char :=
  [digitChar (f / 100), digitChar (f / 10 % 10), digitChar (f % 10)]

/-- Characters of Python `repr` of the float `k/1000` for `k ≥ 0`
(shortest round-tripping decimal, always keeping one fractional digit). -/
def pyRepr3Nat (k : ℕ) : List Char :=
  natDigits (k / 1000) ++ '.' ::
    (if k % 1000 = 0 then ['0'] else stripTrailingZeros (pad3 (k % 1000)))

/-- Python `repr`/f-string rendering of the float `k/1000`. -/
def pyRepr3 (k : ℤ) : String :=
  if k < 0 then ⟨'-' :: pyRepr3Nat k.natAbs⟩ else ⟨pyRepr3Nat k.toNat⟩

/-- Characters of `trim_float` (`format(x, "f")` then strip trailing zeros
and the dot) applied to the float `k/1000` for `k ≥ 0`. -/
def trimFloat3Nat (k : ℕ) : List Char :=
  if k % 1000 = 0 then natDigits (k / 1000)
  else natDigits (k / 1000) ++ '.' :: stripTrailingZeros (pad3 (k % 1000))

/-- `trim_float` (from `dial_utils.py`) on the float `k/1000`. -/
def trimFloat3 (k : ℤ) : String :=
  if k < 0 then ⟨'-' :: trimFloat3Nat k.natAbs⟩ else ⟨trimFloat3Nat k.toNat⟩

/-- `trim_float` on a rational that is an exact multiple of `1/1000`. -/
def trim_float (v : ℚ) : String := trimFloat3 (qTo3 v)

/-- Python `str.flatten` (`sep.flatten(parts)`). -/
def pyJoin (sep : String) : List String → String
  | [] => ""
  | [p] => p
  | p :: ps => p ++ sep ++ pyJoin sep ps

/-! ## Dial schedule strings -/

/-- `dial` (from `update_dials.py`): flat 36 months at `x`, a 23-month
linear ramp to 1.0, then the fixed `"1.0x for 1"` and `"1x"` tail tokens. -/
def dial (x : ℚ) : String :=
  let x := pyRound3 x
  pyJoin " "
    ([pyRepr3 (qTo3 x) ++ "x for 36"] ++
     (List.range' 1 23).map (fun i =>
       pyRepr3 (qTo3 (pyRound3 (((24 - (i : ℚ)) * x + (i : ℚ) - 1) / 23))) ++ "x for 1") ++
     ["1.0x for 1", "1x"])

/-- Python `str(i)` for an integer. -/
def intRepr (i : ℤ) : String :=
  if i < 0 then ⟨'-' :: natDigits i.natAbs⟩ else natRepr i.toNat

/-- `dial_schedule` (from `dial_utils.py`): flat period, linear ramp of
`ramp_months` steps with value `((N+1-i)*x + i-1)/N` at step `i`, each
rounded to 3 decimals and trimmed, then the fixed `"1.0x for 1 1x"` tail. -/
def dial_schedule (x : ℚ) (flat_months ramp_months : ℤ) : Except DialErr String :=
  if flat_months ≤ 0 then .error .flatMonthsNotPositive
  else if ramp_months ≤ 0 then .error .rampMonthsNotPositive
  else
    let x := pyRound3 x
    .ok (pyJoin " "
      ([trim_float x ++ "x for " ++ intRepr flat_months] ++
       (List.range' 1 ramp_months.toNat).map (fun i =>
         trim_float (pyRound3 ((((ramp_months : ℚ) + 1 - (i : ℚ)) * x + (i : ℚ) - 1) /
           (ramp_months : ℚ))) ++ "x for 1") ++
       ["1.0x for 1 1x"]))

/-! ## Parsing a dial value back (`_parse_dial_value`) -/

/-- Regex `\w` (word character, ASCII). -/
def wordChar (c : Char) : Bool := c.isAlphanum || c == '_'

/-- The `\b` word-boundary test after the `x` of the dial token. -/
def boundaryOk : List Char → Bool
  | [] => true
  | c :: _ => !wordChar c

/-- Anchored match of `\s*([0-9]+(?:\.[0-9]+)?)x\b` (digit runs are maximal,
so the regex is deterministic), returning the numeric group's value. -/
def parseLeadingDialL (cs : List Char) : Option ℚ :=
  let cs := cs.dropWhile isPySpace
  let ds := cs.takeWhile Char.isDigit
  let rest := cs.drop ds.length
  if ds.isEmpty then none
  else
    match rest with
    | '.' :: r1 =>
      let fs := r1.takeWhile Char.isDigit
      let r2 := r1.drop fs.length
      if fs.isEmpty then none
      else
        match r2 with
        | 'x' :: r3 =>
          if boundaryOk r3 then
            some ((digitsToNat ds : ℚ) + mkRat (digitsToNat fs) (10 ^ fs.length))
          else none
        | _ => none
    | 'x' :: r3 => if boundaryOk r3 then some ((digitsToNat ds : ℚ)) else none
    | _ => none

/-- `_parse_dial_value`: parse the leading `"<number>x"` token of a detail
string, falling back to `default` for non-strings or non-matching strings. -/
def _parse_dial_value (detail : Option J) (default : ℚ) : ℚ :=
  match detail with
  | some (.s str) =>
    match parseLeadingDialL str.data with
    | some v => v
    | none => default
  | _ => default

/-! ## Target resolution -/

/-- `_format_path`: human-readable path used in error payloads. -/
def _format_path (state transition : String) (detail : Option String) : String :=
  let base := "State[" ++ state ++ "].Transitions[" ++ transition ++ "]"
  match detail with
  | some d => base ++ ".Detail[" ++ d ++ "]"
  | none => base

/-- Python `v[k]`: `KeyError` on a missing key, `TypeError` on a
non-dict receiver. -/
def jIndex (v : J) (k : String) : Except DialErr J :=
  match v with
  | .obj kvs =>
    match lookupKey kvs k with
    | some w => .ok w
    | none => .error .keyMissing
  | _ => .error (.typeError "indexing a non-object")

/-- `_get_transition_root`: `data["State"][state]["Transitions"][transition]`,
with any `KeyError` rewrapped as the missing-transition-path error. -/
def _get_transition_root (data : J) (state transition : String) : Except DialErr J :=
  match (do
      let a ← jIndex data "State"
      let b ← jIndex a state
      let c ← jIndex b "Transitions"
      jIndex c transition : Except DialErr J) with
  | .ok v => .ok v
  | .error .keyMissing => .error (.missingTransitionPath state transition)
  | .error e => .error e

/-- `_target_for_shock`: resolve the leaf node of a
`(state, transition, detail?)` triple. -/
def _target_for_shock (data : J) (state transition : String) (detail : Option String) :
    Except DialErr J := do
  let root ← _get_transition_root data state transition
  match detail with
  | none => pure root
  | some d =>
    match root with
    | .obj rkvs =>
      match lookupKey rkvs "Detail" with
      | some (.obj dkvs) =>
        match lookupKey dkvs d with
        | some node => pure node
        | none => .error (.missingDetailPath state transition d)
      | _ => .error (.missingDetailPath state transition d)
    | _ => .error (.typeError "transition root is not an object")

/-- Update the value stored at `k` when present (no-op otherwise). -/
def updateKey (kvs : List (String × J)) (k : String) (f : J → J) : List (String × J) :=
  match lookupKey kvs k with
  | some v => setKey kvs k (f v)
  | none => kvs

/-- `updateKey` lifted to a `J` that should be a dict. -/
def updVal (v : J) (k : String) (f : J → J) : J :=
  match v with
  | .obj kvs => .obj (updateKey kvs k f)
  | x => x

/-- Write a mutated leaf node back along its resolved path (the functional
rendering of the source's in-place mutation of the node returned by
`_target_for_shock`). -/
def setLeaf (data : J) (state transition : String) (detail : Option String) (node : J) : J :=
  updVal data "State" (fun st =>
    updVal st state (fun sn =>
      updVal sn "Transitions" (fun tr =>
        updVal tr transition (fun tn =>
          match detail with
          | none => node
          | some d => updVal tn "Detail" (fun dr => updVal dr d (fun _ => node))))))

/-! ## Shock representation manager -/

/-- `_is_cohort_shock`: a dict with `HasCohort` identically `True` or a
`Cohorts` key. -/
def _is_cohort_shock : J → Bool
  | .obj kvs => lookupKey kvs "HasCohort" == some (J.b true) || hasKey kvs "Cohorts"
  | _ => false

/-- The simple shock written by `_upsert_simple_shock`. -/
def mkSimpleShock (start_date : J) (dial_value : ℚ) : J :=
  .obj [("StartDate", start_date), ("Detail", .s (dial dial_value))]

/-- `_upsert_simple_shock`: write `{StartDate, Detail: dial(v)}`, refusing
when the existing shock is a dict with a `Cohorts` key or a truthy
`HasCohort`. -/
def _upsert_simple_shock (target : List (String × J)) (state transition : String)
    (detail : Option String) (start_date : J) (dial_value : ℚ) :
    Except DialErr (List (String × J)) :=
  let refuse :=
    match lookupKey target "Shock" with
    | some (.obj skvs) =>
      hasKey skvs "Cohorts" ||
        (match pyGet skvs "HasCohort" with
         | some v => jTruthy v
         | none => false)
    | _ => false
  if refuse then .error (.simpleOverwriteOfCohort (_format_path state transition detail))
  else .ok (setKey target "Shock" (mkSimpleShock start_date dial_value))

/-- `_ensure_cohort_shock`: return the (possibly created, converted or
normalized) cohort shock dict for the target; the caller stores it back. -/
def _ensure_cohort_shock (target : List (String × J)) (path : String)
    (allow_create allow_convert : Bool) : Except DialErr (List (String × J)) := do
  let shock ← match pyGet target "Shock" with
    | none =>
      if !allow_create then throw (.missingCohortShock path)
      else pure (J.obj [("HasCohort", .b true), ("Cohorts", .arr [])])
    | some v => pure v
  let skvs ← match shock with
    | .obj skvs => pure skvs
    | _ => throw (.shockNotObject path)
  let skvs ← if !hasKey skvs "Cohorts" then
      if lookupKey skvs "HasCohort" = some (J.b true) then
        pure (setKey skvs "Cohorts" (.arr []))
      else if allow_convert then
        pure [("HasCohort", J.b true), ("Cohorts", J.arr [])]
      else throw (.cohortConversionRefused path)
    else pure skvs
  let skvs := if lookupKey skvs "HasCohort" ≠ some (J.b true) then
      setKey skvs "HasCohort" (.b true)
    else skvs
  match lookupKey skvs "Cohorts" with
  | some (.arr _) => pure skvs
  | _ => throw (.cohortsNotList path)

/-- `_upsert_cohort_shock`: ensure a cohort container, then update every
entry whose `Cohort` equals the requested name, appending a fresh entry when
none matches and creation is allowed (`add_cohort = add_cohort or
convert_cohort` as in the source). -/
def _upsert_cohort_shock (target : List (String × J)) (state transition : String)
    (detail : Option String) (cohort : J) (start_date : J) (dial_value : ℚ)
    (add_cohort convert_cohort : Bool) : Except DialErr (List (String × J)) := do
  let add_cohort := add_cohort || convert_cohort
  let path := _format_path state transition detail
  let skvs ← _ensure_cohort_shock target path add_cohort convert_cohort
  let cohorts ← match lookupKey skvs "Cohorts" with
    | some (.arr entries) => pure entries
    | _ => throw (.cohortsNotList path)
  let entries ← cohorts.mapM (fun e =>
    match e with
    | J.obj ekvs => pure ekvs
    | _ => throw (.typeError "cohort entry is not an object"))
  let isMatch := fun (ekvs : List (String × J)) => pyGet ekvs "Cohort" == some cohort
  let entries ← if !entries.any isMatch then
      if !add_cohort then throw (.cohortNotFound cohort path)
      else pure (entries ++ [[("Cohort", cohort)]])
    else pure entries
  let entries := entries.map (fun ekvs =>
    if isMatch ekvs then
      setKey (setKey ekvs "StartDate" start_date) "Detail" (.s (dial dial_value))
    else ekvs)
  pure (setKey target "Shock" (.obj (setKey skvs "Cohorts" (.arr (entries.map J.obj)))))

/-- `_remove_shock`: delete the whole `Shock` key (no cohort given, or the
shock is not cohort-shaped); on a cohort shock remove the matching entries,
pruning the key when the list becomes empty. -/
def _remove_shock (target : List (String × J)) (cohort : Option J) :
    Except DialErr (List (String × J)) :=
  match pyGet target "Shock" with
  | none => pure target
  | some shock =>
    match cohort with
    | none => pure (popKey target "Shock")
    | some c =>
      if !_is_cohort_shock shock then pure (popKey target "Shock")
      else
        match shock with
        | .obj skvs =>
          match pyGet skvs "Cohorts" with
          | some (.arr cohorts) => do
            let entries ← cohorts.mapM (fun e =>
              match e with
              | J.obj ekvs => pure ekvs
              | _ => throw (.typeError "cohort entry is not an object"))
            let remaining := entries.filter (fun ekvs => !(pyGet ekvs "Cohort" == some c))
            if remaining.length = entries.length then pure target
            else if !remaining.isEmpty then
              pure (setKey target "Shock"
                (.obj (setKey skvs "Cohorts" (.arr (remaining.map J.obj)))))
            else pure (popKey target "Shock")
          | _ => pure target
        | _ => pure target

/-! ## Override expansion and application -/

/-- Python `dict.update` folded over an association list. -/
def mergeUpdate (base upd : List (String × J)) : List (String × J) :=
  upd.foldl (fun acc kv => setKey acc kv.1 kv.2) base

/-- `_expand_override_targets`: normalize a spec into atomic overrides.
Rejects `target` together with `targets`, and bare `state`/`transition`
next to either; a spec with neither expands to itself. -/
def _expand_override_targets (override : J) : Except DialErr (List J) := do
  let okvs ← match override with
    | .obj kvs => pure kvs
    | _ => throw .overrideNotObject
  let targets := pyGet okvs "targets"
  let target := pyGet okvs "target"
  if targets.isSome && target.isSome then throw .conflictingTargetSpec
  else if targets.isNone && target.isNone then pure [override]
  else do
    if hasKey okvs "state" || hasKey okvs "transition" then throw .ambiguousOverrideShape
    let base := okvs.filter (fun kv => !(kv.1 == "targets" || kv.1 == "target"))
    match target with
    | some tv => do
      let tkvs ← _parse_target_shorthand tv
      pure [J.obj (mergeUpdate base tkvs)]
    | none => do
      let tlist ← match targets with
        | some (.arr l) => if l.isEmpty then throw .targetsEmpty else pure l
        | _ => throw .targetsEmpty
      let expanded ← tlist.mapM (fun te => do
        match te with
        | J.s v => _parse_target_shorthand (.s v)
        | J.obj tkvs =>
          if !hasKey tkvs "state" || !hasKey tkvs "transition" then
            throw .targetMissingStateTransition
          else pure tkvs
        | _ => throw .targetEntryInvalid)
      pure (expanded.map (fun tkvs => J.obj (mergeUpdate base tkvs)))

/-- `_apply_dial_override`: resolve the target, then remove (identity dial),
upsert a cohort entry (cohort given, `convert_cohort` defaulting to true,
`add_cohort` to false) or upsert a simple shock. -/
def _apply_dial_override (data : J) (override : J) : Except DialErr J := do
  let okvs ← match override with
    | .obj kvs => pure kvs
    | _ => throw .overrideNotObject
  let state ← match lookupKey okvs "state" with
    | some (.s v) => pure v
    | some _ => throw (.typeError "state must be a string")
    | none => throw (.missingField "state")
  let transition ← match lookupKey okvs "transition" with
    | some (.s v) => pure v
    | some _ => throw (.typeError "transition must be a string")
    | none => throw (.missingField "transition")
  let detail ← match pyGet okvs "detail" with
    | none => pure none
    | some (.s d) => pure (some d)
    | some _ => throw (.typeError "detail must be a string")
  let start_date ← match lookupKey okvs "start_date" with
    | some v => pure v
    | none => throw (.missingField "start_date")
  let dial_value ← match lookupKey okvs "dial" with
    | some (.q v) => pure v
    | some _ => throw (.typeError "dial must be a number")
    | none => throw (.missingField "dial")
  let target ← _target_for_shock data state transition detail
  let tkvs ← match target with
    | .obj kvs => pure kvs
    | _ => throw (.typeError "target is not an object")
  let cohort := pyGet okvs "cohort"
  if _is_identity_dial dial_value then do
    let tkvs2 ← _remove_shock tkvs cohort
    pure (setLeaf data state transition detail (.obj tkvs2))
  else
    match cohort with
    | some c => do
      let convert_cohort := match lookupKey okvs "convert_cohort" with
        | none => true
        | some v => jTruthy v
      let add_cohort := match lookupKey okvs "add_cohort" with
        | none => false
        | some v => jTruthy v
      let tkvs2 ← _upsert_cohort_shock tkvs state transition detail c start_date
        dial_value add_cohort convert_cohort
      pure (setLeaf data state transition detail (.obj tkvs2))
    | none => do
      let tkvs2 ← _upsert_simple_shock tkvs state transition detail start_date dial_value
      pure (setLeaf data state transition detail (.obj tkvs2))

/-- `apply_dial_overrides`: apply the specs in order, skipping disabled ones
(`disabled is True` or `enabled is False`) and expanding multi-target specs. -/
def apply_dial_overrides (data : J) (overrides : List J) : Except DialErr J :=
  overrides.foldlM (fun d override =>
    match override with
    | J.obj okvs =>
      if lookupKey okvs "disabled" == some (J.b true) ||
         lookupKey okvs "enabled" == some (J.b false) then pure d
      else do
        let expanded ← _expand_override_targets override
        expanded.foldlM _apply_dial_override d
    | _ => throw .overrideNotObject) data

/-! ## Reverse generator -/

/-- A flattened leaf address plus its node, as yielded by
`_iter_transition_targets`. -/
abbrev Leaf := String × String × Option String × J

/-- The leaves contributed by one `(transition_name, transition)` entry:
the `Detail` group's children when `Detail` is a dict, else the transition
node itself. -/
def leavesOfTransition (state_name : String) (p : String × J) : List Leaf :=
  match p.2 with
  | .obj tnkvs =>
    match lookupKey tnkvs "Detail" with
    | some (.obj dkvs) => dkvs.map (fun dn => (state_name, p.1, some dn.1, dn.2))
    | _ => [(state_name, p.1, none, p.2)]
  | _ => []

/-- The leaves contributed by one `(state_name, state)` entry (states whose
`Transitions` is not a dict are skipped, as in the source). -/
def leavesOfState (p : String × J) : List Leaf :=
  match p.2 with
  | .obj skvs =>
    match (lookupKey skvs "Transitions").getD (J.obj []) with
    | .obj tkvs => (tkvs.map (leavesOfTransition p.1)).flatten
    | _ => []
  | _ => []

/-- `_iter_transition_targets`: walk every leaf transition node, flattening
`Detail` groupings; raises on a non-dict `State` value, state node or
transition node. -/
def _iter_transition_targets (data : J) : Except DialErr (List Leaf) := do
  let dkvs ← match data with
    | .obj kvs => pure kvs
    | _ => throw (.typeError "config root is not an object")
  let states ← match (lookupKey dkvs "State").getD (J.obj []) with
    | .obj skvs => pure skvs
    | _ => throw .stateNotObject
  let _ ← states.mapM (fun p =>
    match p.2 with
    | J.obj skvs =>
      match (lookupKey skvs "Transitions").getD (J.obj []) with
      | .obj tkvs =>
        tkvs.mapM (fun t =>
          match t.2 with
          | J.obj _ => pure ()
          | _ => throw (.typeError "transition node is not an object"))
      | _ => pure [()]
    | _ => throw (.typeError "state node is not an object"))
  pure ((states.map leavesOfState).flatten)

/-- `_extract_model_detail`: the node's own `Detail` value when it is a
string (the model detail tag). -/
def _extract_model_detail (target : J) : Option String :=
  match target with
  | .obj kvs =>
    match lookupKey kvs "Detail" with
    | some (.s d) => some d
    | _ => none
  | _ => none

/-- The `StartDate` chosen by the generator for a simple or cohort entry:
the stored value when truthy, else the default (`... or start_date`). -/
def genStartDate (kvs : List (String × J)) (default_start_date : String) : J :=
  match pyGet kvs "StartDate" with
  | some v => if jTruthy v then v else J.s default_start_date
  | none => J.s default_start_date

/-- The overrides emitted by `generate_all_transition_overrides` for one
leaf (before grouping/compaction). -/
def overridesForLeaf (state transition : String) (detail_name : Option String)
    (target : J) (default_start_date : String) (default_dial : ℚ)
    (only_with_shock : Bool) : List J :=
  let shock : Option J := match target with
    | .obj tkvs => pyGet tkvs "Shock"
    | _ => none
  let shockIsDict : Bool := match shock with
    | some (.obj _) => true
    | _ => false
  if only_with_shock && !shockIsDict then []
  else
    let model_detail := _extract_model_detail target
    let withDetail := fun (o : List (String × J)) =>
      match detail_name with
      | some dn => o ++ [("detail", J.s dn)]
      | none => o
    let withModelDetail := fun (o : List (String × J)) =>
      match model_detail with
      | some md => o ++ [("_model_detail", J.s md)]
      | none => o
    if _is_cohort_shock (shock.getD .null) then
      let cohorts : Option (List J) := match shock with
        | some (.obj skvs) =>
          match pyGet skvs "Cohorts" with
          | some (.arr l) => some l
          | _ => none
        | _ => none
      match cohorts with
      | some (c0 :: cs) =>
        (c0 :: cs).foldl (fun acc centry =>
          match centry with
          | J.obj ekvs =>
            let cohort_name : J := match pyGet ekvs "Cohort" with
              | some v => if jTruthy v then v else J.s "COHORT_NAME"
              | none => J.s "COHORT_NAME"
            let start_date := genStartDate ekvs default_start_date
            let dial_value := _parse_dial_value (pyGet ekvs "Detail") default_dial
            if _is_identity_dial dial_value then acc
            else
              acc ++ [J.obj (withModelDetail (withDetail
                [("state", J.s state), ("transition", J.s transition),
                 ("cohort", cohort_name), ("start_date", start_date),
                 ("dial", J.q dial_value)]))]
          | _ => acc) []
      | _ =>
        [J.obj (withDetail
          [("state", J.s state), ("transition", J.s transition),
           ("cohort", J.s "COHORT_NAME"), ("start_date", J.s default_start_date),
           ("dial", J.q default_dial)])]
    else
      let start_date : J := match shock with
        | some (.obj skvs) => genStartDate skvs default_start_date
        | _ => J.s default_start_date
      let dial_value : ℚ := match shock with
        | some (.obj skvs) => _parse_dial_value (pyGet skvs "Detail") default_dial
        | _ => default_dial
      if _is_identity_dial dial_value then []
      else
        [J.obj (withModelDetail (withDetail
          [("state", J.s state), ("transition", J.s transition),
           ("start_date", start_date), ("dial", J.q dial_value)]))]

/-- `_compact_single_target_overrides`: rewrite atomic overrides with
truthy string `state`/`transition` into shorthand `target` form. -/
def _compact_single_target_overrides (overrides : List J) : List J :=
  overrides.map (fun o =>
    match o with
    | J.obj okvs =>
      if hasKey okvs "targets" || hasKey okvs "target" then o
      else
        match lookupKey okvs "state", lookupKey okvs "transition" with
        | some (.s state), some (.s transition) =>
          if state.isEmpty || transition.isEmpty then o
          else
            let detailStr : Option String := match pyGet okvs "detail" with
              | some (.s d) => some d
              | _ => none
            let okvs := setKey okvs "target"
              (J.s (_format_target_shorthand state transition detailStr))
            let okvs := popKey (popKey okvs "state") "transition"
            let okvs := if (pyGet okvs "detail").isSome then popKey okvs "detail" else okvs
            J.obj okvs
        | _, _ => o
    | _ => o)

/-- Grouping key: `(model detail tag, cohort, start_date, dial)`. -/
abbrev GKey := J × Option J × Option J × Option J

/-- Lookup in the grouping table. -/
def lookupG : List (GKey × List J) → GKey → Option (List J)
  | [], _ => none
  | (k, v) :: rest, key => if k = key then some v else lookupG rest key

/-- Replace an entry of the grouping table. -/
def replaceG : List (GKey × List J) → GKey → List J → List (GKey × List J)
  | [], key, v => [(key, v)]
  | (k, w) :: rest, key, v =>
    if k = key then (k, v) :: rest else (k, w) :: replaceG rest key v

/-- `_group_overrides_by_model_detail`: merge overrides sharing a grouping
key into one multi-target override, preserving first-appearance order;
singleton groups stay atomic. -/
def _group_overrides_by_model_detail (overrides : List J) (compact_targets : Bool) :
    List J :=
  let step := fun (st : List (Sum J GKey) × List (GKey × List J)) (o : J) =>
    match o with
    | J.obj okvs =>
      let o2 := J.obj (popKey okvs "_model_detail")
      match pyGet okvs "_model_detail" with
      | none => (st.1 ++ [Sum.inl o2], st.2)
      | some md =>
        let key : GKey := (md, getJ o2 "cohort", getJ o2 "start_date", getJ o2 "dial")
        match lookupG st.2 key with
        | none => (st.1 ++ [Sum.inr key], replaceG st.2 key [o2])
        | some entries => (st.1, replaceG st.2 key (entries ++ [o2]))
    | _ => (st.1 ++ [Sum.inl o], st.2)
  let sg := overrides.foldl step ([], [])
  sg.1.foldl (fun acc item =>
    match item with
    | .inl o => acc ++ [o]
    | .inr key =>
      match lookupG sg.2 key with
      | none => acc
      | some [] => acc
      | some [single] => acc ++ [single]
      | some (base :: more) =>
        let entries := base :: more
        let strOf := fun (e : J) (k : String) =>
          match getJ e k with
          | some (.s v) => v
          | _ => ""
        let strOptOf := fun (e : J) =>
          match getJ e "detail" with
          | some (.s v) => some v
          | _ => none
        let targetsList := entries.map (fun e =>
          if compact_targets then
            J.s (_format_target_shorthand (strOf e "state") (strOf e "transition")
              (strOptOf e))
          else
            J.obj ([("state", (getJ e "state").getD .null),
                    ("transition", (getJ e "transition").getD .null)] ++
                   (match getJ e "detail" with
                    | some d => [("detail", d)]
                    | none => [])))
        let grouped := [("model_detail", key.1), ("targets", J.arr targetsList)]
        let grouped := ["cohort", "start_date", "dial"].foldl (fun g k =>
          match base with
          | J.obj bkvs =>
            match lookupKey bkvs k with
            | some v => g ++ [(k, v)]
            | none => g
          | _ => g) grouped
        acc ++ [J.obj grouped]) []

/-- `generate_all_transition_overrides`: walk all leaves and emit the
override list describing the document's current shock state. -/
def generate_all_transition_overrides (data : J) (default_start_date : String)
    (default_dial : ℚ) (group_by_model_detail only_with_shock compact_targets : Bool) :
    Except DialErr (List J) := do
  let leaves ← _iter_transition_targets data
  let overrides := (leaves.map (fun l =>
    overridesForLeaf l.1 l.2.1 l.2.2.1 l.2.2.2 default_start_date default_dial
      only_with_shock)).flatten
  let result :=
    if !group_by_model_detail then
      overrides.map (fun o =>
        match o with
        | J.obj kvs => J.obj (popKey kvs "_model_detail")
        | x => x)
    else
      _group_overrides_by_model_detail overrides compact_targets
  pure (if compact_targets then _compact_single_target_overrides result else result)

/-- Remove the `Shock` key of a leaf node (helper for the round-trip
claim's identity reset). -/
def resetLeafNode : J → J
  | .obj kvs => .obj (popKey kvs "Shock")
  | x => x

/-! ## Helper definitions used by the claim statements -/

/-- The boolean value of an override flag field with its default
(`override.get(name, default)` used under Python truthiness). -/
def overrideFlag (okvs : List (String × J)) (name : String) (default : Bool) : Bool :=
  match lookupKey okvs name with
  | none => default
  | some v => jTruthy v

/-- Every cohort entry is a dict and none has `Cohort` equal to `c`. -/
def entriesObjNoMatch (entries : List (List (String × J))) (c : J) : Bool :=
  entries.all (fun ekvs => !(pyGet ekvs "Cohort" == some c))

/-- The entries kept by `_remove_shock` for cohort `c`. -/
def filterEntriesNot (entries : List (List (String × J))) (c : J) :
    List (List (String × J)) :=
  entries.filter (fun ekvs => !(pyGet ekvs "Cohort" == some c))

/-- The ramp values named by the dial-string determinism claim:
`((N+1-i)*x + i-1)/N` for `i = 1..23` at `x = 1.05`, each rounded to
3 decimals. -/
def c6RampVals : List ℚ :=
  (List.range' 1 23).map (fun i =>
    pyRound3 ((((23 : ℚ) + 1 - (i : ℚ)) * 1.05 + (i : ℚ) - 1) / 23))

/-- The compacted override the generator emits for one simple-shock (or
shock-free) leaf. -/
def mkCompactOverride (state transition : String) (detail : Option String)
    (start_date : J) (dial_value : ℚ) : J :=
  J.obj [("start_date", start_date), ("dial", J.q dial_value),
         ("target", J.s (_format_target_shorthand state transition detail))]

/-- The generator's start date for a leaf node (non-cohort branch). -/
def leafStartDateJ (node : J) (default_start_date : String) : J :=
  match node with
  | .obj tkvs =>
    match pyGet tkvs "Shock" with
    | some (.obj skvs) => genStartDate skvs default_start_date
    | _ => J.s default_start_date
  | _ => J.s default_start_date

/-- The generator's dial value for a leaf node (non-cohort branch). -/
def leafDialQ (node : J) (default_dial : ℚ) : ℚ :=
  match node with
  | .obj tkvs =>
    match pyGet tkvs "Shock" with
    | some (.obj skvs) => _parse_dial_value (pyGet skvs "Detail") default_dial
    | _ => default_dial
  | _ => default_dial

/-- The compacted override list for one leaf of a simple-shock document. -/
def leafOverride (default_start_date : String) (default_dial : ℚ) (l : Leaf) : List J :=
  if _is_identity_dial (leafDialQ l.2.2.2 default_dial) then []
  else [mkCompactOverride l.1 l.2.1 l.2.2.1
    (leafStartDateJ l.2.2.2 default_start_date) (leafDialQ l.2.2.2 default_dial)]

/-- A name safe for target shorthand round-tripping: nonempty, stripped,
and free of the `@` and `->` separators. -/
def wfName (v : String) : Bool :=
  !v.isEmpty && pyStrip v == v &&
    (splitFirst ['@'] v.data).isNone && (splitFirst ['-', '>'] v.data).isNone

/-- A leaf's shock is simple or absent (a `None` value counts as absent, as
`dict.get` cannot distinguish them). -/
def wfShock : Option J → Bool
  | none => true
  | some .null => true
  | some (.obj skvs) =>
    !(hasKey skvs "Cohorts") && !(lookupKey skvs "HasCohort" == some (J.b true))
  | some _ => false

/-- A leaf node: a dict with distinct keys and a simple-or-absent shock. -/
def wfLeaf : J → Bool
  | .obj kvs => distinctKeys kvs && wfShock (lookupKey kvs "Shock")
  | _ => false

/-- One transition entry: shorthand-safe name; a grouped node has distinct,
shorthand-safe detail names with well-formed leaves, a plain node is itself
a well-formed leaf. -/
def wfTransitionEntry (p : String × J) : Bool :=
  wfName p.1 &&
  (match p.2 with
   | .obj tnkvs =>
     match lookupKey tnkvs "Detail" with
     | some (.obj dkvs) =>
       distinctKeys dkvs && dkvs.all (fun dn => wfName dn.1 && wfLeaf dn.2)
     | _ => wfLeaf p.2
   | _ => false)

/-- One state entry: shorthand-safe name, dict node; when `Transitions` is a
dict it has distinct keys and well-formed transition entries. -/
def wfStateEntry (p : String × J) : Bool :=
  wfName p.1 &&
  (match p.2 with
   | .obj skvs =>
     match (lookupKey skvs "Transitions").getD (J.obj []) with
     | .obj tkvs => distinctKeys tkvs && tkvs.all wfTransitionEntry
     | _ => true
   | _ => false)

/-- Well-formedness of a document for the round-trip claim: a dict root
whose `State` is a dict with distinct keys of well-formed state entries,
every leaf holding only a simple shock or none, and every path name safe
for the shorthand. -/
def wfDoc : J → Bool
  | .obj dkvs =>
    match lookupKey dkvs "State" with
    | some (.obj states) => distinctKeys states && states.all wfStateEntry
    | _ => false
  | _ => false

/-- Two leaf addresses resolve along different branches (never a grouped
address against its own plain transition, which `_iter_transition_targets`
cannot produce). -/
def pathDisjoint (p p2 : String × String × Option String) : Prop :=
  p.1 ≠ p2.1 ∨ p.2.1 ≠ p2.2.1 ∨
    (∃ d d2, p.2.2 = some d ∧ p2.2.2 = some d2 ∧ d ≠ d2)

/-- Reset one transition-entry value: strip the `Shock` of the plain leaf,
or of every detail leaf of a grouped node. -/
def resetTransitionNode : J → J
  | .obj tnkvs =>
    match lookupKey tnkvs "Detail" with
    | some (.obj dkvs) =>
      .obj (updateKey tnkvs "Detail" (fun _ =>
        .obj (dkvs.map (fun dn => (dn.1, resetLeafNode dn.2)))))
    | _ => resetLeafNode (J.obj tnkvs)
  | x => x

/-- Reset every transition of a `Transitions` dict. -/
def resetTransitions : J → J
  | .obj tkvs => .obj (tkvs.map (fun t => (t.1, resetTransitionNode t.2)))
  | x => x

/-- Reset one state node. -/
def resetStateNode (v : J) : J := updVal v "Transitions" resetTransitions

/-- The identity-reset copy from the round-trip claim: the same document
with every leaf's `Shock` key removed (structure untouched). -/
def resetDoc (data : J) : J :=
  updVal data "State" (fun st =>
    match st with
    | .obj states => .obj (states.map (fun p => (p.1, resetStateNode p.2)))
    | x => x)

/-- The leaf list `_iter_transition_targets` yields (its pure part, the
flattening of `leavesOfState` over the `State` entries). -/
def docLeaves (data : J) : List Leaf :=
  match data with
  | .obj dkvs =>
    match (lookupKey dkvs "State").getD (J.obj []) with
    | .obj states => (states.map leavesOfState).flatten
    | _ => []
  | _ => []

/-- Drop the transient `_model_detail` tag from an override (the cleanup
pass run when `group_by_model_detail` is false). -/
def popMD (o : J) : J :=
  match o with
  | J.obj kvs => J.obj (popKey kvs "_model_detail")
  | x => x

/-- The address part of a leaf. -/
def leafAddr (l : Leaf) : String × String × Option String := (l.1, l.2.1, l.2.2.1)

/-- Shorthand-safety of one leaf address (every path component round-trips
through the target shorthand). -/
def wfAddr (l : Leaf) : Bool :=
  wfName l.1 && wfName l.2.1 &&
    (match l.2.2.1 with
     | some d => wfName d
     | none => true)

/-- A leaf node after the round trip: `Shock` removed for an identity
multiplier, else replaced by the regenerated simple shock. -/
def finalLeafKvs (nodeKvs : List (String × J)) (dsd : String) (dd : ℚ) :
    List (String × J) :=
  if _is_identity_dial (leafDialQ (J.obj nodeKvs) dd) then popKey nodeKvs "Shock"
  else popKey nodeKvs "Shock" ++
    [("Shock", mkSimpleShock (leafStartDateJ (J.obj nodeKvs) dsd)
      (leafDialQ (J.obj nodeKvs) dd))]

/-- The folding step of `apply_dial_overrides` (one override spec applied
to the accumulated document). -/
def applyStep (d : J) (override : J) : Except DialErr J :=
  match override with
  | J.obj okvs =>
    if lookupKey okvs "disabled" == some (J.b true) ||
       lookupKey okvs "enabled" == some (J.b false) then pure d
    else do
      let expanded ← _expand_override_targets override
      expanded.foldlM _apply_dial_override d
  | _ => throw .overrideNotObject

/-! # Lemmas: association-list operations -/

theorem lookup_setKey_self (kvs : List (String × J)) (k : String) (v : J) :
    lookupKey (setKey kvs k v) k = some v := by
  induction kvs with
  | nil => simp [setKey, lookupKey]
  | cons p rest ih =>
    obtain ⟨k2, w⟩ := p
    by_cases h : k2 = k
    · simp [setKey, h, lookupKey]
    · simp [setKey, h, lookupKey, ih]

theorem lookup_setKey_ne (kvs : List (String × J)) (k k2 : String) (v : J)
    (h : k2 ≠ k) : lookupKey (setKey kvs k v) k2 = lookupKey kvs k2 := by
  induction kvs with
  | nil =>
    simp only [setKey, lookupKey]
    rw [if_neg (Ne.symm h)]
  | cons p rest ih =>
    obtain ⟨k3, w⟩ := p
    by_cases h3 : k3 = k
    · subst h3
      simp only [setKey, if_pos rfl, lookupKey]
      rw [if_neg (Ne.symm h), if_neg (Ne.symm h)]
    · simp only [setKey, if_neg h3, lookupKey, ih]

theorem setKey_eq_of_lookup (kvs : List (String × J)) (k : String) (v : J)
    (h : lookupKey kvs k = some v) : setKey kvs k v = kvs := by
  induction kvs with
  | nil => simp [lookupKey] at h
  | cons p rest ih =>
    obtain ⟨k2, w⟩ := p
    by_cases h2 : k2 = k
    · subst h2
      simp [lookupKey] at h
      simp [setKey, h]
    · simp [lookupKey, h2] at h
      simp [setKey, h2, ih h]

theorem lookup_popKey_ne (kvs : List (String × J)) (k k2 : String)
    (h : k2 ≠ k) : lookupKey (popKey kvs k) k2 = lookupKey kvs k2 := by
  induction kvs with
  | nil => rfl
  | cons p rest ih =>
    obtain ⟨k3, w⟩ := p
    by_cases h3 : k3 = k
    · have hne : ¬ k3 = k2 := by
        rw [h3]
        exact Ne.symm h
      rw [show popKey ((k3, w) :: rest) k = rest from by simp [popKey, h3]]
      rw [show lookupKey ((k3, w) :: rest) k2 = lookupKey rest k2 from by
        simp [lookupKey, hne]]
    · rw [show popKey ((k3, w) :: rest) k = (k3, w) :: popKey rest k from by
        simp [popKey, h3]]
      simp only [lookupKey, ih]

theorem distinctKeys_cons (k : String) (v : J) (rest : List (String × J)) :
    distinctKeys ((k, v) :: rest) =
      (rest.all (fun p => !(p.1 == k)) && distinctKeys rest) := rfl

theorem lookup_none_of_all_ne (kvs : List (String × J)) (k : String)
    (h : kvs.all (fun p => !(p.1 == k)) = true) : lookupKey kvs k = none := by
  induction kvs with
  | nil => simp [lookupKey]
  | cons p rest ih =>
    rw [List.all_cons, Bool.and_eq_true] at h
    obtain ⟨k2, w⟩ := p
    have hne : k2 ≠ k := by
      have := h.1
      simpa using this
    simp only [lookupKey, if_neg hne]
    exact ih h.2

theorem lookup_popKey_self (kvs : List (String × J)) (k : String)
    (h : distinctKeys kvs = true) : lookupKey (popKey kvs k) k = none := by
  induction kvs with
  | nil => simp [popKey, lookupKey]
  | cons p rest ih =>
    obtain ⟨k2, w⟩ := p
    rw [distinctKeys_cons, Bool.and_eq_true] at h
    by_cases h2 : k2 = k
    · rw [show popKey ((k2, w) :: rest) k = rest from by simp [popKey, h2]]
      exact lookup_none_of_all_ne rest k (h2 ▸ h.1)
    · rw [show popKey ((k2, w) :: rest) k = (k2, w) :: popKey rest k from by
        simp [popKey, h2]]
      simp only [lookupKey]
      rw [if_neg h2]
      exact ih h.2

theorem lookup_of_mem_distinct (kvs : List (String × J)) (k : String) (v : J)
    (hd : distinctKeys kvs = true) (hm : (k, v) ∈ kvs) :
    lookupKey kvs k = some v := by
  induction kvs with
  | nil => simp at hm
  | cons p rest ih =>
    obtain ⟨k2, w⟩ := p
    rw [distinctKeys_cons, Bool.and_eq_true] at hd
    rcases List.mem_cons.mp hm with he | hm2
    · cases he
      simp [lookupKey]
    · have hne : ¬ k2 = k := by
        have := List.all_eq_true.mp hd.1 (k, v) hm2
        intro he2
        rw [he2] at this
        simp at this
      simp only [lookupKey]
      rw [if_neg hne]
      exact ih hd.2 hm2

theorem lookup_map_value (kvs : List (String × J)) (f : J → J) (k : String) :
    lookupKey (kvs.map (fun p => (p.1, f p.2))) k = (lookupKey kvs k).map f := by
  induction kvs with
  | nil => rfl
  | cons p rest ih =>
    obtain ⟨k2, w⟩ := p
    by_cases h : k2 = k
    · simp [lookupKey, h]
    · simp only [List.map_cons, lookupKey]
      rw [if_neg h, if_neg h]
      exact ih

/-! # Claim theorems: dial string and version bump -/

set_option maxRecDepth 4000 in
/-- C6: `dial_schedule(1.05)` with `flat_months = 48` and `ramp_months = 23`
produces a string beginning `"1.05x for 48 "`, containing exactly 23 ramp
tokens of the form `"<num>x for 1"` whose values follow
`((N+1-i)*x + i-1)/N` for `i = 1..23` (each rounded to 3 decimals and
formatted without trailing zeros), ending with `"1.0x for 1 1x"`; the ramp
values are monotonically non-increasing and lie between 1.0 and 1.05
(the first ramp value is exactly `1.05`, the value the claim's own formula
yields at `i = 1`, and the final `1.0` is the fixed tail token). -/
theorem c6_dial_string_determinism :
    dial_schedule 1.05 48 23 =
      .ok ("1.05x for 48 " ++
        pyJoin " " (c6RampVals.map (fun v => trim_float v ++ "x for 1")) ++
        " 1.0x for 1 1x") ∧
    c6RampVals.length = 23 ∧
    qNonIncreasing c6RampVals = true ∧
    (∀ v ∈ c6RampVals, 1 ≤ v ∧ v ≤ 1.05) := by
  refine ⟨by with_unfolding_all decide, by with_unfolding_all decide,
    by with_unfolding_all decide, by with_unfolding_all decide⟩

/-- C7: `bump_version` increments the extra segment when present, otherwise
the patch segment, preserving each segment's optional `v`/`V` prefix —
`"v1.8.0" → "v1.8.1"`, `"1.2.3.4" → "1.2.3.5"`, `"1.2.v3" → "1.2.v4"` — and
fails with the unrecognized-version error on every string not matching the
`[v]MAJOR.MINOR.[v]PATCH[.[v]EXTRA]` grammar (`_split_version`, the
embedding of the source regex applied to the stripped input). -/
theorem c7_version_bump :
    _bump_version_string "v1.8.0" = .ok "v1.8.1" ∧
    _bump_version_string "1.2.3.4" = .ok "1.2.3.5" ∧
    _bump_version_string "1.2.v3" = .ok "1.2.v4" ∧
    (∀ v : String, _split_version v = none →
      _bump_version_string v = .error (.unrecognizedVersion v)) ∧
    (∀ (v : String) (g : SplitV) (ex : String), _split_version v = some g →
      g.extraS = some ex →
      _bump_version_string v = .ok (g.pfx ++ g.majorS ++ "." ++ g.minorS ++ "." ++
        g.patchPfx ++ g.patchS ++ "." ++ g.extraPfx ++ natRepr (segToNat ex + 1))) ∧
    (∀ (v : String) (g : SplitV), _split_version v = some g → g.extraS = none →
      _bump_version_string v = .ok (g.pfx ++ g.majorS ++ "." ++ g.minorS ++ "." ++
        g.patchPfx ++ natRepr (segToNat g.patchS + 1))) := by
  refine ⟨by with_unfolding_all decide, by with_unfolding_all decide,
    by with_unfolding_all decide, ?_, ?_, ?_⟩
  · intro v h
    simp [_bump_version_string, h]
  · intro v g ex h h2
    simp [_bump_version_string, h, h2]
  · intro v g h h2
    simp [_bump_version_string, h, h2]

/-- Witness for C7: the general bump clauses applied at a concrete input. -/
theorem c7_version_bump_witness :
    _bump_version_string "7.7.7" = .ok "7.7.8" := by
  have h := c7_version_bump
  exact h.2.2.2.2.2 "7.7.7" ⟨"", "7", "7", "", "7", "", none⟩ (by decide) rfl

/-! Reduction lemmas for the `Except` monad (the do-notation desugaring). -/

@[simp] theorem except_throw_eq {ε α : Type} (e : ε) :
    (throw e : Except ε α) = Except.error e := rfl

@[simp] theorem except_pure_eq {ε α : Type} (a : α) :
    (pure a : Except ε α) = Except.ok a := rfl

@[simp] theorem except_error_bind {ε α β : Type} (e : ε) (f : α → Except ε β) :
    (Except.error e >>= f) = Except.error e := rfl

@[simp] theorem except_ok_bind {ε α β : Type} (a : α) (f : α → Except ε β) :
    (Except.ok a >>= f) = f a := rfl

@[simp] theorem except_map_error {ε α β : Type} (e : ε) (f : α → β) :
    (f <$> (Except.error e : Except ε α)) = Except.error e := rfl

@[simp] theorem except_map_ok {ε α β : Type} (a : α) (f : α → β) :
    (f <$> (Except.ok a : Except ε α)) = Except.ok (f a) := rfl

/-- C9: override expansion fails with the conflicting-target error for every
spec providing both `target` and `targets`; fails with the ambiguous-shape
error for every spec using exactly one of them while carrying bare `state`
or `transition` keys at the outer level (a spec providing both fails with
the conflict error first, which is checked before the shape guard); and a
spec with neither expands to exactly itself as one atomic override.
`pyGet` presence means a non-`None` value, as in the source's
`override.get(...) is not None` checks, while the bare-field guard uses key
presence (`"state" in override`). -/
theorem c9_expander_guards :
    (∀ (okvs : List (String × J)) (tv tsv : J),
      pyGet okvs "targets" = some tsv → pyGet okvs "target" = some tv →
      _expand_override_targets (J.obj okvs) = .error .conflictingTargetSpec) ∧
    (∀ (okvs : List (String × J)) (tsv : J),
      pyGet okvs "targets" = some tsv → pyGet okvs "target" = none →
      (hasKey okvs "state" || hasKey okvs "transition") = true →
      _expand_override_targets (J.obj okvs) = .error .ambiguousOverrideShape) ∧
    (∀ (okvs : List (String × J)) (tv : J),
      pyGet okvs "targets" = none → pyGet okvs "target" = some tv →
      (hasKey okvs "state" || hasKey okvs "transition") = true →
      _expand_override_targets (J.obj okvs) = .error .ambiguousOverrideShape) ∧
    (∀ okvs : List (String × J),
      pyGet okvs "targets" = none → pyGet okvs "target" = none →
      _expand_override_targets (J.obj okvs) = .ok [J.obj okvs]) := by
  refine ⟨?_, ?_, ?_, ?_⟩
  · intro okvs tv tsv h1 h2
    simp [_expand_override_targets, h1, h2]
  · intro okvs tsv h1 h2 h3
    rcases (Bool.or_eq_true _ _).mp h3 with h4 | h4
    · simp [_expand_override_targets, h1, h2, h4]
    · simp [_expand_override_targets, h1, h2, h4]
  · intro okvs tv h1 h2 h3
    rcases (Bool.or_eq_true _ _).mp h3 with h4 | h4
    · simp [_expand_override_targets, h1, h2, h4]
    · simp [_expand_override_targets, h1, h2, h4]
  · intro okvs h1 h2
    simp [_expand_override_targets, h1, h2]

/-- Witness for C9: the guards at concrete specs. -/
theorem c9_expander_guards_witness :
    _expand_override_targets (J.obj [("target", J.s "A->B"), ("targets", J.arr [])]) =
      .error .conflictingTargetSpec ∧
    _expand_override_targets (J.obj [("targets", J.arr [J.s "A->B"]), ("state", J.s "A")]) =
      .error .ambiguousOverrideShape ∧
    _expand_override_targets (J.obj [("target", J.s "A->B"), ("transition", J.s "B")]) =
      .error .ambiguousOverrideShape ∧
    _expand_override_targets (J.obj [("state", J.s "A"), ("transition", J.s "B")]) =
      .ok [J.obj [("state", J.s "A"), ("transition", J.s "B")]] := by
  have h := c9_expander_guards
  refine ⟨h.1 _ (J.s "A->B") (J.arr []) (by decide) (by decide),
    h.2.1 _ (J.arr [J.s "A->B"]) (by decide) (by decide) (by decide),
    h.2.2.1 _ (J.s "A->B") (by decide) (by decide) (by decide),
    h.2.2.2 _ (by decide) (by decide)⟩

/-! # Lemmas: first-occurrence splitting (for the shorthand claims) -/

theorem splitFirst_cons (pat : List Char) (c : Char) (rest : List Char) :
    splitFirst pat (c :: rest) =
      if pat.isPrefixOf (c :: rest) then some ([], (c :: rest).drop pat.length)
      else (splitFirst pat rest).map (fun pr => (c :: pr.1, pr.2)) := rfl

theorem splitFirst_single_none_append (c : Char) (a b : List Char)
    (ha : splitFirst [c] a = none) (hb : splitFirst [c] b = none) :
    splitFirst [c] (a ++ b) = none := by
  induction a with
  | nil => simpa using hb
  | cons x a2 ih =>
    rw [splitFirst_cons] at ha
    by_cases hp : [c].isPrefixOf (x :: a2)
    · rw [if_pos hp] at ha
      exact absurd ha (by simp)
    · rw [if_neg hp] at ha
      have ha2 : splitFirst [c] a2 = none := by
        cases h2 : splitFirst [c] a2 with
        | none => rfl
        | some pr => rw [h2] at ha; simp at ha
      have hp2 : ¬ [c].isPrefixOf (x :: (a2 ++ b)) := by
        intro hcon
        exact hp (by
          simp only [List.isPrefixOf, Bool.and_eq_true] at hcon ⊢
          exact ⟨hcon.1, trivial⟩)
      rw [List.cons_append, splitFirst_cons, if_neg hp2, ih ha2]
      rfl

theorem splitFirst_single_append (c : Char) (a b : List Char)
    (ha : splitFirst [c] a = none) :
    splitFirst [c] (a ++ c :: b) = some (a, b) := by
  induction a with
  | nil => simp [splitFirst_cons, List.isPrefixOf]
  | cons x a2 ih =>
    rw [splitFirst_cons] at ha
    by_cases hp : [c].isPrefixOf (x :: a2)
    · rw [if_pos hp] at ha
      exact absurd ha (by simp)
    · rw [if_neg hp] at ha
      have ha2 : splitFirst [c] a2 = none := by
        cases h2 : splitFirst [c] a2 with
        | none => rfl
        | some pr => rw [h2] at ha; simp at ha
      have hp2 : ¬ [c].isPrefixOf (x :: (a2 ++ c :: b)) := by
        intro hcon
        exact hp (by
          simp only [List.isPrefixOf, Bool.and_eq_true] at hcon ⊢
          exact ⟨hcon.1, trivial⟩)
      rw [List.cons_append, splitFirst_cons, if_neg hp2, ih ha2]
      rfl

theorem splitFirst_arrow_append (a b : List Char)
    (ha : splitFirst ['-', '>'] a = none) :
    splitFirst ['-', '>'] (a ++ '-' :: '>' :: b) = some (a, b) := by
  induction a with
  | nil => simp [splitFirst_cons, List.isPrefixOf]
  | cons x a2 ih =>
    rw [splitFirst_cons] at ha
    by_cases hp : ['-', '>'].isPrefixOf (x :: a2)
    · rw [if_pos hp] at ha
      exact absurd ha (by simp)
    · rw [if_neg hp] at ha
      have ha2 : splitFirst ['-', '>'] a2 = none := by
        cases h2 : splitFirst ['-', '>'] a2 with
        | none => rfl
        | some pr => rw [h2] at ha; simp at ha
      have hp2 : ¬ ['-', '>'].isPrefixOf (x :: (a2 ++ '-' :: '>' :: b)) := by
        intro hcon
        simp only [List.isPrefixOf, Bool.and_eq_true] at hcon
        cases a2 with
        | nil =>
          simp only [List.nil_append, List.isPrefixOf, Bool.and_eq_true] at hcon
          have : ('>' : Char) == '-' := by
            simpa using hcon.2.1
          simp at this
        | cons y a3 =>
          simp only [List.cons_append, List.isPrefixOf, Bool.and_eq_true] at hcon
          exact hp (by
            simp only [List.isPrefixOf, Bool.and_eq_true]
            exact ⟨hcon.1, hcon.2.1, trivial⟩)
      rw [List.cons_append, splitFirst_cons, if_neg hp2, ih ha2]
      rfl

theorem wfName_elim (v : String) (h : wfName v = true) :
    ¬ v = "" ∧ pyStrip v = v ∧ splitFirst ['@'] v.data = none ∧
      splitFirst ['-', '>'] v.data = none := by
  rw [wfName, Bool.and_eq_true, Bool.and_eq_true, Bool.and_eq_true] at h
  refine ⟨?_, ?_, ?_, ?_⟩
  · intro he
    rw [he] at h
    exact absurd h.1.1.1 (by decide)
  · have := h.1.1.2
    simpa using this
  · exact Option.isNone_iff_eq_none.mp h.1.2
  · exact Option.isNone_iff_eq_none.mp h.2

theorem format_data_none (s t : String) :
    (_format_target_shorthand s t none).data = s.data ++ '-' :: '>' :: t.data := by
  simp [_format_target_shorthand]

theorem format_data_some (s t d0 : String) (hd : ¬ d0 = "") :
    (_format_target_shorthand s t (some d0)).data =
      (s.data ++ '-' :: '>' :: t.data) ++ '@' :: d0.data := by
  have hne : d0.isEmpty = false := by
    cases hh : d0.isEmpty
    · rfl
    · exact absurd ((String.isEmpty_iff d0).mp hh) hd
  simp [_format_target_shorthand, hne, List.append_assoc]

theorem parse_format_none (s t : String) (hs : wfName s = true) (ht : wfName t = true) :
    _parse_target_shorthand (J.s (_format_target_shorthand s t none)) =
      .ok [("state", J.s s), ("transition", J.s t)] := by
  obtain ⟨hs1, hs2, hs3, hs4⟩ := wfName_elim s hs
  obtain ⟨ht1, ht2, ht3, ht4⟩ := wfName_elim t ht
  have hat : splitFirst ['@'] (_format_target_shorthand s t none).data = none := by
    rw [format_data_none]
    rw [show s.data ++ '-' :: '>' :: t.data = s.data ++ (['-', '>'] ++ t.data) from rfl]
    rw [← List.append_assoc]
    exact splitFirst_single_none_append '@' _ _
      (splitFirst_single_none_append '@' _ _ hs3 (by decide)) ht3
  have harr : splitFirst ['-', '>'] (_format_target_shorthand s t none).data =
      some (s.data, t.data) := by
    rw [format_data_none]
    exact splitFirst_arrow_append _ _ hs4
  have hpart1 : pyPartition (_format_target_shorthand s t none) "@" =
      (_format_target_shorthand s t none, "", "") := by
    rw [pyPartition]
    rw [show ("@" : String).data = ['@'] from rfl, hat]
  have hpart2 : pyPartition (_format_target_shorthand s t none) "->" = (s, "->", t) := by
    rw [pyPartition]
    rw [show ("->" : String).data = ['-', '>'] from rfl, harr]
  rw [_parse_target_shorthand]
  simp only [hpart1, hpart2, hs2, ht2]
  rw [if_neg (by
    simp only [not_or]
    refine ⟨by decide, hs1, ht1⟩)]
  simp [pyStrip, pyStripL]

theorem parse_format_some (s t d0 : String) (hs : wfName s = true)
    (ht : wfName t = true) (hd : wfName d0 = true) :
    _parse_target_shorthand (J.s (_format_target_shorthand s t (some d0))) =
      .ok [("state", J.s s), ("transition", J.s t), ("detail", J.s d0)] := by
  obtain ⟨hs1, hs2, hs3, hs4⟩ := wfName_elim s hs
  obtain ⟨ht1, ht2, ht3, ht4⟩ := wfName_elim t ht
  obtain ⟨hd1, hd2, hd3, hd4⟩ := wfName_elim d0 hd
  have hat : splitFirst ['@'] (_format_target_shorthand s t (some d0)).data =
      some (s.data ++ '-' :: '>' :: t.data, d0.data) := by
    rw [format_data_some s t d0 hd1]
    refine splitFirst_single_append '@' _ _ ?_
    rw [show s.data ++ '-' :: '>' :: t.data = s.data ++ (['-', '>'] ++ t.data) from rfl]
    rw [← List.append_assoc]
    exact splitFirst_single_none_append '@' _ _
      (splitFirst_single_none_append '@' _ _ hs3 (by decide)) ht3
  have harr : splitFirst ['-', '>'] (s.data ++ '-' :: '>' :: t.data) =
      some (s.data, t.data) := splitFirst_arrow_append _ _ hs4
  have hpart1 : pyPartition (_format_target_shorthand s t (some d0)) "@" =
      (⟨s.data ++ '-' :: '>' :: t.data⟩, "@", d0) := by
    rw [pyPartition]
    rw [show ("@" : String).data = ['@'] from rfl, hat]
  have hpart2 : pyPartition (⟨s.data ++ '-' :: '>' :: t.data⟩ : String) "->" =
      (s, "->", t) := by
    rw [pyPartition]
    rw [show ("->" : String).data = ['-', '>'] from rfl]
    rw [show (⟨s.data ++ '-' :: '>' :: t.data⟩ : String).data =
      s.data ++ '-' :: '>' :: t.data from rfl, harr]
  rw [_parse_target_shorthand]
  simp only [hpart1, hpart2, hs2, ht2, hd2]
  rw [if_neg (by
    simp only [not_or]
    refine ⟨by decide, hs1, ht1⟩)]
  rw [if_pos hd1]
  rfl

/-- C8: target-shorthand parse and format are mutual inverses on well-formed
inputs: `parse "STATE->TRANS@DET"` yields the state/transition/detail dict,
`format state transition none` yields `"STATE->TRANS"`, parse after format
is the identity on triples whose components are well-formed (nonempty,
stripped, free of the `@` and `->` separators — the "well-formed inputs" of
the spec sentence), format after parse is the identity on well-formed
shorthand strings (the canonical `"S->T[@D]"` forms built from such
components), and parse fails with the malformed-shorthand error exactly
when the `->` separator is missing from the part before `@` or either side
of it is empty after stripping. -/
theorem c8_shorthand_inverses :
    _parse_target_shorthand (J.s "STATE->TRANS@DET") =
      .ok [("state", J.s "STATE"), ("transition", J.s "TRANS"),
           ("detail", J.s "DET")] ∧
    (∀ s t : String, _format_target_shorthand s t none = s ++ "->" ++ t) ∧
    (∀ (s t : String) (d : Option String), wfName s = true → wfName t = true →
      (∀ d0, d = some d0 → wfName d0 = true) →
      _parse_target_shorthand (J.s (_format_target_shorthand s t d)) =
        .ok ([("state", J.s s), ("transition", J.s t)] ++
          (match d with
           | some d0 => [("detail", J.s d0)]
           | none => []))) ∧
    (∀ (s t : String) (d : Option String), wfName s = true → wfName t = true →
      (∀ d0, d = some d0 → wfName d0 = true) →
      ∃ kvs, _parse_target_shorthand (J.s (_format_target_shorthand s t d)) = .ok kvs ∧
        _format_target_shorthand
          (match lookupKey kvs "state" with | some (J.s v) => v | _ => "")
          (match lookupKey kvs "transition" with | some (J.s v) => v | _ => "")
          (match lookupKey kvs "detail" with | some (J.s v) => some v | _ => none) =
        _format_target_shorthand s t d) ∧
    (∀ v : String,
      _parse_target_shorthand (J.s v) = .error .malformedShorthand ↔
        ((pyPartition ((pyPartition v "@").1) "->").2.1 = "" ∨
         pyStrip ((pyPartition ((pyPartition v "@").1) "->").1) = "" ∨
         pyStrip ((pyPartition ((pyPartition v "@").1) "->").2.2) = "")) := by
  refine ⟨by decide, fun s t => rfl, ?_, ?_, ?_⟩
  · intro s t d hs ht hd
    cases d with
    | none => simpa using parse_format_none s t hs ht
    | some d0 => simpa using parse_format_some s t d0 hs ht (hd d0 rfl)
  · intro s t d hs ht hd
    cases d with
    | none =>
      refine ⟨[("state", J.s s), ("transition", J.s t)],
        parse_format_none s t hs ht, ?_⟩
      rfl
    | some d0 =>
      refine ⟨[("state", J.s s), ("transition", J.s t), ("detail", J.s d0)],
        parse_format_some s t d0 hs ht (hd d0 rfl), ?_⟩
      rfl
  · intro v
    rw [_parse_target_shorthand]
    by_cases hc : (pyPartition ((pyPartition v "@").1) "->").2.1 = "" ∨
        pyStrip ((pyPartition ((pyPartition v "@").1) "->").1) = "" ∨
        pyStrip ((pyPartition ((pyPartition v "@").1) "->").2.2) = ""
    · rw [if_pos hc]
      simp [hc]
    · rw [if_neg hc]
      simp [hc]

/-- Witness for C8: the inverse clauses applied at concrete inputs. -/
theorem c8_shorthand_inverses_witness :
    _parse_target_shorthand (J.s (_format_target_shorthand "S1" "T1" (some "D1"))) =
      .ok [("state", J.s "S1"), ("transition", J.s "T1"), ("detail", J.s "D1")] ∧
    (_parse_target_shorthand (J.s "nonsense") = .error .malformedShorthand) := by
  have h := c8_shorthand_inverses
  refine ⟨?_, ?_⟩
  · have h3 := h.2.2.1 "S1" "T1" (some "D1") (by decide) (by decide)
      (fun d0 he => by cases he; decide)
    simpa using h3
  · exact (h.2.2.2.2 "nonsense").mpr (by decide)

/-! # Lemmas: target resolution and write-back -/

theorem groot_ok_elim (data : J) (s t2 : String) (root : J)
    (h : _get_transition_root data s t2 = .ok root) :
    ∃ dkvs sv skvs tv,
      data = J.obj dkvs ∧
      lookupKey dkvs "State" = some (J.obj sv) ∧
      lookupKey sv s = some (J.obj skvs) ∧
      lookupKey skvs "Transitions" = some (J.obj tv) ∧
      lookupKey tv t2 = some root := by
  cases data with
  | obj dkvs =>
    cases hl1 : lookupKey dkvs "State" with
    | none => simp [_get_transition_root, jIndex, hl1] at h
    | some a =>
      cases a with
      | obj sv =>
        cases hl2 : lookupKey sv s with
        | none => simp [_get_transition_root, jIndex, hl1, hl2] at h
        | some b =>
          cases b with
          | obj skvs =>
            cases hl3 : lookupKey skvs "Transitions" with
            | none => simp [_get_transition_root, jIndex, hl1, hl2, hl3] at h
            | some c =>
              cases c with
              | obj tv =>
                cases hl4 : lookupKey tv t2 with
                | none => simp [_get_transition_root, jIndex, hl1, hl2, hl3, hl4] at h
                | some root2 =>
                  have : root2 = root := by
                    simp [_get_transition_root, jIndex, hl1, hl2, hl3, hl4] at h
                    exact h
                  exact ⟨dkvs, sv, skvs, tv, rfl, hl1, hl2, hl3, this ▸ hl4⟩
              | s v => simp [_get_transition_root, jIndex, hl1, hl2, hl3] at h
              | q v => simp [_get_transition_root, jIndex, hl1, hl2, hl3] at h
              | b v => simp [_get_transition_root, jIndex, hl1, hl2, hl3] at h
              | null => simp [_get_transition_root, jIndex, hl1, hl2, hl3] at h
              | arr v => simp [_get_transition_root, jIndex, hl1, hl2, hl3] at h
          | s v => simp [_get_transition_root, jIndex, hl1, hl2] at h
          | q v => simp [_get_transition_root, jIndex, hl1, hl2] at h
          | b v => simp [_get_transition_root, jIndex, hl1, hl2] at h
          | null => simp [_get_transition_root, jIndex, hl1, hl2] at h
          | arr v => simp [_get_transition_root, jIndex, hl1, hl2] at h
      | s v => simp [_get_transition_root, jIndex, hl1] at h
      | q v => simp [_get_transition_root, jIndex, hl1] at h
      | b v => simp [_get_transition_root, jIndex, hl1] at h
      | null => simp [_get_transition_root, jIndex, hl1] at h
      | arr v => simp [_get_transition_root, jIndex, hl1] at h
  | s v => simp [_get_transition_root, jIndex] at h
  | q v => simp [_get_transition_root, jIndex] at h
  | b v => simp [_get_transition_root, jIndex] at h
  | null => simp [_get_transition_root, jIndex] at h
  | arr v => simp [_get_transition_root, jIndex] at h

theorem groot_compute (dkvs sv skvs tv : List (String × J)) (s t2 : String) (root : J)
    (h1 : lookupKey dkvs "State" = some (J.obj sv))
    (h2 : lookupKey sv s = some (J.obj skvs))
    (h3 : lookupKey skvs "Transitions" = some (J.obj tv))
    (h4 : lookupKey tv t2 = some root) :
    _get_transition_root (J.obj dkvs) s t2 = .ok root := by
  simp [_get_transition_root, jIndex, h1, h2, h3, h4]

theorem target_ok_elim (data : J) (s t2 : String) (dn : Option String) (node : J)
    (h : _target_for_shock data s t2 dn = .ok node) :
    ∃ dkvs sv skvs tv root,
      data = J.obj dkvs ∧
      lookupKey dkvs "State" = some (J.obj sv) ∧
      lookupKey sv s = some (J.obj skvs) ∧
      lookupKey skvs "Transitions" = some (J.obj tv) ∧
      lookupKey tv t2 = some root ∧
      ((dn = none ∧ root = node) ∨
       (∃ d rkvs ddkvs, dn = some d ∧ root = J.obj rkvs ∧
         lookupKey rkvs "Detail" = some (J.obj ddkvs) ∧
         lookupKey ddkvs d = some node)) := by
  cases hr : _get_transition_root data s t2 with
  | error e =>
    rw [_target_for_shock] at h
    rw [hr] at h
    simp at h
  | ok root =>
    obtain ⟨dkvs, sv, skvs, tv, hd, h1, h2, h3, h4⟩ := groot_ok_elim data s t2 root hr
    rw [_target_for_shock] at h
    rw [hr] at h
    cases dn with
    | none =>
      refine ⟨dkvs, sv, skvs, tv, root, hd, h1, h2, h3, h4, Or.inl ⟨rfl, ?_⟩⟩
      simpa using h
    | some d =>
      cases root with
      | obj rkvs =>
        cases hl5 : lookupKey rkvs "Detail" with
        | none => simp [hl5] at h
        | some dd =>
          cases dd with
          | obj ddkvs =>
            cases hl6 : lookupKey ddkvs d with
            | none => simp [hl5, hl6] at h
            | some node2 =>
              have he : node2 = node := by
                simp [hl5, hl6] at h
                exact h
              exact ⟨dkvs, sv, skvs, tv, J.obj rkvs, hd, h1, h2, h3, h4,
                Or.inr ⟨d, rkvs, ddkvs, rfl, rfl, hl5, he ▸ hl6⟩⟩
          | s v => simp [hl5] at h
          | q v => simp [hl5] at h
          | b v => simp [hl5] at h
          | null => simp [hl5] at h
          | arr v => simp [hl5] at h
      | s v => simp at h
      | q v => simp at h
      | b v => simp at h
      | null => simp at h
      | arr v => simp at h

theorem target_compute_none (dkvs sv skvs tv : List (String × J)) (s t2 : String)
    (root : J)
    (h1 : lookupKey dkvs "State" = some (J.obj sv))
    (h2 : lookupKey sv s = some (J.obj skvs))
    (h3 : lookupKey skvs "Transitions" = some (J.obj tv))
    (h4 : lookupKey tv t2 = some root) :
    _target_for_shock (J.obj dkvs) s t2 none = .ok root := by
  rw [_target_for_shock, groot_compute dkvs sv skvs tv s t2 root h1 h2 h3 h4]
  rfl

theorem target_compute_some (dkvs sv skvs tv rkvs ddkvs : List (String × J))
    (s t2 d : String) (node : J)
    (h1 : lookupKey dkvs "State" = some (J.obj sv))
    (h2 : lookupKey sv s = some (J.obj skvs))
    (h3 : lookupKey skvs "Transitions" = some (J.obj tv))
    (h4 : lookupKey tv t2 = some (J.obj rkvs))
    (h5 : lookupKey rkvs "Detail" = some (J.obj ddkvs))
    (h6 : lookupKey ddkvs d = some node) :
    _target_for_shock (J.obj dkvs) s t2 (some d) = .ok node := by
  rw [_target_for_shock, groot_compute dkvs sv skvs tv s t2 (J.obj rkvs) h1 h2 h3 h4]
  simp [h5, h6]

theorem setLeaf_compute_none (dkvs sv skvs tv : List (String × J)) (s t2 : String)
    (root n2 : J)
    (h1 : lookupKey dkvs "State" = some (J.obj sv))
    (h2 : lookupKey sv s = some (J.obj skvs))
    (h3 : lookupKey skvs "Transitions" = some (J.obj tv))
    (h4 : lookupKey tv t2 = some root) :
    setLeaf (J.obj dkvs) s t2 none n2 =
      J.obj (setKey dkvs "State" (J.obj (setKey sv s (J.obj (setKey skvs "Transitions"
        (J.obj (setKey tv t2 n2))))))) := by
  rw [setLeaf]
  simp [updVal, updateKey, h1, h2, h3, h4]

theorem setLeaf_compute_some (dkvs sv skvs tv rkvs ddkvs : List (String × J))
    (s t2 d : String) (node n2 : J)
    (h1 : lookupKey dkvs "State" = some (J.obj sv))
    (h2 : lookupKey sv s = some (J.obj skvs))
    (h3 : lookupKey skvs "Transitions" = some (J.obj tv))
    (h4 : lookupKey tv t2 = some (J.obj rkvs))
    (h5 : lookupKey rkvs "Detail" = some (J.obj ddkvs))
    (h6 : lookupKey ddkvs d = some node) :
    setLeaf (J.obj dkvs) s t2 (some d) n2 =
      J.obj (setKey dkvs "State" (J.obj (setKey sv s (J.obj (setKey skvs "Transitions"
        (J.obj (setKey tv t2 (J.obj (setKey rkvs "Detail"
          (J.obj (setKey ddkvs d n2))))))))))) := by
  rw [setLeaf]
  simp [updVal, updateKey, h1, h2, h3, h4, h5, h6]

theorem target_setLeaf_self (data : J) (s t2 : String) (dn : Option String) (node n2 : J)
    (h : _target_for_shock data s t2 dn = .ok node) :
    _target_for_shock (setLeaf data s t2 dn n2) s t2 dn = .ok n2 := by
  obtain ⟨dkvs, sv, skvs, tv, root, hd, h1, h2, h3, h4, hbr⟩ :=
    target_ok_elim data s t2 dn node h
  subst hd
  rcases hbr with ⟨hdn, hroot⟩ | ⟨d, rkvs, ddkvs, hdn, hroot, h5, h6⟩
  · subst hdn
    rw [setLeaf_compute_none dkvs sv skvs tv s t2 root n2 h1 h2 h3 h4]
    exact target_compute_none _ _ _ _ s t2 n2
      (lookup_setKey_self _ _ _) (lookup_setKey_self _ _ _)
      (lookup_setKey_self _ _ _) (lookup_setKey_self _ _ _)
  · subst hdn
    subst hroot
    rw [setLeaf_compute_some dkvs sv skvs tv rkvs ddkvs s t2 d node n2
      h1 h2 h3 h4 h5 h6]
    exact target_compute_some _ _ _ _ _ _ s t2 d n2
      (lookup_setKey_self _ _ _) (lookup_setKey_self _ _ _)
      (lookup_setKey_self _ _ _) (lookup_setKey_self _ _ _)
      (lookup_setKey_self _ _ _) (lookup_setKey_self _ _ _)

theorem setLeaf_self_eq (data : J) (s t2 : String) (dn : Option String) (node : J)
    (h : _target_for_shock data s t2 dn = .ok node) :
    setLeaf data s t2 dn node = data := by
  obtain ⟨dkvs, sv, skvs, tv, root, hd, h1, h2, h3, h4, hbr⟩ :=
    target_ok_elim data s t2 dn node h
  subst hd
  rcases hbr with ⟨hdn, hroot⟩ | ⟨d, rkvs, ddkvs, hdn, hroot, h5, h6⟩
  · subst hdn
    rw [← hroot]
    rw [setLeaf_compute_none dkvs sv skvs tv s t2 root root h1 h2 h3 h4]
    rw [setKey_eq_of_lookup tv t2 root h4]
    rw [setKey_eq_of_lookup skvs "Transitions" (J.obj tv) h3]
    rw [setKey_eq_of_lookup sv s (J.obj skvs) h2]
    rw [setKey_eq_of_lookup dkvs "State" (J.obj sv) h1]
  · subst hdn
    subst hroot
    rw [setLeaf_compute_some dkvs sv skvs tv rkvs ddkvs s t2 d node node
      h1 h2 h3 h4 h5 h6]
    rw [setKey_eq_of_lookup ddkvs d node h6]
    rw [setKey_eq_of_lookup rkvs "Detail" (J.obj ddkvs) h5]
    rw [setKey_eq_of_lookup tv t2 (J.obj rkvs) h4]
    rw [setKey_eq_of_lookup skvs "Transitions" (J.obj tv) h3]
    rw [setKey_eq_of_lookup sv s (J.obj skvs) h2]
    rw [setKey_eq_of_lookup dkvs "State" (J.obj sv) h1]

theorem target_setLeaf_frame (data : J) (s t2 : String) (dn : Option String)
    (node n2 : J) (h : _target_for_shock data s t2 dn = .ok node)
    (s2 t3 : String) (dn2 : Option String)
    (hdisj : s ≠ s2 ∨ t2 ≠ t3 ∨
      (∃ d d2, dn = some d ∧ dn2 = some d2 ∧ d ≠ d2)) :
    _target_for_shock (setLeaf data s t2 dn n2) s2 t3 dn2 =
      _target_for_shock data s2 t3 dn2 := by
  obtain ⟨dkvs, sv, skvs, tv, root, hd, h1, h2, h3, h4, hbr⟩ :=
    target_ok_elim data s t2 dn node h
  subst hd
  have hset : ∃ newRoot, setLeaf (J.obj dkvs) s t2 dn n2 =
      J.obj (setKey dkvs "State" (J.obj (setKey sv s (J.obj (setKey skvs "Transitions"
        (J.obj (setKey tv t2 newRoot))))))) ∧
      (dn = none ∨
       ∃ d rkvs ddkvs, dn = some d ∧ root = J.obj rkvs ∧
         lookupKey rkvs "Detail" = some (J.obj ddkvs) ∧
         newRoot = J.obj (setKey rkvs "Detail" (J.obj (setKey ddkvs d n2)))) := by
    rcases hbr with ⟨hdn, hroot⟩ | ⟨d, rkvs, ddkvs, hdn, hroot, h5, h6⟩
    · subst hdn
      exact ⟨n2, setLeaf_compute_none dkvs sv skvs tv s t2 root n2 h1 h2 h3 h4,
        Or.inl rfl⟩
    · subst hdn
      subst hroot
      exact ⟨J.obj (setKey rkvs "Detail" (J.obj (setKey ddkvs d n2))),
        setLeaf_compute_some dkvs sv skvs tv rkvs ddkvs s t2 d node n2
          h1 h2 h3 h4 h5 h6,
        Or.inr ⟨d, rkvs, ddkvs, rfl, rfl, h5, rfl⟩⟩
  obtain ⟨newRoot, hsl, hnr⟩ := hset
  rw [hsl]
  rcases hdisj with hA | hB | hC
  · -- different state name
    have hne : s2 ≠ s := Ne.symm hA
    have hgr : _get_transition_root (J.obj (setKey dkvs "State"
        (J.obj (setKey sv s (J.obj (setKey skvs "Transitions"
          (J.obj (setKey tv t2 newRoot)))))))) s2 t3 =
        _get_transition_root (J.obj dkvs) s2 t3 := by
      simp only [_get_transition_root, jIndex, lookup_setKey_self, h1,
        lookup_setKey_ne sv s s2 _ hne, except_ok_bind, except_error_bind]
    rw [_target_for_shock, _target_for_shock, hgr]
  · -- different transition name
    by_cases hss : s = s2
    · subst hss
      have hne : t3 ≠ t2 := Ne.symm hB
      have hgr : _get_transition_root (J.obj (setKey dkvs "State"
          (J.obj (setKey sv s (J.obj (setKey skvs "Transitions"
            (J.obj (setKey tv t2 newRoot)))))))) s t3 =
          _get_transition_root (J.obj dkvs) s t3 := by
        simp only [_get_transition_root, jIndex, lookup_setKey_self, h1, h2, h3,
          lookup_setKey_ne tv t2 t3 _ hne, except_ok_bind, except_error_bind]
      rw [_target_for_shock, _target_for_shock, hgr]
    · have hne : s2 ≠ s := fun he => hss he.symm
      have hgr : _get_transition_root (J.obj (setKey dkvs "State"
          (J.obj (setKey sv s (J.obj (setKey skvs "Transitions"
            (J.obj (setKey tv t2 newRoot)))))))) s2 t3 =
          _get_transition_root (J.obj dkvs) s2 t3 := by
        simp only [_get_transition_root, jIndex, lookup_setKey_self, h1,
          lookup_setKey_ne sv s s2 _ hne, except_ok_bind, except_error_bind]
      rw [_target_for_shock, _target_for_shock, hgr]
  · -- same transition, different detail keys
    obtain ⟨d, d2, hdn, hdn2, hdd⟩ := hC
    subst hdn2
    rcases hnr with hstop | ⟨d0, rkvs, ddkvs, hdn0, hroot, h5, hnr2⟩
    · rw [hdn] at hstop
      exact absurd hstop (by simp)
    · rw [hdn] at hdn0
      injection hdn0 with hh
      subst hh
      subst hroot
      subst hnr2
      by_cases hss : s = s2
      · subst hss
        by_cases htt : t2 = t3
        · subst htt
          have hgrL : _get_transition_root (J.obj (setKey dkvs "State"
              (J.obj (setKey sv s (J.obj (setKey skvs "Transitions"
                (J.obj (setKey tv t2 (J.obj (setKey rkvs "Detail"
                  (J.obj (setKey ddkvs d n2)))))))))))) s t2 =
              .ok (J.obj (setKey rkvs "Detail" (J.obj (setKey ddkvs d n2)))) :=
            groot_compute _ _ _ _ s t2 _
              (lookup_setKey_self _ _ _) (lookup_setKey_self _ _ _)
              (lookup_setKey_self _ _ _) (lookup_setKey_self _ _ _)
          have hgrR : _get_transition_root (J.obj dkvs) s t2 = .ok (J.obj rkvs) :=
            groot_compute _ _ _ _ s t2 _ h1 h2 h3 h4
          rw [_target_for_shock, _target_for_shock, hgrL, hgrR]
          simp only [except_ok_bind]
          have hne2 : d2 ≠ d := Ne.symm hdd
          simp only [lookup_setKey_self, h5,
            lookup_setKey_ne ddkvs d d2 _ hne2]
        · have hne : t3 ≠ t2 := fun he => htt he.symm
          have hgr : _get_transition_root (J.obj (setKey dkvs "State"
              (J.obj (setKey sv s (J.obj (setKey skvs "Transitions"
                (J.obj (setKey tv t2 (J.obj (setKey rkvs "Detail"
                  (J.obj (setKey ddkvs d n2)))))))))))) s t3 =
              _get_transition_root (J.obj dkvs) s t3 := by
            simp only [_get_transition_root, jIndex, lookup_setKey_self, h1, h2, h3,
              lookup_setKey_ne tv t2 t3 _ hne, except_ok_bind, except_error_bind]
          rw [_target_for_shock, _target_for_shock, hgr]
      · have hne : s2 ≠ s := fun he => hss he.symm
        have hgr : _get_transition_root (J.obj (setKey dkvs "State"
            (J.obj (setKey sv s (J.obj (setKey skvs "Transitions"
              (J.obj (setKey tv t2 (J.obj (setKey rkvs "Detail"
                (J.obj (setKey ddkvs d n2)))))))))))) s2 t3 =
            _get_transition_root (J.obj dkvs) s2 t3 := by
          simp only [_get_transition_root, jIndex, lookup_setKey_self, h1,
            lookup_setKey_ne sv s s2 _ hne, except_ok_bind, except_error_bind]
        rw [_target_for_shock, _target_for_shock, hgr]

/-! # Claim theorems: applying overrides -/

theorem pyGet_none_of_lookup_none (kvs : List (String × J)) (k : String)
    (h : lookupKey kvs k = none) : pyGet kvs k = none := by
  rw [pyGet, h]

/-- C10: for every resolvable leaf without a `Shock` key, applying an
override whose dial rounds to 1.0 at 3 decimals (with or without a cohort
field — the override dict is arbitrary beyond the stated fields) succeeds
and returns the document entirely unchanged. -/
theorem c10_identity_removal_is_noop
    (data : J) (okvs tkvs : List (String × J)) (state transition : String)
    (detail : Option String) (sd : J) (dv : ℚ)
    (hstate : lookupKey okvs "state" = some (J.s state))
    (htrans : lookupKey okvs "transition" = some (J.s transition))
    (hdetail : pyGet okvs "detail" = detail.map J.s)
    (hsd : lookupKey okvs "start_date" = some sd)
    (hdv : lookupKey okvs "dial" = some (J.q dv))
    (hid : _is_identity_dial dv = true)
    (hres : _target_for_shock data state transition detail = .ok (J.obj tkvs))
    (hnoshock : lookupKey tkvs "Shock" = none) :
    _apply_dial_override data (J.obj okvs) = .ok data := by
  rw [_apply_dial_override]
  cases detail with
  | none =>
    simp at hdetail
    simp only [hstate, htrans, hdetail, hsd, hdv, hres, hid,
      except_ok_bind, except_error_bind, except_pure_eq, if_true]
    rw [_remove_shock, pyGet_none_of_lookup_none tkvs "Shock" hnoshock]
    simp only [except_pure_eq, except_ok_bind]
    rw [setLeaf_self_eq data state transition none (J.obj tkvs) hres]
  | some d =>
    simp at hdetail
    simp only [hstate, htrans, hdetail, hsd, hdv, hres, hid,
      except_ok_bind, except_error_bind, except_pure_eq, if_true]
    rw [_remove_shock, pyGet_none_of_lookup_none tkvs "Shock" hnoshock]
    simp only [except_pure_eq, except_ok_bind]
    rw [setLeaf_self_eq data state transition (some d) (J.obj tkvs) hres]

/-- Witness for C10 at a one-leaf document. -/
theorem c10_identity_removal_is_noop_witness :
    _apply_dial_override
      (J.obj [("State", J.obj [("S", J.obj [("Transitions", J.obj
        [("T", J.obj [("Rate", J.q 1)])])])])])
      (J.obj [("state", J.s "S"), ("transition", J.s "T"),
        ("start_date", J.s "20240101"), ("dial", J.q 1),
        ("cohort", J.s "C1")]) =
      .ok (J.obj [("State", J.obj [("S", J.obj [("Transitions", J.obj
        [("T", J.obj [("Rate", J.q 1)])])])])]) := by
  exact c10_identity_removal_is_noop _ _ [("Rate", J.q 1)] "S" "T" none
    (J.s "20240101") 1 rfl rfl rfl rfl rfl (by with_unfolding_all decide) rfl rfl

/-- C3: for every leaf whose existing `Shock` is cohort-shaped (a dict with
`HasCohort` true or a `Cohorts` key), applying a simple-shock override
(non-identity dial, no cohort field) fails with the
simple-overwrite-of-cohort error for every combination of the override's
flags (the override dict is arbitrary beyond the stated fields, so any
`add_cohort`/`convert_cohort` values are covered); the failure leaves the
document — and hence the existing shock — unchanged, as no document is
produced. -/
theorem c3_simple_overwrite_of_cohort_refused
    (data : J) (okvs tkvs skvs : List (String × J)) (state transition : String)
    (detail : Option String) (sd : J) (dv : ℚ)
    (hstate : lookupKey okvs "state" = some (J.s state))
    (htrans : lookupKey okvs "transition" = some (J.s transition))
    (hdetail : pyGet okvs "detail" = detail.map J.s)
    (hsd : lookupKey okvs "start_date" = some sd)
    (hdv : lookupKey okvs "dial" = some (J.q dv))
    (hnotid : _is_identity_dial dv = false)
    (hnocohort : pyGet okvs "cohort" = none)
    (hres : _target_for_shock data state transition detail = .ok (J.obj tkvs))
    (hshock : lookupKey tkvs "Shock" = some (J.obj skvs))
    (hshape : hasKey skvs "Cohorts" = true ∨
      lookupKey skvs "HasCohort" = some (J.b true)) :
    _apply_dial_override data (J.obj okvs) =
      .error (.simpleOverwriteOfCohort (_format_path state transition detail)) := by
  have hrefuse : _upsert_simple_shock tkvs state transition detail sd dv =
      .error (.simpleOverwriteOfCohort (_format_path state transition detail)) := by
    rw [_upsert_simple_shock]
    rw [hshock]
    rcases hshape with hck | hhc
    · rw [if_pos (by simp [hck])]
    · rw [if_pos (by simp [pyGet, hhc, jTruthy])]
  rw [_apply_dial_override]
  cases detail with
  | none =>
    simp at hdetail
    simp only [hstate, htrans, hdetail, hsd, hdv, hres, hnotid, hnocohort,
      except_ok_bind, except_error_bind, except_pure_eq, Bool.false_eq_true,
      if_false, hrefuse]
  | some d =>
    simp at hdetail
    simp only [hstate, htrans, hdetail, hsd, hdv, hres, hnotid, hnocohort,
      except_ok_bind, except_error_bind, except_pure_eq, Bool.false_eq_true,
      if_false, hrefuse]

/-- Witness for C3 at a concrete cohort-shaped leaf. -/
theorem c3_simple_overwrite_of_cohort_refused_witness :
    _apply_dial_override
      (J.obj [("State", J.obj [("S", J.obj [("Transitions", J.obj
        [("T", J.obj [("Shock", J.obj [("HasCohort", J.b true),
          ("Cohorts", J.arr [])])])])])])])
      (J.obj [("state", J.s "S"), ("transition", J.s "T"),
        ("start_date", J.s "20240101"), ("dial", J.q (6/5)),
        ("add_cohort", J.b true), ("convert_cohort", J.b true)]) =
      .error (.simpleOverwriteOfCohort (_format_path "S" "T" none)) := by
  exact c3_simple_overwrite_of_cohort_refused _ _ _
    [("HasCohort", J.b true), ("Cohorts", J.arr [])] "S" "T" none
    (J.s "20240101") (6/5) rfl rfl rfl rfl rfl (by with_unfolding_all decide)
    rfl rfl rfl (Or.inl rfl)

theorem pyGet_some_of_ne_null (kvs : List (String × J)) (k : String) (v : J)
    (h : lookupKey kvs k = some v) (hnn : v ≠ J.null) : pyGet kvs k = some v := by
  rw [pyGet, h]
  cases v with
  | null => exact absurd rfl hnn
  | s a => rfl
  | q a => rfl
  | b a => rfl
  | arr a => rfl
  | obj a => rfl

theorem apply_identity_reduce (data : J) (okvs tkvs : List (String × J))
    (state transition : String) (detail : Option String) (sd : J) (dv : ℚ)
    (hstate : lookupKey okvs "state" = some (J.s state))
    (htrans : lookupKey okvs "transition" = some (J.s transition))
    (hdetail : pyGet okvs "detail" = detail.map J.s)
    (hsd : lookupKey okvs "start_date" = some sd)
    (hdv : lookupKey okvs "dial" = some (J.q dv))
    (hid : _is_identity_dial dv = true)
    (hres : _target_for_shock data state transition detail = .ok (J.obj tkvs)) :
    _apply_dial_override data (J.obj okvs) = (do
      let tkvs2 ← _remove_shock tkvs (pyGet okvs "cohort")
      pure (setLeaf data state transition detail (J.obj tkvs2))) := by
  rw [_apply_dial_override]
  cases detail with
  | none =>
    simp at hdetail
    simp only [hstate, htrans, hdetail, hsd, hdv, hres, hid,
      except_ok_bind, except_error_bind, except_pure_eq, if_true]
  | some d =>
    simp at hdetail
    simp only [hstate, htrans, hdetail, hsd, hdv, hres, hid,
      except_ok_bind, except_error_bind, except_pure_eq, if_true]

theorem mapM_loop_map_obj (f : J → Except DialErr (List (String × J)))
    (hf : ∀ kv, f (J.obj kv) = pure kv) (entries : List (List (String × J))) :
    ∀ acc, List.mapM.loop f (entries.map J.obj) acc =
      Except.ok (acc.reverse ++ entries) := by
  induction entries with
  | nil =>
    intro acc
    simp [List.mapM.loop]
  | cons e rest ih =>
    intro acc
    simp only [List.map_cons, List.mapM.loop, hf, except_pure_eq, except_ok_bind]
    rw [ih (e :: acc)]
    simp

theorem mapM_map_obj (f : J → Except DialErr (List (String × J)))
    (hf : ∀ kv, f (J.obj kv) = pure kv) (entries : List (List (String × J))) :
    (entries.map J.obj).mapM f = pure entries := by
  rw [show (entries.map J.obj).mapM f = List.mapM.loop f (entries.map J.obj) [] from rfl]
  rw [mapM_loop_map_obj f hf entries []]
  rfl

theorem remove_shock_nocohort (tkvs : List (String × J)) (shock : J)
    (hshock : lookupKey tkvs "Shock" = some shock) (hnn : shock ≠ J.null) :
    _remove_shock tkvs none = pure (popKey tkvs "Shock") := by
  rw [_remove_shock, pyGet_some_of_ne_null tkvs "Shock" shock hshock hnn]

theorem remove_shock_noncohort_shape (tkvs : List (String × J)) (shock : J) (c : J)
    (hshock : lookupKey tkvs "Shock" = some shock) (hnn : shock ≠ J.null)
    (hnc : _is_cohort_shock shock = false) :
    _remove_shock tkvs (some c) = pure (popKey tkvs "Shock") := by
  rw [_remove_shock, pyGet_some_of_ne_null tkvs "Shock" shock hshock hnn]
  simp [hnc]

theorem remove_shock_cohort (tkvs skvs : List (String × J))
    (entries : List (List (String × J))) (c : J)
    (hshock : lookupKey tkvs "Shock" = some (J.obj skvs))
    (hshape : _is_cohort_shock (J.obj skvs) = true)
    (hcoh : pyGet skvs "Cohorts" = some (J.arr (entries.map J.obj))) :
    _remove_shock tkvs (some c) =
      (if (filterEntriesNot entries c).length = entries.length then pure tkvs
       else if !(filterEntriesNot entries c).isEmpty then
         pure (setKey tkvs "Shock" (J.obj (setKey skvs "Cohorts"
           (J.arr ((filterEntriesNot entries c).map J.obj)))))
       else pure (popKey tkvs "Shock")) := by
  rw [_remove_shock, pyGet_some_of_ne_null tkvs "Shock" (J.obj skvs) hshock (by simp)]
  simp only [hshape, Bool.not_true, Bool.false_eq_true, if_false, hcoh]
  rw [show ((entries.map J.obj).mapM (fun e =>
      match e with
      | J.obj ekvs => (pure ekvs : Except DialErr (List (String × J)))
      | _ => throw (.typeError "cohort entry is not an object"))) = pure entries from
    mapM_map_obj _ (fun kv => rfl) entries]
  rfl

/-- C2: applying an override whose dial rounds to 1.0 at 3 decimals performs
removal.  With no cohort the whole `Shock` key is deleted regardless of the
shock's shape; with a cohort on a non-cohort-shaped shock the whole key is
deleted; with a cohort on a cohort-shaped shock exactly the entries whose
`Cohort` equals the given name are removed (the kept list is the filter of
the non-matching entries), and the `Shock` key is deleted entirely if and
only if the removal makes the cohort list empty — when nothing matches the
document is returned untouched with the key kept.  A stored `Shock: null`
is treated as absent by the source's `dict.get`, hence the non-null
hypothesis. -/
theorem c2_identity_removal :
    (∀ (data : J) (okvs tkvs : List (String × J)) (state transition : String)
       (detail : Option String) (sd shock : J) (dv : ℚ),
      lookupKey okvs "state" = some (J.s state) →
      lookupKey okvs "transition" = some (J.s transition) →
      pyGet okvs "detail" = detail.map J.s →
      lookupKey okvs "start_date" = some sd →
      lookupKey okvs "dial" = some (J.q dv) →
      _is_identity_dial dv = true →
      pyGet okvs "cohort" = none →
      _target_for_shock data state transition detail = .ok (J.obj tkvs) →
      lookupKey tkvs "Shock" = some shock → shock ≠ J.null →
      _apply_dial_override data (J.obj okvs) =
        .ok (setLeaf data state transition detail (J.obj (popKey tkvs "Shock"))) ∧
      _target_for_shock
        (setLeaf data state transition detail (J.obj (popKey tkvs "Shock")))
        state transition detail = .ok (J.obj (popKey tkvs "Shock")) ∧
      (distinctKeys tkvs = true → hasKey (popKey tkvs "Shock") "Shock" = false)) ∧
    (∀ (data : J) (okvs tkvs : List (String × J)) (state transition : String)
       (detail : Option String) (sd shock c : J) (dv : ℚ),
      lookupKey okvs "state" = some (J.s state) →
      lookupKey okvs "transition" = some (J.s transition) →
      pyGet okvs "detail" = detail.map J.s →
      lookupKey okvs "start_date" = some sd →
      lookupKey okvs "dial" = some (J.q dv) →
      _is_identity_dial dv = true →
      pyGet okvs "cohort" = some c →
      _target_for_shock data state transition detail = .ok (J.obj tkvs) →
      lookupKey tkvs "Shock" = some shock → shock ≠ J.null →
      _is_cohort_shock shock = false →
      _apply_dial_override data (J.obj okvs) =
        .ok (setLeaf data state transition detail (J.obj (popKey tkvs "Shock"))) ∧
      _target_for_shock
        (setLeaf data state transition detail (J.obj (popKey tkvs "Shock")))
        state transition detail = .ok (J.obj (popKey tkvs "Shock")) ∧
      (distinctKeys tkvs = true → hasKey (popKey tkvs "Shock") "Shock" = false)) ∧
    (∀ (data : J) (okvs tkvs skvs : List (String × J))
       (entries : List (List (String × J))) (state transition : String)
       (detail : Option String) (sd c : J) (dv : ℚ),
      lookupKey okvs "state" = some (J.s state) →
      lookupKey okvs "transition" = some (J.s transition) →
      pyGet okvs "detail" = detail.map J.s →
      lookupKey okvs "start_date" = some sd →
      lookupKey okvs "dial" = some (J.q dv) →
      _is_identity_dial dv = true →
      pyGet okvs "cohort" = some c →
      _target_for_shock data state transition detail = .ok (J.obj tkvs) →
      lookupKey tkvs "Shock" = some (J.obj skvs) →
      _is_cohort_shock (J.obj skvs) = true →
      pyGet skvs "Cohorts" = some (J.arr (entries.map J.obj)) →
      ((filterEntriesNot entries c).length = entries.length →
        _apply_dial_override data (J.obj okvs) = .ok data) ∧
      ((filterEntriesNot entries c).length ≠ entries.length →
        (filterEntriesNot entries c) ≠ [] →
        _apply_dial_override data (J.obj okvs) =
          .ok (setLeaf data state transition detail (J.obj (setKey tkvs "Shock"
            (J.obj (setKey skvs "Cohorts"
              (J.arr ((filterEntriesNot entries c).map J.obj))))))) ∧
        lookupKey (setKey tkvs "Shock" (J.obj (setKey skvs "Cohorts"
          (J.arr ((filterEntriesNot entries c).map J.obj))))) "Shock" =
          some (J.obj (setKey skvs "Cohorts"
            (J.arr ((filterEntriesNot entries c).map J.obj))))) ∧
      ((filterEntriesNot entries c).length ≠ entries.length →
        (filterEntriesNot entries c) = [] →
        _apply_dial_override data (J.obj okvs) =
          .ok (setLeaf data state transition detail (J.obj (popKey tkvs "Shock"))) ∧
        (distinctKeys tkvs = true →
          hasKey (popKey tkvs "Shock") "Shock" = false))) := by
  refine ⟨?_, ?_, ?_⟩
  · intro data okvs tkvs state transition detail sd shock dv
      h1 h2 h3 h4 h5 h6 h7 h8 h9 h10
    refine ⟨?_, target_setLeaf_self data state transition detail _ _ h8, ?_⟩
    · rw [apply_identity_reduce data okvs tkvs state transition detail sd dv
        h1 h2 h3 h4 h5 h6 h8, h7,
        remove_shock_nocohort tkvs shock h9 h10]
      rfl
    · intro hdk
      rw [hasKey, lookup_popKey_self tkvs "Shock" hdk]
      rfl
  · intro data okvs tkvs state transition detail sd shock c dv
      h1 h2 h3 h4 h5 h6 h7 h8 h9 h10 h11
    refine ⟨?_, target_setLeaf_self data state transition detail _ _ h8, ?_⟩
    · rw [apply_identity_reduce data okvs tkvs state transition detail sd dv
        h1 h2 h3 h4 h5 h6 h8, h7,
        remove_shock_noncohort_shape tkvs shock c h9 h10 h11]
      rfl
    · intro hdk
      rw [hasKey, lookup_popKey_self tkvs "Shock" hdk]
      rfl
  · intro data okvs tkvs skvs entries state transition detail sd c dv
      h1 h2 h3 h4 h5 h6 h7 h8 h9 h10 h11
    have happ : _apply_dial_override data (J.obj okvs) = (do
        let tkvs2 ← _remove_shock tkvs (some c)
        pure (setLeaf data state transition detail (J.obj tkvs2))) := by
      rw [apply_identity_reduce data okvs tkvs state transition detail sd dv
        h1 h2 h3 h4 h5 h6 h8, h7]
    have hrem := remove_shock_cohort tkvs skvs entries c h9 h10 h11
    refine ⟨?_, ?_, ?_⟩
    · intro hlen
      rw [happ, hrem, if_pos hlen]
      simp only [except_pure_eq, except_ok_bind]
      rw [setLeaf_self_eq data state transition detail (J.obj tkvs) h8]
    · intro hlen hne
      have hie : (filterEntriesNot entries c).isEmpty = false := by
        cases hre : (filterEntriesNot entries c).isEmpty
        · rfl
        · exact absurd (List.isEmpty_iff.mp hre) hne
      refine ⟨?_, lookup_setKey_self tkvs "Shock" _⟩
      rw [happ, hrem, if_neg hlen, hie]
      rfl
    · intro hlen hemp
      have hie : (filterEntriesNot entries c).isEmpty = true := by
        rw [hemp]
        rfl
      refine ⟨?_, ?_⟩
      · rw [happ, hrem, if_neg hlen, hie]
        rfl
      · intro hdk
        rw [hasKey, lookup_popKey_self tkvs "Shock" hdk]
        rfl

/-- Witness for C2: the three removal modes at concrete inputs. -/
theorem c2_identity_removal_witness :
    _apply_dial_override
      (J.obj [("State", J.obj [("S", J.obj [("Transitions", J.obj
        [("T", J.obj [("Shock", J.obj [("StartDate", J.s "20200101"),
          ("Detail", J.s "1.2x")])])])])])])
      (J.obj [("state", J.s "S"), ("transition", J.s "T"),
        ("start_date", J.s "20240101"), ("dial", J.q 1)]) =
      .ok (J.obj [("State", J.obj [("S", J.obj [("Transitions", J.obj
        [("T", J.obj [])])])])]) ∧
    _apply_dial_override
      (J.obj [("State", J.obj [("S", J.obj [("Transitions", J.obj
        [("T", J.obj [("Shock", J.obj [("HasCohort", J.b true), ("Cohorts", J.arr
          [J.obj [("Cohort", J.s "A")], J.obj [("Cohort", J.s "B")]])])])])])])])
      (J.obj [("state", J.s "S"), ("transition", J.s "T"),
        ("start_date", J.s "20240101"), ("dial", J.q 1),
        ("cohort", J.s "A")]) =
      .ok (J.obj [("State", J.obj [("S", J.obj [("Transitions", J.obj
        [("T", J.obj [("Shock", J.obj [("HasCohort", J.b true), ("Cohorts", J.arr
          [J.obj [("Cohort", J.s "B")]])])])])])])]) := by
  have h := c2_identity_removal
  refine ⟨?_, ?_⟩
  · exact (h.1
      (J.obj [("State", J.obj [("S", J.obj [("Transitions", J.obj
        [("T", J.obj [("Shock", J.obj [("StartDate", J.s "20200101"),
          ("Detail", J.s "1.2x")])])])])])])
      [("state", J.s "S"), ("transition", J.s "T"),
        ("start_date", J.s "20240101"), ("dial", J.q 1)]
      [("Shock", J.obj [("StartDate", J.s "20200101"),
        ("Detail", J.s "1.2x")])] "S" "T" none (J.s "20240101")
      (J.obj [("StartDate", J.s "20200101"), ("Detail", J.s "1.2x")]) 1
      rfl rfl rfl rfl rfl (by with_unfolding_all decide) rfl rfl rfl
      (by simp)).1
  · exact ((h.2.2
      (J.obj [("State", J.obj [("S", J.obj [("Transitions", J.obj
        [("T", J.obj [("Shock", J.obj [("HasCohort", J.b true), ("Cohorts", J.arr
          [J.obj [("Cohort", J.s "A")], J.obj [("Cohort", J.s "B")]])])])])])])])
      [("state", J.s "S"), ("transition", J.s "T"),
        ("start_date", J.s "20240101"), ("dial", J.q 1), ("cohort", J.s "A")]
      [("Shock", J.obj [("HasCohort", J.b true), ("Cohorts", J.arr
      [J.obj [("Cohort", J.s "A")], J.obj [("Cohort", J.s "B")]])])]
      [("HasCohort", J.b true), ("Cohorts", J.arr
      [J.obj [("Cohort", J.s "A")], J.obj [("Cohort", J.s "B")]])]
      [[("Cohort", J.s "A")], [("Cohort", J.s "B")]] "S" "T" none
      (J.s "20240101") (J.s "A") 1
      rfl rfl rfl rfl rfl (by with_unfolding_all decide) rfl rfl rfl rfl
      rfl).2.1 (by with_unfolding_all decide) (by with_unfolding_all decide)).1

theorem pyGet_ne_null (kvs : List (String × J)) (k : String) (v : J)
    (h : pyGet kvs k = some v) : v ≠ J.null := by
  intro he
  subst he
  rw [pyGet] at h
  cases hl : lookupKey kvs k with
  | none => rw [hl] at h; exact absurd h (by simp)
  | some w =>
    rw [hl] at h
    cases w <;> simp_all

theorem apply_cohort_reduce (data : J) (okvs tkvs : List (String × J))
    (state transition : String) (detail : Option String) (sd c : J) (dv : ℚ)
    (hstate : lookupKey okvs "state" = some (J.s state))
    (htrans : lookupKey okvs "transition" = some (J.s transition))
    (hdetail : pyGet okvs "detail" = detail.map J.s)
    (hsd : lookupKey okvs "start_date" = some sd)
    (hdv : lookupKey okvs "dial" = some (J.q dv))
    (hnotid : _is_identity_dial dv = false)
    (hcoh : pyGet okvs "cohort" = some c)
    (hres : _target_for_shock data state transition detail = .ok (J.obj tkvs)) :
    _apply_dial_override data (J.obj okvs) = (do
      let tkvs2 ← _upsert_cohort_shock tkvs state transition detail c sd dv
        (overrideFlag okvs "add_cohort" false) (overrideFlag okvs "convert_cohort" true)
      pure (setLeaf data state transition detail (J.obj tkvs2))) := by
  rw [_apply_dial_override]
  cases detail <;> simp at hdetail <;>
    cases hal : lookupKey okvs "add_cohort" <;>
      cases hcl : lookupKey okvs "convert_cohort" <;>
        simp only [hstate, htrans, hdetail, hsd, hdv, hres, hnotid, hcoh,
          hal, hcl, overrideFlag, except_ok_bind, except_error_bind,
          except_pure_eq, Bool.false_eq_true, if_false]

theorem upsert_convert_refused (tkvs skvs : List (String × J))
    (state transition : String) (detail : Option String) (c sd : J) (dv : ℚ)
    (ac : Bool)
    (hshock : lookupKey tkvs "Shock" = some (J.obj skvs))
    (hnock : hasKey skvs "Cohorts" = false)
    (hnhc : lookupKey skvs "HasCohort" ≠ some (J.b true)) :
    _upsert_cohort_shock tkvs state transition detail c sd dv ac false =
      .error (.cohortConversionRefused (_format_path state transition detail)) := by
  rw [_upsert_cohort_shock, _ensure_cohort_shock]
  rw [pyGet_some_of_ne_null tkvs "Shock" (J.obj skvs) hshock (by simp)]
  simp only [hnock, Bool.or_false, Bool.not_false, if_true, if_neg hnhc,
    Bool.false_eq_true, if_false, except_pure_eq, except_ok_bind,
    except_throw_eq, except_error_bind]

theorem upsert_convert_creates (tkvs skvs : List (String × J))
    (state transition : String) (detail : Option String) (c sd : J) (dv : ℚ)
    (ac : Bool)
    (hshock : lookupKey tkvs "Shock" = some (J.obj skvs))
    (hnock : hasKey skvs "Cohorts" = false)
    (hnhc : lookupKey skvs "HasCohort" ≠ some (J.b true))
    (hcnn : c ≠ J.null) :
    _upsert_cohort_shock tkvs state transition detail c sd dv ac true =
      .ok (setKey tkvs "Shock" (J.obj [("HasCohort", J.b true), ("Cohorts",
        J.arr [J.obj [("Cohort", c), ("StartDate", sd),
          ("Detail", J.s (dial dv))]])])) := by
  rw [_upsert_cohort_shock, _ensure_cohort_shock]
  rw [pyGet_some_of_ne_null tkvs "Shock" (J.obj skvs) hshock (by simp)]
  simp only [hnock, Bool.or_true, Bool.not_false, if_true, if_neg hnhc,
    except_pure_eq, except_ok_bind, except_throw_eq, except_error_bind]
  have hmatch2 : pyGet [("Cohort", c)] "Cohort" = some c :=
    pyGet_some_of_ne_null [("Cohort", c)] "Cohort" c (by simp [lookupKey]) hcnn
  simp [lookupKey, List.mapM.loop, hmatch2, setKey]

/-- C4: on a leaf holding a simple shock (a dict with neither `HasCohort`
true nor a `Cohorts` key), a cohort override with a falsy `convert_cohort`
fails with the cohort-conversion-refused error (leaving the document, and
hence the shock, unchanged as no document is produced), for any
`add_cohort` value; with `convert_cohort` truthy (its default) the shock is
replaced by the cohort container `{HasCohort: true, Cohorts: [...]}`
holding exactly the new entry, discarding the simple shock's `StartDate`
and `Detail`. -/
theorem c4_cohort_conversion :
    (∀ (data : J) (okvs tkvs skvs : List (String × J)) (state transition : String)
       (detail : Option String) (sd c : J) (dv : ℚ),
      lookupKey okvs "state" = some (J.s state) →
      lookupKey okvs "transition" = some (J.s transition) →
      pyGet okvs "detail" = detail.map J.s →
      lookupKey okvs "start_date" = some sd →
      lookupKey okvs "dial" = some (J.q dv) →
      _is_identity_dial dv = false →
      pyGet okvs "cohort" = some c →
      _target_for_shock data state transition detail = .ok (J.obj tkvs) →
      lookupKey tkvs "Shock" = some (J.obj skvs) →
      hasKey skvs "Cohorts" = false →
      lookupKey skvs "HasCohort" ≠ some (J.b true) →
      overrideFlag okvs "convert_cohort" true = false →
      _apply_dial_override data (J.obj okvs) =
        .error (.cohortConversionRefused (_format_path state transition detail))) ∧
    (∀ (data : J) (okvs tkvs skvs : List (String × J)) (state transition : String)
       (detail : Option String) (sd c : J) (dv : ℚ),
      lookupKey okvs "state" = some (J.s state) →
      lookupKey okvs "transition" = some (J.s transition) →
      pyGet okvs "detail" = detail.map J.s →
      lookupKey okvs "start_date" = some sd →
      lookupKey okvs "dial" = some (J.q dv) →
      _is_identity_dial dv = false →
      pyGet okvs "cohort" = some c →
      _target_for_shock data state transition detail = .ok (J.obj tkvs) →
      lookupKey tkvs "Shock" = some (J.obj skvs) →
      hasKey skvs "Cohorts" = false →
      lookupKey skvs "HasCohort" ≠ some (J.b true) →
      overrideFlag okvs "convert_cohort" true = true →
      _apply_dial_override data (J.obj okvs) =
        .ok (setLeaf data state transition detail (J.obj (setKey tkvs "Shock"
          (J.obj [("HasCohort", J.b true), ("Cohorts",
            J.arr [J.obj [("Cohort", c), ("StartDate", sd),
              ("Detail", J.s (dial dv))]])])))) ∧
      _target_for_shock
        (setLeaf data state transition detail (J.obj (setKey tkvs "Shock"
          (J.obj [("HasCohort", J.b true), ("Cohorts",
            J.arr [J.obj [("Cohort", c), ("StartDate", sd),
              ("Detail", J.s (dial dv))]])]))))
        state transition detail =
        .ok (J.obj (setKey tkvs "Shock"
          (J.obj [("HasCohort", J.b true), ("Cohorts",
            J.arr [J.obj [("Cohort", c), ("StartDate", sd),
              ("Detail", J.s (dial dv))]])]))) ∧
      lookupKey (setKey tkvs "Shock"
          (J.obj [("HasCohort", J.b true), ("Cohorts",
            J.arr [J.obj [("Cohort", c), ("StartDate", sd),
              ("Detail", J.s (dial dv))]])])) "Shock" =
        some (J.obj [("HasCohort", J.b true), ("Cohorts",
          J.arr [J.obj [("Cohort", c), ("StartDate", sd),
            ("Detail", J.s (dial dv))]])])) := by
  refine ⟨?_, ?_⟩
  · intro data okvs tkvs skvs state transition detail sd c dv
      h1 h2 h3 h4 h5 h6 h7 h8 h9 h10 h11 hflag
    rw [apply_cohort_reduce data okvs tkvs state transition detail sd c dv
      h1 h2 h3 h4 h5 h6 h7 h8, hflag,
      upsert_convert_refused tkvs skvs state transition detail c sd dv _
        h9 h10 h11]
    rfl
  · intro data okvs tkvs skvs state transition detail sd c dv
      h1 h2 h3 h4 h5 h6 h7 h8 h9 h10 h11 hflag
    refine ⟨?_, target_setLeaf_self data state transition detail _ _ h8,
      lookup_setKey_self tkvs "Shock" _⟩
    rw [apply_cohort_reduce data okvs tkvs state transition detail sd c dv
      h1 h2 h3 h4 h5 h6 h7 h8, hflag,
      upsert_convert_creates tkvs skvs state transition detail c sd dv _
        h9 h10 h11 (pyGet_ne_null okvs "cohort" c h7)]
    rfl

/-- Witness for C4: refusal and conversion at a concrete simple-shock leaf. -/
theorem c4_cohort_conversion_witness :
    _apply_dial_override
      (J.obj [("State", J.obj [("S", J.obj [("Transitions", J.obj
        [("T", J.obj [("Shock", J.obj [("StartDate", J.s "20200101"),
          ("Detail", J.s "1.3x")])])])])])])
      (J.obj [("state", J.s "S"), ("transition", J.s "T"),
        ("start_date", J.s "20240101"), ("dial", J.q (6/5)),
        ("cohort", J.s "C1"), ("convert_cohort", J.b false)]) =
      .error (.cohortConversionRefused (_format_path "S" "T" none)) ∧
    _apply_dial_override
      (J.obj [("State", J.obj [("S", J.obj [("Transitions", J.obj
        [("T", J.obj [("Shock", J.obj [("StartDate", J.s "20200101"),
          ("Detail", J.s "1.3x")])])])])])])
      (J.obj [("state", J.s "S"), ("transition", J.s "T"),
        ("start_date", J.s "20240101"), ("dial", J.q (6/5)),
        ("cohort", J.s "C1")]) =
      .ok (J.obj [("State", J.obj [("S", J.obj [("Transitions", J.obj
        [("T", J.obj [("Shock", J.obj [("HasCohort", J.b true), ("Cohorts",
          J.arr [J.obj [("Cohort", J.s "C1"), ("StartDate", J.s "20240101"),
            ("Detail", J.s (dial (6/5)))]])])])])])])]) := by
  have h := c4_cohort_conversion
  refine ⟨?_, ?_⟩
  · exact h.1
      (J.obj [("State", J.obj [("S", J.obj [("Transitions", J.obj
        [("T", J.obj [("Shock", J.obj [("StartDate", J.s "20200101"),
          ("Detail", J.s "1.3x")])])])])])])
      [("state", J.s "S"), ("transition", J.s "T"),
        ("start_date", J.s "20240101"), ("dial", J.q (6/5)),
        ("cohort", J.s "C1"), ("convert_cohort", J.b false)]
      [("Shock", J.obj [("StartDate", J.s "20200101"), ("Detail", J.s "1.3x")])]
      [("StartDate", J.s "20200101"), ("Detail", J.s "1.3x")]
      "S" "T" none (J.s "20240101") (J.s "C1") (6/5)
      rfl rfl rfl rfl rfl (by with_unfolding_all decide) rfl rfl rfl rfl
      (by decide) rfl
  · exact (h.2
      (J.obj [("State", J.obj [("S", J.obj [("Transitions", J.obj
        [("T", J.obj [("Shock", J.obj [("StartDate", J.s "20200101"),
          ("Detail", J.s "1.3x")])])])])])])
      [("state", J.s "S"), ("transition", J.s "T"),
        ("start_date", J.s "20240101"), ("dial", J.q (6/5)),
        ("cohort", J.s "C1")]
      [("Shock", J.obj [("StartDate", J.s "20200101"), ("Detail", J.s "1.3x")])]
      [("StartDate", J.s "20200101"), ("Detail", J.s "1.3x")]
      "S" "T" none (J.s "20240101") (J.s "C1") (6/5)
      rfl rfl rfl rfl rfl (by with_unfolding_all decide) rfl rfl rfl rfl
      (by decide) rfl).1

theorem upsert_existing_cohorts (tkvs skvs : List (String × J))
    (entries : List (List (String × J)))
    (state transition : String) (detail : Option String) (c sd : J) (dv : ℚ)
    (ac cc : Bool)
    (hshock : lookupKey tkvs "Shock" = some (J.obj skvs))
    (hck : lookupKey skvs "Cohorts" = some (J.arr (entries.map J.obj)))
    (hhc : lookupKey skvs "HasCohort" = some (J.b true))
    (hnomatch : entriesObjNoMatch entries c = true)
    (hcnn : c ≠ J.null) :
    _upsert_cohort_shock tkvs state transition detail c sd dv ac cc =
      (if ac || cc then
        .ok (setKey tkvs "Shock" (J.obj (setKey skvs "Cohorts"
          (J.arr (entries.map J.obj ++
            [J.obj [("Cohort", c), ("StartDate", sd),
              ("Detail", J.s (dial dv))]])))))
      else .error (.cohortNotFound c (_format_path state transition detail))) := by
  rw [entriesObjNoMatch, List.all_eq_true] at hnomatch
  have hnm : ∀ ekvs ∈ entries, ¬ pyGet ekvs "Cohort" = some c := by
    intro ekvs hm
    have := hnomatch ekvs hm
    simpa using this
  rw [_upsert_cohort_shock, _ensure_cohort_shock]
  rw [pyGet_some_of_ne_null tkvs "Shock" (J.obj skvs) hshock (by simp)]
  have hhk : hasKey skvs "Cohorts" = true := by
    rw [hasKey, hck]
    rfl
  simp only [hhk, Bool.not_true, Bool.false_eq_true, if_false, hck, hhc,
    except_pure_eq, except_ok_bind, ne_eq, not_true_eq_false,
    reduceIte]
  rw [show ((entries.map J.obj).mapM (fun e =>
      match e with
      | J.obj ekvs => (Except.ok ekvs : Except DialErr (List (String × J)))
      | _ => throw (.typeError "cohort entry is not an object"))) =
      Except.ok entries from
    mapM_map_obj _ (fun kv => rfl) entries]
  simp only [except_ok_bind]
  have hany : (entries.any (fun ekvs => pyGet ekvs "Cohort" == some c)) = false := by
    rw [List.any_eq_false]
    intro ekvs hm
    simpa using hnm ekvs hm
  have hmatchnew : pyGet [("Cohort", c)] "Cohort" = some c :=
    pyGet_some_of_ne_null [("Cohort", c)] "Cohort" c (by simp [lookupKey]) hcnn
  rw [hany]
  cases hacc : ac || cc with
  | false => simp [hacc]
  | true =>
    simp only [hacc, Bool.not_true, Bool.false_eq_true, if_false, if_true,
      Bool.not_false, except_pure_eq, except_ok_bind, except_throw_eq,
      except_error_bind]
    have hmap2 : List.map (fun ekvs =>
        if (pyGet ekvs "Cohort" == some c) = true then
          setKey (setKey ekvs "StartDate" sd) "Detail" (J.s (dial dv))
        else ekvs) (entries ++ [[("Cohort", c)]]) =
        entries ++ [[("Cohort", c), ("StartDate", sd),
          ("Detail", J.s (dial dv))]] := by
      rw [List.map_append]
      refine congrArg₂ (· ++ ·) ?_ ?_
      · refine Eq.trans (List.map_congr_left ?_) (List.map_id entries)
        intro ekvs hm
        rw [if_neg (by simpa using hnm ekvs hm)]
        rfl
      · simp [hmatchnew, setKey]
    rw [hmap2, List.map_append]
    rfl

/-- C1 (counterexample): with the override flags left at their defaults (no
`add_cohort` key, no `convert_cohort` key), a cohort override naming a
cohort absent from the target's cohort-shaped shock does not fail with the
missing-cohort error: because `convert_cohort` defaults to true and
`_upsert_cohort_shock` computes `add_cohort = add_cohort or convert_cohort`,
the typo'd cohort entry is silently created. -/
theorem c1_default_flags_counterexample :
    lookupKey [("state", J.s "S"), ("transition", J.s "T"),
      ("start_date", J.s "20240101"), ("dial", J.q (6/5)),
      ("cohort", J.s "B")] "add_cohort" = none ∧
    _apply_dial_override
      (J.obj [("State", J.obj [("S", J.obj [("Transitions", J.obj
        [("T", J.obj [("Shock", J.obj [("HasCohort", J.b true), ("Cohorts",
          J.arr [J.obj [("Cohort", J.s "A")]])])])])])])])
      (J.obj [("state", J.s "S"), ("transition", J.s "T"),
        ("start_date", J.s "20240101"), ("dial", J.q (6/5)),
        ("cohort", J.s "B")]) =
      .ok (J.obj [("State", J.obj [("S", J.obj [("Transitions", J.obj
        [("T", J.obj [("Shock", J.obj [("HasCohort", J.b true), ("Cohorts",
          J.arr [J.obj [("Cohort", J.s "A")],
            J.obj [("Cohort", J.s "B"), ("StartDate", J.s "20240101"),
              ("Detail", J.s (dial (6/5)))]])])])])])])]) := by
  refine ⟨rfl, ?_⟩
  rw [apply_cohort_reduce
    (J.obj [("State", J.obj [("S", J.obj [("Transitions", J.obj
      [("T", J.obj [("Shock", J.obj [("HasCohort", J.b true), ("Cohorts",
        J.arr [J.obj [("Cohort", J.s "A")]])])])])])])])
    [("state", J.s "S"), ("transition", J.s "T"),
      ("start_date", J.s "20240101"), ("dial", J.q (6/5)),
      ("cohort", J.s "B")]
    [("Shock", J.obj [("HasCohort", J.b true), ("Cohorts",
      J.arr [J.obj [("Cohort", J.s "A")]])])]
    "S" "T" none (J.s "20240101") (J.s "B") (6/5)
    rfl rfl rfl rfl rfl (by with_unfolding_all decide) rfl rfl]
  have hac : overrideFlag [("state", J.s "S"), ("transition", J.s "T"),
      ("start_date", J.s "20240101"), ("dial", J.q (6/5)),
      ("cohort", J.s "B")] "add_cohort" false = false := rfl
  have hcc : overrideFlag [("state", J.s "S"), ("transition", J.s "T"),
      ("start_date", J.s "20240101"), ("dial", J.q (6/5)),
      ("cohort", J.s "B")] "convert_cohort" true = true := rfl
  rw [hac, hcc]
  rw [upsert_existing_cohorts
    [("Shock", J.obj [("HasCohort", J.b true), ("Cohorts",
      J.arr [J.obj [("Cohort", J.s "A")]])])]
    [("HasCohort", J.b true), ("Cohorts", J.arr [J.obj [("Cohort", J.s "A")]])]
    [[("Cohort", J.s "A")]]
    "S" "T" none (J.s "B") (J.s "20240101") (6/5) false true
    rfl rfl rfl (by decide) (by decide)]
  rfl

/-- C1 (amended): for a cohort override with a non-identity dial whose
cohort is absent from the target's cohort-shaped shock, the missing-cohort
error is raised only when the effective creation flag is off, i.e. when the
override carries falsy values for BOTH `add_cohort` (default false) and
`convert_cohort` (default true), since the code replaces `add_cohort` by
`add_cohort or convert_cohort`; whenever either flag is truthy (in
particular under the defaults) exactly one new cohort entry is appended,
carrying the override's StartDate and the dial schedule string, with the
existing entries untouched. -/
theorem c1_cohort_guard (data : J) (okvs tkvs skvs : List (String × J))
    (entries : List (List (String × J)))
    (state transition : String) (detail : Option String) (sd c : J) (dv : ℚ)
    (h1 : lookupKey okvs "state" = some (J.s state))
    (h2 : lookupKey okvs "transition" = some (J.s transition))
    (h3 : pyGet okvs "detail" = detail.map J.s)
    (h4 : lookupKey okvs "start_date" = some sd)
    (h5 : lookupKey okvs "dial" = some (J.q dv))
    (h6 : _is_identity_dial dv = false)
    (h7 : pyGet okvs "cohort" = some c)
    (h8 : _target_for_shock data state transition detail = .ok (J.obj tkvs))
    (h9 : lookupKey tkvs "Shock" = some (J.obj skvs))
    (h10 : lookupKey skvs "Cohorts" = some (J.arr (entries.map J.obj)))
    (h11 : lookupKey skvs "HasCohort" = some (J.b true))
    (h12 : entriesObjNoMatch entries c = true) :
    (overrideFlag okvs "add_cohort" false = false →
     overrideFlag okvs "convert_cohort" true = false →
     _apply_dial_override data (J.obj okvs) =
       .error (.cohortNotFound c (_format_path state transition detail))) ∧
    ((overrideFlag okvs "add_cohort" false ||
        overrideFlag okvs "convert_cohort" true) = true →
     _apply_dial_override data (J.obj okvs) =
       .ok (setLeaf data state transition detail (J.obj (setKey tkvs "Shock"
         (J.obj (setKey skvs "Cohorts" (J.arr (entries.map J.obj ++
           [J.obj [("Cohort", c), ("StartDate", sd),
             ("Detail", J.s (dial dv))]])))))))) := by
  have hcnn := pyGet_ne_null okvs "cohort" c h7
  have hred := apply_cohort_reduce data okvs tkvs state transition detail
    sd c dv h1 h2 h3 h4 h5 h6 h7 h8
  have hup := upsert_existing_cohorts tkvs skvs entries state transition
    detail c sd dv (overrideFlag okvs "add_cohort" false)
    (overrideFlag okvs "convert_cohort" true) h9 h10 h11 h12 hcnn
  constructor
  · intro hac hcc
    rw [hred, hup, hac, hcc]
    rfl
  · intro hor
    rw [hred, hup, hor]
    rfl

/-- Witness for C1: at a concrete cohort-shaped leaf missing cohort "B",
both-flags-falsy fails with the missing-cohort error, while the default
flags append exactly the one new entry. -/
theorem c1_cohort_guard_witness :
    _apply_dial_override
      (J.obj [("State", J.obj [("S", J.obj [("Transitions", J.obj
        [("T", J.obj [("Shock", J.obj [("HasCohort", J.b true), ("Cohorts",
          J.arr [J.obj [("Cohort", J.s "A")]])])])])])])])
      (J.obj [("state", J.s "S"), ("transition", J.s "T"),
        ("start_date", J.s "20240101"), ("dial", J.q (13/10)),
        ("cohort", J.s "B"), ("add_cohort", J.b false),
        ("convert_cohort", J.b false)]) =
      .error (.cohortNotFound (J.s "B") (_format_path "S" "T" none)) ∧
    _apply_dial_override
      (J.obj [("State", J.obj [("S", J.obj [("Transitions", J.obj
        [("T", J.obj [("Shock", J.obj [("HasCohort", J.b true), ("Cohorts",
          J.arr [J.obj [("Cohort", J.s "A")]])])])])])])])
      (J.obj [("state", J.s "S"), ("transition", J.s "T"),
        ("start_date", J.s "20240101"), ("dial", J.q (13/10)),
        ("cohort", J.s "B")]) =
      .ok (J.obj [("State", J.obj [("S", J.obj [("Transitions", J.obj
        [("T", J.obj [("Shock", J.obj [("HasCohort", J.b true), ("Cohorts",
          J.arr [J.obj [("Cohort", J.s "A")],
            J.obj [("Cohort", J.s "B"), ("StartDate", J.s "20240101"),
              ("Detail", J.s (dial (13/10)))]])])])])])])]) := by
  refine ⟨?_, ?_⟩
  · exact (c1_cohort_guard
      (J.obj [("State", J.obj [("S", J.obj [("Transitions", J.obj
        [("T", J.obj [("Shock", J.obj [("HasCohort", J.b true), ("Cohorts",
          J.arr [J.obj [("Cohort", J.s "A")]])])])])])])])
      [("state", J.s "S"), ("transition", J.s "T"),
        ("start_date", J.s "20240101"), ("dial", J.q (13/10)),
        ("cohort", J.s "B"), ("add_cohort", J.b false),
        ("convert_cohort", J.b false)]
      [("Shock", J.obj [("HasCohort", J.b true), ("Cohorts",
        J.arr [J.obj [("Cohort", J.s "A")]])])]
      [("HasCohort", J.b true), ("Cohorts", J.arr [J.obj [("Cohort", J.s "A")]])]
      [[("Cohort", J.s "A")]]
      "S" "T" none (J.s "20240101") (J.s "B") (13/10)
      rfl rfl rfl rfl rfl (by with_unfolding_all decide) rfl rfl rfl rfl rfl
      (by decide)).1 rfl rfl
  · exact (c1_cohort_guard
      (J.obj [("State", J.obj [("S", J.obj [("Transitions", J.obj
        [("T", J.obj [("Shock", J.obj [("HasCohort", J.b true), ("Cohorts",
          J.arr [J.obj [("Cohort", J.s "A")]])])])])])])])
      [("state", J.s "S"), ("transition", J.s "T"),
        ("start_date", J.s "20240101"), ("dial", J.q (13/10)),
        ("cohort", J.s "B")]
      [("Shock", J.obj [("HasCohort", J.b true), ("Cohorts",
        J.arr [J.obj [("Cohort", J.s "A")]])])]
      [("HasCohort", J.b true), ("Cohorts", J.arr [J.obj [("Cohort", J.s "A")]])]
      [[("Cohort", J.s "A")]]
      "S" "T" none (J.s "20240101") (J.s "B") (13/10)
      rfl rfl rfl rfl rfl (by with_unfolding_all decide) rfl rfl rfl rfl rfl
      (by decide)).2 rfl

/-! # Lemmas: decimal digits and the dial-string round trip -/

theorem digitVal_digitChar (d : ℕ) (h : d < 10) : digitVal (digitChar d) = d := by
  interval_cases d <;> decide

theorem digitChar_isDigit (d : ℕ) (h : d < 10) : (digitChar d).isDigit = true := by
  interval_cases d <;> decide

theorem digitChar_beq_zero (d : ℕ) (h : d < 10) :
    (digitChar d == '0') = (d == 0) := by
  interval_cases d <;> decide

theorem isDigit_not_space (c : Char) (h : c.isDigit = true) : isPySpace c = false := by
  cases hc : isPySpace c
  · rfl
  · exfalso
    rw [isPySpace] at hc
    simp only [Bool.or_eq_true, beq_iff_eq] at hc
    rcases hc with ((((h1 | h1) | h1) | h1) | h1) | h1 <;> subst h1 <;>
      exact absurd h (by decide)

theorem digitsToNat_from (l : List Char) (a : ℕ) :
    l.foldl (fun a c => a * 10 + digitVal c) a =
      a * 10 ^ l.length + digitsToNat l := by
  induction l generalizing a with
  | nil => simp [digitsToNat]
  | cons c l ih =>
    rw [List.foldl_cons, ih,
      show digitsToNat (c :: l) =
        List.foldl (fun a c => a * 10 + digitVal c) (0 * 10 + digitVal c) l from rfl,
      ih]
    simp only [List.length_cons]
    ring

theorem digitsToNat_cons (c : Char) (l : List Char) :
    digitsToNat (c :: l) = digitVal c * 10 ^ l.length + digitsToNat l := by
  rw [digitsToNat, List.foldl_cons, digitsToNat_from]
  simp

theorem natDigitsFuel_val (fuel : ℕ) : ∀ (n : ℕ) (acc : List Char), n ≤ fuel →
    digitsToNat (natDigitsFuel fuel n acc) =
      n * 10 ^ acc.length + digitsToNat acc := by
  induction fuel with
  | zero =>
    intro n acc h
    interval_cases n
    simp [natDigitsFuel]
  | succ f ih =>
    intro n acc h
    rw [natDigitsFuel]
    by_cases hn : n = 0
    · rw [if_pos hn, hn]
      simp
    · rw [if_neg hn, ih (n / 10) _ (by omega), List.length_cons, digitsToNat_cons,
        digitVal_digitChar _ (Nat.mod_lt n (by omega))]
      have h2 : n / 10 * 10 ^ (acc.length + 1) +
          (n % 10 * 10 ^ acc.length + digitsToNat acc) =
          (n / 10 * 10 + n % 10) * 10 ^ acc.length + digitsToNat acc := by ring
      rw [h2, show n / 10 * 10 + n % 10 = n from by omega]

theorem digitsToNat_natDigits (n : ℕ) : digitsToNat (natDigits n) = n := by
  rw [natDigits]
  by_cases hn : n = 0
  · rw [if_pos hn, hn]
    decide
  · rw [if_neg hn, natDigitsFuel_val n n [] le_rfl]
    simp [digitsToNat]

theorem natDigitsFuel_digits (fuel : ℕ) : ∀ (n : ℕ) (acc : List Char),
    (∀ c ∈ acc, c.isDigit = true) →
    ∀ c ∈ natDigitsFuel fuel n acc, c.isDigit = true := by
  induction fuel with
  | zero =>
    intro n acc hacc
    exact hacc
  | succ f ih =>
    intro n acc hacc
    rw [natDigitsFuel]
    by_cases hn : n = 0
    · rw [if_pos hn]
      exact hacc
    · rw [if_neg hn]
      refine ih (n / 10) _ ?_
      intro c hc
      rcases List.mem_cons.mp hc with he | hm
      · subst he
        exact digitChar_isDigit _ (Nat.mod_lt n (by omega))
      · exact hacc c hm

theorem natDigits_digits (n : ℕ) : ∀ c ∈ natDigits n, c.isDigit = true := by
  rw [natDigits]
  by_cases hn : n = 0
  · rw [if_pos hn]
    intro c hc
    simp only [List.mem_singleton] at hc
    subst hc
    decide
  · rw [if_neg hn]
    exact natDigitsFuel_digits n n [] (by simp)

theorem natDigitsFuel_ne_nil (fuel : ℕ) : ∀ (n : ℕ) (acc : List Char),
    acc ≠ [] → natDigitsFuel fuel n acc ≠ [] := by
  induction fuel with
  | zero =>
    intro n acc h
    exact h
  | succ f ih =>
    intro n acc h
    rw [natDigitsFuel]
    by_cases hn : n = 0
    · rw [if_pos hn]
      exact h
    · rw [if_neg hn]
      exact ih _ _ (by simp)

theorem natDigits_ne_nil (n : ℕ) : natDigits n ≠ [] := by
  rw [natDigits]
  by_cases hn : n = 0
  · rw [if_pos hn]
    simp
  · rw [if_neg hn]
    cases n with
    | zero => exact absurd rfl hn
    | succ k =>
      rw [natDigitsFuel, if_neg hn]
      exact natDigitsFuel_ne_nil _ _ _ (by simp)

theorem takeWhile_append_all (p : Char → Bool) (xs : List Char) (y : Char)
    (ys : List Char) (hall : ∀ c ∈ xs, p c = true) (hy : p y = false) :
    (xs ++ y :: ys).takeWhile p = xs := by
  induction xs with
  | nil =>
    simp [List.takeWhile_cons, hy]
  | cons c l ih =>
    have h1 := hall c (List.mem_cons_self c l)
    simp only [List.cons_append, List.takeWhile_cons, h1, if_true]
    rw [ih (fun c2 hc2 => hall c2 (List.mem_cons_of_mem c hc2))]

theorem frac_facts (f : ℕ) (h1 : f ≠ 0) (h2 : f < 1000) :
    (∀ c ∈ stripTrailingZeros (pad3 f), c.isDigit = true) ∧
    stripTrailingZeros (pad3 f) ≠ [] ∧
    digitsToNat (stripTrailingZeros (pad3 f)) * 1000 =
      f * 10 ^ (stripTrailingZeros (pad3 f)).length := by
  have ha : f / 100 < 10 := by omega
  have hb : f / 10 % 10 < 10 := by omega
  have hc : f % 10 < 10 := by omega
  have hrev : (pad3 f).reverse =
      [digitChar (f % 10), digitChar (f / 10 % 10), digitChar (f / 100)] := rfl
  rw [stripTrailingZeros, hrev]
  by_cases hz1 : f % 10 = 0
  · by_cases hz2 : f / 10 % 10 = 0
    · have hz3 : ¬ f / 100 = 0 := by omega
      rw [List.dropWhile_cons, digitChar_beq_zero _ hc, if_pos (by simp [hz1]),
        List.dropWhile_cons, digitChar_beq_zero _ hb, if_pos (by simp [hz2]),
        List.dropWhile_cons, digitChar_beq_zero _ ha, if_neg (by simp [hz3]),
        show ([digitChar (f / 100)] : List Char).reverse =
          [digitChar (f / 100)] from rfl]
      refine ⟨?_, by simp, ?_⟩
      · intro c hcm
        rw [List.mem_singleton] at hcm
        subst hcm
        exact digitChar_isDigit _ ha
      · simp only [digitsToNat_cons, digitVal_digitChar _ ha, List.length_nil,
          List.length_cons, show digitsToNat ([] : List Char) = 0 from rfl,
          pow_succ, pow_zero, one_mul]
        omega
    · rw [List.dropWhile_cons, digitChar_beq_zero _ hc, if_pos (by simp [hz1]),
        List.dropWhile_cons, digitChar_beq_zero _ hb, if_neg (by simp [hz2]),
        show ([digitChar (f / 10 % 10), digitChar (f / 100)] : List Char).reverse =
          [digitChar (f / 100), digitChar (f / 10 % 10)] from rfl]
      refine ⟨?_, by simp, ?_⟩
      · intro c hcm
        rw [List.mem_cons, List.mem_singleton] at hcm
        rcases hcm with hcm | hcm <;> subst hcm
        · exact digitChar_isDigit _ ha
        · exact digitChar_isDigit _ hb
      · simp only [digitsToNat_cons, digitVal_digitChar _ ha, digitVal_digitChar _ hb,
          List.length_nil, List.length_cons,
          show digitsToNat ([] : List Char) = 0 from rfl,
          pow_succ, pow_zero, one_mul]
        omega
  · rw [List.dropWhile_cons, digitChar_beq_zero _ hc, if_neg (by simp [hz1]),
      show ([digitChar (f % 10), digitChar (f / 10 % 10), digitChar (f / 100)] :
        List Char).reverse =
        [digitChar (f / 100), digitChar (f / 10 % 10), digitChar (f % 10)] from rfl]
    refine ⟨?_, by simp, ?_⟩
    · intro c hcm
      rw [List.mem_cons, List.mem_cons, List.mem_singleton] at hcm
      rcases hcm with hcm | hcm | hcm <;> subst hcm
      · exact digitChar_isDigit _ ha
      · exact digitChar_isDigit _ hb
      · exact digitChar_isDigit _ hc
    · simp only [digitsToNat_cons, digitVal_digitChar _ ha, digitVal_digitChar _ hb,
        digitVal_digitChar _ hc, List.length_nil, List.length_cons,
        show digitsToNat ([] : List Char) = 0 from rfl,
        pow_succ, pow_zero, one_mul]
      omega

theorem parse_digits_generic (qd : ℕ) (frac tail : List Char)
    (hfd : ∀ c ∈ frac, c.isDigit = true) (hfne : frac ≠ [])
    (hb : boundaryOk tail = true) :
    parseLeadingDialL (natDigits qd ++ '.' :: (frac ++ 'x' :: tail)) =
      some ((qd : ℚ) + mkRat (digitsToNat frac) (10 ^ frac.length)) := by
  have hdw : List.dropWhile isPySpace
      (natDigits qd ++ '.' :: (frac ++ 'x' :: tail)) =
      natDigits qd ++ '.' :: (frac ++ 'x' :: tail) := by
    cases hnd : natDigits qd with
    | nil => exact absurd hnd (natDigits_ne_nil qd)
    | cons h0 r0 =>
      rw [List.cons_append, List.dropWhile_cons, if_neg (by
        rw [isDigit_not_space h0 (natDigits_digits qd h0
          (by rw [hnd]; exact List.mem_cons_self _ _))]
        simp)]
  have htw : List.takeWhile Char.isDigit
      (natDigits qd ++ '.' :: (frac ++ 'x' :: tail)) = natDigits qd :=
    takeWhile_append_all _ _ _ _ (natDigits_digits qd) (by decide)
  have hdl : List.drop (natDigits qd).length
      (natDigits qd ++ '.' :: (frac ++ 'x' :: tail)) =
      '.' :: (frac ++ 'x' :: tail) := List.drop_left _ _
  have hne1 : (natDigits qd).isEmpty = false := by
    cases hnd : natDigits qd with
    | nil => exact absurd hnd (natDigits_ne_nil qd)
    | cons h0 r0 => rfl
  have htw2 : List.takeWhile Char.isDigit (frac ++ 'x' :: tail) = frac :=
    takeWhile_append_all _ _ _ _ hfd (by decide)
  have hdl2 : List.drop frac.length (frac ++ 'x' :: tail) = 'x' :: tail :=
    List.drop_left _ _
  have hne2 : frac.isEmpty = false := by
    cases hfc : frac with
    | nil => exact absurd hfc hfne
    | cons a b => rfl
  simp only [parseLeadingDialL]
  rw [hdw, htw, hdl, hne1]
  simp only [Bool.false_eq_true, if_false]
  rw [htw2, hdl2, hne2]
  simp only [Bool.false_eq_true, if_false, hb, if_true]
  rw [digitsToNat_natDigits]

theorem parse_pyRepr3Nat (k : ℕ) (tail : List Char) (hb : boundaryOk tail = true) :
    parseLeadingDialL (pyRepr3Nat k ++ 'x' :: tail) = some ((k : ℚ) / 1000) := by
  by_cases hz : k % 1000 = 0
  · have hshape : pyRepr3Nat k ++ 'x' :: tail =
        natDigits (k / 1000) ++ '.' :: (['0'] ++ 'x' :: tail) := by
      rw [pyRepr3Nat, if_pos hz]
      simp [List.append_assoc]
    rw [hshape, parse_digits_generic (k / 1000) ['0'] tail
      (by intro c hcm; rw [List.mem_singleton] at hcm; subst hcm; decide)
      (by simp) hb]
    rw [show digitsToNat ['0'] = 0 from rfl]
    norm_num
    have hk : (k : ℚ) = ((k / 1000 : ℕ) : ℚ) * 1000 := by
      exact_mod_cast (by omega : k = k / 1000 * 1000)
    rw [hk]
    field_simp
  · obtain ⟨hfd, hfne, hval⟩ := frac_facts (k % 1000) hz (by omega)
    have hshape : pyRepr3Nat k ++ 'x' :: tail =
        natDigits (k / 1000) ++ '.' ::
          (stripTrailingZeros (pad3 (k % 1000)) ++ 'x' :: tail) := by
      rw [pyRepr3Nat, if_neg hz]
      simp [List.append_assoc]
    rw [hshape, parse_digits_generic (k / 1000) _ tail hfd hfne hb]
    rw [Rat.mkRat_eq_div]
    have hvalQ : (digitsToNat (stripTrailingZeros (pad3 (k % 1000))) : ℚ) * 1000 =
        ((k % 1000 : ℕ) : ℚ) *
          10 ^ (stripTrailingZeros (pad3 (k % 1000))).length := by
      exact_mod_cast hval
    have hkQ : (k : ℚ) = 1000 * ((k / 1000 : ℕ) : ℚ) + ((k % 1000 : ℕ) : ℚ) := by
      exact_mod_cast (by omega : k = 1000 * (k / 1000) + k % 1000)
    have hpow : ((10 : ℚ) ^ (stripTrailingZeros (pad3 (k % 1000))).length) ≠ 0 := by
      positivity
    field_simp
    push_cast at hvalQ hkQ
    linear_combination
      (-((10 : ℚ) ^ (stripTrailingZeros (pad3 (k % 1000))).length)) * hkQ + hvalQ

theorem round3K_nonneg (m : ℚ) (hm : 0 ≤ m) : 0 ≤ round3K m := by
  rw [round3K, roundHalfEven]
  have hf : (0 : ℤ) ≤ ⌊m * 1000⌋ := by
    apply Int.floor_nonneg.mpr
    positivity
  split
  · exact hf
  · split
    · omega
    · split <;> omega

theorem qTo3_pyRound3 (m : ℚ) : qTo3 (pyRound3 m) = round3K m := by
  rw [qTo3, pyRound3, div_mul_cancel₀]
  · exact Int.floor_intCast _
  · norm_num

theorem parse_dial_data (m : ℚ) (hm : 0 ≤ m) :
    parseLeadingDialL (dial m).data = some (pyRound3 m) := by
  have hk : 0 ≤ round3K m := round3K_nonneg m hm
  have hrepr : pyRepr3 (qTo3 (pyRound3 m)) = ⟨pyRepr3Nat (round3K m).toNat⟩ := by
    rw [qTo3_pyRound3, pyRepr3, if_neg (by omega)]
  have hdial : dial m =
      (pyRepr3 (qTo3 (pyRound3 m)) ++ "x for 36") ++ " " ++
        pyJoin " " ((List.range' 1 23).map (fun i =>
          pyRepr3 (qTo3 (pyRound3 (((24 - (i : ℚ)) * pyRound3 m + (i : ℚ) - 1) / 23))) ++
            "x for 1") ++ ["1.0x for 1", "1x"]) := by
    rw [dial]
    cases hr : (List.range' 1 23).map (fun i =>
        pyRepr3 (qTo3 (pyRound3 (((24 - (i : ℚ)) * pyRound3 m + (i : ℚ) - 1) / 23))) ++
          "x for 1") with
    | nil =>
      simp at hr
      exact absurd (hr 1 le_rfl) (by norm_num)
    | cons a l => rfl
  rw [hdial]
  have hdata : ((pyRepr3 (qTo3 (pyRound3 m)) ++ "x for 36") ++ " " ++
      pyJoin " " ((List.range' 1 23).map (fun i =>
        pyRepr3 (qTo3 (pyRound3 (((24 - (i : ℚ)) * pyRound3 m + (i : ℚ) - 1) / 23))) ++
          "x for 1") ++ ["1.0x for 1", "1x"])).data =
      pyRepr3Nat (round3K m).toNat ++ 'x' ::
        ((" for 36").data ++ (" " ++
          pyJoin " " ((List.range' 1 23).map (fun i =>
            pyRepr3 (qTo3 (pyRound3 (((24 - (i : ℚ)) * pyRound3 m + (i : ℚ) - 1) / 23))) ++
              "x for 1") ++ ["1.0x for 1", "1x"])).data) := by
    rw [hrepr]
    simp [List.append_assoc]
  rw [hdata, parse_pyRepr3Nat _ _ (by rfl)]
  rw [show (((round3K m).toNat : ℕ) : ℚ) = ((round3K m : ℤ) : ℚ) from by
    exact_mod_cast congrArg Int.cast (Int.toNat_of_nonneg hk)]
  rfl

theorem parse_dial_value_dial (m dflt : ℚ) (hm : 0 ≤ m) :
    _parse_dial_value (some (J.s (dial m))) dflt = pyRound3 m := by
  rw [_parse_dial_value, parse_dial_data m hm]

theorem parseLeadingDialL_nonneg (cs : List Char) (v : ℚ)
    (h : parseLeadingDialL cs = some v) : 0 ≤ v := by
  rw [parseLeadingDialL] at h
  split at h
  · exact absurd h (by simp)
  · split at h
    · simp only [] at h
      split at h
      · exact absurd h (by simp)
      · split at h
        · split at h
          · injection h with hv
            subst hv
            rw [Rat.mkRat_eq_div]
            positivity
          · exact absurd h (by simp)
        · exact absurd h (by simp)
    · split at h
      · injection h with hv
        subst hv
        positivity
      · exact absurd h (by simp)
    · exact absurd h (by simp)

theorem parse_dial_value_nonneg (d : Option J) (dflt : ℚ) (h : 0 ≤ dflt) :
    0 ≤ _parse_dial_value d dflt := by
  match d with
  | some (J.s str) =>
    rw [show _parse_dial_value (some (J.s str)) dflt =
      (match parseLeadingDialL str.data with
       | some v => v
       | none => dflt) from rfl]
    split
    · exact parseLeadingDialL_nonneg str.data _ (by assumption)
    · exact h
  | some (J.q _) => exact h
  | some (J.b _) => exact h
  | some J.null => exact h
  | some (J.arr _) => exact h
  | some (J.obj _) => exact h
  | none => exact h

theorem leafDialQ_nonneg (node : J) (dflt : ℚ) (h : 0 ≤ dflt) :
    0 ≤ leafDialQ node dflt := by
  match node with
  | J.obj tkvs =>
    rw [show leafDialQ (J.obj tkvs) dflt =
      (match pyGet tkvs "Shock" with
       | some (J.obj skvs) => _parse_dial_value (pyGet skvs "Detail") dflt
       | _ => dflt) from rfl]
    split
    · exact parse_dial_value_nonneg _ _ h
    · exact h
  | J.s _ => exact h
  | J.q _ => exact h
  | J.b _ => exact h
  | J.null => exact h
  | J.arr _ => exact h

theorem mapM_loop_ok_exists {α β : Type} (f : α → Except DialErr β) (l : List α)
    (h : ∀ x ∈ l, ∃ y, f x = .ok y) :
    ∀ acc : List β, ∃ ys, List.mapM.loop f l acc = .ok ys := by
  induction l with
  | nil =>
    intro acc
    exact ⟨acc.reverse, by simp [List.mapM.loop]⟩
  | cons x xs ih =>
    intro acc
    obtain ⟨y, hy⟩ := h x (List.mem_cons_self x xs)
    obtain ⟨ys, hys⟩ := ih (fun a ha => h a (List.mem_cons_of_mem x ha)) (y :: acc)
    refine ⟨ys, ?_⟩
    simp only [List.mapM.loop, hy, except_ok_bind]
    exact hys

theorem mapM_ok_exists {α β : Type} (f : α → Except DialErr β) (l : List α)
    (h : ∀ x ∈ l, ∃ y, f x = .ok y) : ∃ ys, l.mapM f = .ok ys := by
  obtain ⟨ys, hys⟩ := mapM_loop_ok_exists f l h []
  exact ⟨ys, hys⟩

theorem iter_targets_ok (data : J) (hwf : wfDoc data = true) :
    _iter_transition_targets data = .ok (docLeaves data) := by
  match data with
  | J.obj dkvs =>
  rw [wfDoc] at hwf
  cases hst : lookupKey dkvs "State" with
  | none =>
    rw [hst] at hwf
    exact absurd hwf (by simp)
  | some sv =>
    rw [hst] at hwf
    match sv with
    | J.s v => exact absurd hwf (by simp)
    | J.q v => exact absurd hwf (by simp)
    | J.b v => exact absurd hwf (by simp)
    | J.null => exact absurd hwf (by simp)
    | J.arr v => exact absurd hwf (by simp)
    | J.obj states =>
      rw [Bool.and_eq_true, List.all_eq_true] at hwf
      have hforall : ∀ p ∈ states, ∃ y,
          (match p.2 with
           | J.obj skvs =>
             match (lookupKey skvs "Transitions").getD (J.obj []) with
             | .obj tkvs =>
               tkvs.mapM (fun t =>
                 match t.2 with
                 | J.obj _ => (pure () : Except DialErr Unit)
                 | _ => throw (.typeError "transition node is not an object"))
             | _ => pure [()]
           | _ => throw (.typeError "state node is not an object")) = Except.ok y := by
        intro p hp
        have hse := hwf.2 p hp
        rw [wfStateEntry, Bool.and_eq_true] at hse
        obtain ⟨pn, pv⟩ := p
        match pv, hse.2 with
        | J.obj skvs, hse2 =>
          simp only [] at hse2
          simp only []
          cases htr : (lookupKey skvs "Transitions").getD (J.obj []) with
          | obj tkvs =>
            rw [htr] at hse2
            simp only [] at hse2
            rw [Bool.and_eq_true, List.all_eq_true] at hse2
            refine mapM_ok_exists _ tkvs ?_
            intro t ht
            have hte := hse2.2 t ht
            rw [wfTransitionEntry, Bool.and_eq_true] at hte
            obtain ⟨tn, tv⟩ := t
            match tv, hte.2 with
            | J.obj tnkvs, _ => exact ⟨(), rfl⟩
          | s v => exact ⟨[()], rfl⟩
          | q v => exact ⟨[()], rfl⟩
          | b v => exact ⟨[()], rfl⟩
          | null => exact ⟨[()], rfl⟩
          | arr v => exact ⟨[()], rfl⟩
      obtain ⟨us, hus⟩ := mapM_ok_exists _ states hforall
      rw [_iter_transition_targets]
      simp only [hst, Option.getD_some, except_pure_eq, except_ok_bind]
      simp only [except_pure_eq] at hus
      rw [hus]
      simp only [except_ok_bind, except_pure_eq]
      rw [docLeaves]
      rw [hst]
      rfl

theorem ovl_simple (s t : String) (dn : Option String) (kvs : List (String × J))
    (dsd : String) (dd : ℚ)
    (hws : wfShock (lookupKey kvs "Shock") = true) :
    overridesForLeaf s t dn (J.obj kvs) dsd dd false =
      if _is_identity_dial (leafDialQ (J.obj kvs) dd) then []
      else
        [J.obj ((([("state", J.s s), ("transition", J.s t),
          ("start_date", leafStartDateJ (J.obj kvs) dsd),
          ("dial", J.q (leafDialQ (J.obj kvs) dd))] ++
          (match dn with
           | some d => [("detail", J.s d)]
           | none => [])) ++
          (match _extract_model_detail (J.obj kvs) with
           | some md => [("_model_detail", J.s md)]
           | none => [])))] := by
  cases hlk : lookupKey kvs "Shock" with
  | none =>
    have hpg : pyGet kvs "Shock" = none := by rw [pyGet, hlk]
    simp only [overridesForLeaf, leafStartDateJ, leafDialQ, hpg,
      Bool.false_and, Bool.false_eq_true, if_false, Option.getD_none]
    rw [show _is_cohort_shock J.null = false from rfl]
    simp only [Bool.false_eq_true, if_false]
    split
    · rfl
    · cases dn <;> cases hmd : _extract_model_detail (J.obj kvs) <;> simp
  | some sv =>
    rw [hlk] at hws
    match sv, hws with
    | J.null, _ =>
      have hpg : pyGet kvs "Shock" = none := by rw [pyGet, hlk]
      simp only [overridesForLeaf, leafStartDateJ, leafDialQ, hpg,
        Bool.false_and, Bool.false_eq_true, if_false, Option.getD_none]
      rw [show _is_cohort_shock J.null = false from rfl]
      simp only [Bool.false_eq_true, if_false]
      split
      · rfl
      · cases dn <;> cases hmd : _extract_model_detail (J.obj kvs) <;> simp
    | J.obj skvs, hws2 =>
      have hpg : pyGet kvs "Shock" = some (J.obj skvs) := by rw [pyGet, hlk]
      simp only [wfShock, Bool.and_eq_true, Bool.not_eq_true'] at hws2
      have hcs : _is_cohort_shock (J.obj skvs) = false := by
        rw [_is_cohort_shock, hws2.1, hws2.2]
        rfl
      simp only [overridesForLeaf, leafStartDateJ, leafDialQ, hpg,
        Bool.false_and, Bool.false_eq_true, if_false, Option.getD_some, hcs]
      split
      · rfl
      · cases dn <;> cases hmd : _extract_model_detail (J.obj kvs) <;> simp

theorem popKey_append_of_none (xs ys : List (String × J)) (k : String)
    (h : lookupKey xs k = none) : popKey (xs ++ ys) k = xs ++ popKey ys k := by
  induction xs with
  | nil => rfl
  | cons p rest ih =>
    obtain ⟨k2, v⟩ := p
    rw [lookupKey] at h
    by_cases hk : k2 = k
    · rw [if_pos hk] at h
      exact absurd h (by simp)
    · rw [if_neg hk] at h
      rw [List.cons_append, popKey, if_neg hk, ih h, List.cons_append]

theorem compact_leaf (s t : String) (dn : Option String) (node : J)
    (dsd : String) (dd : ℚ)
    (hs : wfName s = true) (ht : wfName t = true)
    (hleaf : wfLeaf node = true) :
    _compact_single_target_overrides
      ((overridesForLeaf s t dn node dsd dd false).map popMD) =
      leafOverride dsd dd (s, t, dn, node) := by
  have hse : s.isEmpty = false := by
    cases h : s.isEmpty
    · rfl
    · exact absurd ((String.isEmpty_iff s).mp h) (wfName_elim s hs).1
  have hte : t.isEmpty = false := by
    cases h : t.isEmpty
    · rfl
    · exact absurd ((String.isEmpty_iff t).mp h) (wfName_elim t ht).1
  match node, hleaf with
  | J.obj kvs, hleaf =>
  rw [wfLeaf, Bool.and_eq_true] at hleaf
  rw [ovl_simple s t dn kvs dsd dd hleaf.2, leafOverride]
  simp only []
  by_cases hid : _is_identity_dial (leafDialQ (J.obj kvs) dd) = true
  · rw [if_pos hid, if_pos hid]
    rfl
  · rw [if_neg hid, if_neg hid]
    cases dn <;> cases hmd : _extract_model_detail (J.obj kvs) <;>
      simp [popMD, _compact_single_target_overrides, mkCompactOverride,
        hse, hte, popKey, setKey, lookupKey, pyGet, hasKey]

theorem docLeaves_mem_elim (data : J) (l : Leaf) (hm : l ∈ docLeaves data) :
    ∃ dkvs states p, data = J.obj dkvs ∧
      lookupKey dkvs "State" = some (J.obj states) ∧
      p ∈ states ∧ l ∈ leavesOfState p := by
  match data with
  | J.s v => simp [docLeaves] at hm
  | J.q v => simp [docLeaves] at hm
  | J.b v => simp [docLeaves] at hm
  | J.null => simp [docLeaves] at hm
  | J.arr v => simp [docLeaves] at hm
  | J.obj dkvs =>
    rw [docLeaves] at hm
    cases hst : lookupKey dkvs "State" with
    | none =>
      rw [hst] at hm
      simp at hm
    | some sv =>
      rw [hst] at hm
      match sv with
      | J.s v => simp at hm
      | J.q v => simp at hm
      | J.b v => simp at hm
      | J.null => simp at hm
      | J.arr v => simp at hm
      | J.obj states =>
        simp only [Option.getD_some] at hm
        rw [List.mem_flatten] at hm
        obtain ⟨lst, hlst, hl⟩ := hm
        rw [List.mem_map] at hlst
        obtain ⟨p, hp, rfl⟩ := hlst
        exact ⟨dkvs, states, p, rfl, hst, hp, hl⟩

theorem leavesOfState_mem_elim (p : String × J) (l : Leaf)
    (hm : l ∈ leavesOfState p) :
    ∃ skvs tv t2, p.2 = J.obj skvs ∧
      (lookupKey skvs "Transitions").getD (J.obj []) = J.obj tv ∧
      t2 ∈ tv ∧ l ∈ leavesOfTransition p.1 t2 := by
  obtain ⟨pn, pv⟩ := p
  match pv with
  | J.s v => simp [leavesOfState] at hm
  | J.q v => simp [leavesOfState] at hm
  | J.b v => simp [leavesOfState] at hm
  | J.null => simp [leavesOfState] at hm
  | J.arr v => simp [leavesOfState] at hm
  | J.obj skvs =>
    rw [leavesOfState] at hm
    simp only [] at hm
    cases htr : (lookupKey skvs "Transitions").getD (J.obj []) with
    | obj tv =>
      rw [htr] at hm
      rw [List.mem_flatten] at hm
      obtain ⟨lst, hlst, hl⟩ := hm
      rw [List.mem_map] at hlst
      obtain ⟨t2, ht2, rfl⟩ := hlst
      exact ⟨skvs, tv, t2, rfl, htr, ht2, hl⟩
    | s v =>
      rw [htr] at hm
      simp at hm
    | q v =>
      rw [htr] at hm
      simp at hm
    | b v =>
      rw [htr] at hm
      simp at hm
    | null =>
      rw [htr] at hm
      simp at hm
    | arr v =>
      rw [htr] at hm
      simp at hm

theorem leavesOfTransition_mem_elim (s : String) (t2 : String × J) (l : Leaf)
    (hm : l ∈ leavesOfTransition s t2) :
    (∃ tnkvs dkvs2 dnp, t2.2 = J.obj tnkvs ∧
       lookupKey tnkvs "Detail" = some (J.obj dkvs2) ∧ dnp ∈ dkvs2 ∧
       l = (s, t2.1, some dnp.1, dnp.2)) ∨
    (l = (s, t2.1, none, t2.2) ∧
      ∀ tnkvs dkvs2, t2.2 = J.obj tnkvs →
        lookupKey tnkvs "Detail" ≠ some (J.obj dkvs2)) := by
  obtain ⟨tn, tv⟩ := t2
  match tv with
  | J.s v => simp [leavesOfTransition] at hm
  | J.q v => simp [leavesOfTransition] at hm
  | J.b v => simp [leavesOfTransition] at hm
  | J.null => simp [leavesOfTransition] at hm
  | J.arr v => simp [leavesOfTransition] at hm
  | J.obj tnkvs =>
    rw [leavesOfTransition] at hm
    simp only [] at hm
    cases hdt : lookupKey tnkvs "Detail" with
    | none =>
      rw [hdt] at hm
      simp only [List.mem_singleton] at hm
      refine Or.inr ⟨hm, ?_⟩
      intro tnkvs2 dkvs2 he
      injection he with he2
      subst he2
      rw [hdt]
      simp
    | some dv =>
      rw [hdt] at hm
      match dv with
      | J.obj dkvs2 =>
        rw [List.mem_map] at hm
        obtain ⟨dnp, hdnp, rfl⟩ := hm
        exact Or.inl ⟨tnkvs, dkvs2, dnp, rfl, hdt, hdnp, rfl⟩
      | J.s v =>
        simp only [List.mem_singleton] at hm
        refine Or.inr ⟨hm, ?_⟩
        intro tnkvs2 dkvs2 he
        injection he with he2
        subst he2
        rw [hdt]
        simp
      | J.q v =>
        simp only [List.mem_singleton] at hm
        refine Or.inr ⟨hm, ?_⟩
        intro tnkvs2 dkvs2 he
        injection he with he2
        subst he2
        rw [hdt]
        simp
      | J.b v =>
        simp only [List.mem_singleton] at hm
        refine Or.inr ⟨hm, ?_⟩
        intro tnkvs2 dkvs2 he
        injection he with he2
        subst he2
        rw [hdt]
        simp
      | J.null =>
        simp only [List.mem_singleton] at hm
        refine Or.inr ⟨hm, ?_⟩
        intro tnkvs2 dkvs2 he
        injection he with he2
        subst he2
        rw [hdt]
        simp
      | J.arr v =>
        simp only [List.mem_singleton] at hm
        refine Or.inr ⟨hm, ?_⟩
        intro tnkvs2 dkvs2 he
        injection he with he2
        subst he2
        rw [hdt]
        simp

theorem docLeaves_wf (data : J) (hwf : wfDoc data = true) :
    ∀ l ∈ docLeaves data, wfAddr l = true ∧ wfLeaf l.2.2.2 = true := by
  intro l hm
  obtain ⟨dkvs, states, p, he, hst, hp, hls⟩ := docLeaves_mem_elim data l hm
  subst he
  rw [wfDoc, hst, Bool.and_eq_true, List.all_eq_true] at hwf
  have hse := hwf.2 p hp
  rw [wfStateEntry, Bool.and_eq_true] at hse
  obtain ⟨skvs, tv, t2, hpv, htr, ht2, hlt⟩ := leavesOfState_mem_elim p l hls
  have hse2 := hse.2
  rw [hpv] at hse2
  simp only [] at hse2
  rw [htr] at hse2
  simp only [Bool.and_eq_true, List.all_eq_true] at hse2
  have hte := hse2.2 t2 ht2
  rw [wfTransitionEntry, Bool.and_eq_true] at hte
  rcases leavesOfTransition_mem_elim p.1 t2 l hlt with
    ⟨tnkvs, dkvs2, dnp, htv, hdt, hdnp, hl⟩ | ⟨hl, hnd⟩
  · subst hl
    have hte2 := hte.2
    rw [htv] at hte2
    simp only [] at hte2
    rw [hdt] at hte2
    simp only [Bool.and_eq_true, List.all_eq_true] at hte2
    have hdn := hte2.2 dnp hdnp
    refine ⟨?_, hdn.2⟩
    rw [wfAddr]
    simp only [hse.1, hte.1, hdn.1]
    rfl
  · subst hl
    refine ⟨?_, ?_⟩
    · rw [wfAddr]
      simp only [hse.1, hte.1]
      rfl
    · have hte2 := hte.2
      obtain ⟨tn, tvv⟩ := t2
      match tvv, hte2 with
      | J.obj tnkvs, hte2 =>
        simp only [] at hte2 ⊢
        cases hdt2 : lookupKey tnkvs "Detail" with
        | none =>
          rw [hdt2] at hte2
          exact hte2
        | some dv =>
          match dv with
          | J.obj dkvs2 => exact absurd hdt2 (hnd tnkvs dkvs2 rfl)
          | J.s v =>
            rw [hdt2] at hte2
            exact hte2
          | J.q v =>
            rw [hdt2] at hte2
            exact hte2
          | J.b v =>
            rw [hdt2] at hte2
            exact hte2
          | J.null =>
            rw [hdt2] at hte2
            exact hte2
          | J.arr v =>
            rw [hdt2] at hte2
            exact hte2

theorem compact_append (a b : List J) :
    _compact_single_target_overrides (a ++ b) =
      _compact_single_target_overrides a ++ _compact_single_target_overrides b := by
  rw [_compact_single_target_overrides, _compact_single_target_overrides,
    _compact_single_target_overrides, List.map_append]

theorem gen_pipeline (dsd : String) (dd : ℚ) (ls : List Leaf)
    (h : ∀ l ∈ ls, wfAddr l = true ∧ wfLeaf l.2.2.2 = true) :
    _compact_single_target_overrides
      (((ls.map (fun l =>
        overridesForLeaf l.1 l.2.1 l.2.2.1 l.2.2.2 dsd dd false)).flatten).map
          popMD) =
      (ls.map (leafOverride dsd dd)).flatten := by
  induction ls with
  | nil => rfl
  | cons l rest ih =>
    rw [List.map_cons, List.flatten_cons, List.map_append, compact_append,
      List.map_cons, List.flatten_cons]
    obtain ⟨haddr, hleaf⟩ := h l (List.mem_cons_self l rest)
    rw [wfAddr, Bool.and_eq_true, Bool.and_eq_true] at haddr
    rw [ih (fun x hx => h x (List.mem_cons_of_mem l hx))]
    congr 1
    exact compact_leaf l.1 l.2.1 l.2.2.1 l.2.2.2 dsd dd haddr.1.1 haddr.1.2 hleaf

theorem generate_simple (data : J) (dsd : String) (dd : ℚ)
    (hwf : wfDoc data = true) :
    generate_all_transition_overrides data dsd dd false false true =
      .ok (((docLeaves data).map (leafOverride dsd dd)).flatten) := by
  rw [generate_all_transition_overrides, iter_targets_ok data hwf]
  simp only [except_ok_bind, except_pure_eq, Bool.not_false, if_true, reduceIte]
  congr 1
  exact gen_pipeline dsd dd (docLeaves data) (docLeaves_wf data hwf)

theorem setKey_append_of_none (kvs : List (String × J)) (k : String) (v : J)
    (h : lookupKey kvs k = none) : setKey kvs k v = kvs ++ [(k, v)] := by
  induction kvs with
  | nil => rfl
  | cons p rest ih =>
    obtain ⟨k2, w⟩ := p
    rw [lookupKey] at h
    by_cases hk : k2 = k
    · rw [if_pos hk] at h
      exact absurd h (by simp)
    · rw [if_neg hk] at h
      rw [setKey, if_neg hk, ih h, List.cons_append]

theorem except_bind_pure {ε α : Type} (x : Except ε α) :
    (x >>= pure) = x := by
  cases x <;> rfl

theorem upsert_simple_fresh (curKvs : List (String × J)) (s t : String)
    (dn : Option String) (sd : J) (m : ℚ)
    (hns : lookupKey curKvs "Shock" = none) :
    _upsert_simple_shock curKvs s t dn sd m =
      .ok (curKvs ++ [("Shock", mkSimpleShock sd m)]) := by
  rw [_upsert_simple_shock, hns]
  simp only []
  rw [if_neg (by simp), setKey_append_of_none curKvs "Shock" _ hns]

theorem expand_compact (s t : String) (dn : Option String) (sd : J) (m : ℚ)
    (hs : wfName s = true) (ht : wfName t = true)
    (hd : ∀ d, dn = some d → wfName d = true) :
    _expand_override_targets (mkCompactOverride s t dn sd m) =
      .ok [J.obj ([("start_date", sd), ("dial", J.q m),
        ("state", J.s s), ("transition", J.s t)] ++
        (match dn with
         | some d => [("detail", J.s d)]
         | none => []))] := by
  cases dn with
  | none =>
    rw [mkCompactOverride,
      show _expand_override_targets (J.obj [("start_date", sd), ("dial", J.q m),
        ("target", J.s (_format_target_shorthand s t none))]) = (do
          let tkvs ← _parse_target_shorthand
            (J.s (_format_target_shorthand s t none))
          pure [J.obj (mergeUpdate [("start_date", sd), ("dial", J.q m)] tkvs)])
        from rfl,
      parse_format_none s t hs ht]
    rfl
  | some d =>
    rw [mkCompactOverride,
      show _expand_override_targets (J.obj [("start_date", sd), ("dial", J.q m),
        ("target", J.s (_format_target_shorthand s t (some d)))]) = (do
          let tkvs ← _parse_target_shorthand
            (J.s (_format_target_shorthand s t (some d)))
          pure [J.obj (mergeUpdate [("start_date", sd), ("dial", J.q m)] tkvs)])
        from rfl,
      parse_format_some s t d hs ht (hd d rfl)]
    rfl

theorem apply_atomic_simple (doc : J) (s t : String) (dn : Option String)
    (curKvs : List (String × J)) (sd : J) (m : ℚ)
    (hres : _target_for_shock doc s t dn = .ok (J.obj curKvs))
    (hns : lookupKey curKvs "Shock" = none)
    (hni : _is_identity_dial m = false) :
    _apply_dial_override doc (J.obj ([("start_date", sd), ("dial", J.q m),
      ("state", J.s s), ("transition", J.s t)] ++
      (match dn with
       | some d => [("detail", J.s d)]
       | none => []))) =
      .ok (setLeaf doc s t dn
        (J.obj (curKvs ++ [("Shock", mkSimpleShock sd m)]))) := by
  cases dn with
  | none =>
    rw [show _apply_dial_override doc (J.obj ([("start_date", sd), ("dial", J.q m),
        ("state", J.s s), ("transition", J.s t)] ++ [])) = (do
          let target ← _target_for_shock doc s t none
          let tkvs ← match target with
            | J.obj kvs => pure kvs
            | _ => throw (.typeError "target is not an object")
          if _is_identity_dial m then do
            let tkvs2 ← _remove_shock tkvs none
            pure (setLeaf doc s t none (.obj tkvs2))
          else do
            let tkvs2 ← _upsert_simple_shock tkvs s t none sd m
            pure (setLeaf doc s t none (.obj tkvs2))) from rfl]
    rw [hres]
    simp only [except_ok_bind, except_pure_eq]
    rw [hni]
    simp only [Bool.false_eq_true, if_false]
    rw [upsert_simple_fresh curKvs s t none sd m hns]
    simp only [except_ok_bind, except_pure_eq]
  | some d =>
    rw [show _apply_dial_override doc (J.obj ([("start_date", sd), ("dial", J.q m),
        ("state", J.s s), ("transition", J.s t)] ++ [("detail", J.s d)])) = (do
          let target ← _target_for_shock doc s t (some d)
          let tkvs ← match target with
            | J.obj kvs => pure kvs
            | _ => throw (.typeError "target is not an object")
          if _is_identity_dial m then do
            let tkvs2 ← _remove_shock tkvs none
            pure (setLeaf doc s t (some d) (.obj tkvs2))
          else do
            let tkvs2 ← _upsert_simple_shock tkvs s t (some d) sd m
            pure (setLeaf doc s t (some d) (.obj tkvs2))) from rfl]
    rw [hres]
    simp only [except_ok_bind, except_pure_eq]
    rw [hni]
    simp only [Bool.false_eq_true, if_false]
    rw [upsert_simple_fresh curKvs s t (some d) sd m hns]
    simp only [except_ok_bind, except_pure_eq]

theorem applyStep_compact (doc : J) (s t : String) (dn : Option String)
    (curKvs : List (String × J)) (sd : J) (m : ℚ)
    (hs : wfName s = true) (ht : wfName t = true)
    (hd : ∀ d, dn = some d → wfName d = true)
    (hres : _target_for_shock doc s t dn = .ok (J.obj curKvs))
    (hns : lookupKey curKvs "Shock" = none)
    (hni : _is_identity_dial m = false) :
    applyStep doc (mkCompactOverride s t dn sd m) =
      .ok (setLeaf doc s t dn
        (J.obj (curKvs ++ [("Shock", mkSimpleShock sd m)]))) := by
  cases dn with
  | none =>
    rw [show applyStep doc (mkCompactOverride s t none sd m) = (do
        let expanded ← _expand_override_targets (mkCompactOverride s t none sd m)
        expanded.foldlM _apply_dial_override doc) from rfl,
      expand_compact s t none sd m hs ht hd]
    simp only [except_ok_bind]
    rw [show (List.foldlM _apply_dial_override doc
        [J.obj ([("start_date", sd), ("dial", J.q m),
          ("state", J.s s), ("transition", J.s t)] ++ [])]) =
        (_apply_dial_override doc (J.obj ([("start_date", sd), ("dial", J.q m),
          ("state", J.s s), ("transition", J.s t)] ++ [])) >>= pure) from rfl]
    rw [apply_atomic_simple doc s t none curKvs sd m hres hns hni]
    simp only [except_ok_bind, except_pure_eq]
  | some d =>
    rw [show applyStep doc (mkCompactOverride s t (some d) sd m) = (do
        let expanded ← _expand_override_targets (mkCompactOverride s t (some d) sd m)
        expanded.foldlM _apply_dial_override doc) from rfl,
      expand_compact s t (some d) sd m hs ht hd]
    simp only [except_ok_bind]
    rw [show (List.foldlM _apply_dial_override doc
        [J.obj ([("start_date", sd), ("dial", J.q m),
          ("state", J.s s), ("transition", J.s t)] ++ [("detail", J.s d)])]) =
        (_apply_dial_override doc (J.obj ([("start_date", sd), ("dial", J.q m),
          ("state", J.s s), ("transition", J.s t)] ++
            [("detail", J.s d)])) >>= pure) from rfl]
    rw [apply_atomic_simple doc s t (some d) curKvs sd m hres hns hni]
    simp only [except_ok_bind, except_pure_eq]

theorem distinctKeys_pairwise (kvs : List (String × J))
    (h : distinctKeys kvs = true) : kvs.Pairwise (fun a b => a.1 ≠ b.1) := by
  induction kvs with
  | nil => exact List.Pairwise.nil
  | cons p rest ih =>
    obtain ⟨k, v⟩ := p
    rw [distinctKeys_cons, Bool.and_eq_true] at h
    refine List.Pairwise.cons ?_ (ih h.2)
    intro b hb
    have hbk := List.all_eq_true.mp h.1 b hb
    simp only [Bool.not_eq_true', beq_eq_false_iff_ne, ne_eq] at hbk
    exact fun he => hbk he.symm

theorem leavesOfTransition_addr (s : String) (t2 : String × J) (l : Leaf)
    (hm : l ∈ leavesOfTransition s t2) : l.1 = s ∧ l.2.1 = t2.1 := by
  rcases leavesOfTransition_mem_elim s t2 l hm with
    ⟨tnkvs, dkvs2, dnp, htv, hdt, hdnp, hl⟩ | ⟨hl, _⟩ <;> subst hl <;>
      exact ⟨rfl, rfl⟩

theorem leavesOfState_addr (p : String × J) (l : Leaf)
    (hm : l ∈ leavesOfState p) : l.1 = p.1 := by
  obtain ⟨skvs, tv, t2, hpv, htr, ht2, hlt⟩ := leavesOfState_mem_elim p l hm
  exact (leavesOfTransition_addr p.1 t2 l hlt).1

theorem leavesOfTransition_pairwise (s : String) (t2 : String × J)
    (h : wfTransitionEntry t2 = true) :
    (leavesOfTransition s t2).Pairwise
      (fun a b => pathDisjoint (leafAddr a) (leafAddr b)) := by
  rw [wfTransitionEntry, Bool.and_eq_true] at h
  obtain ⟨tn, tv⟩ := t2
  match tv, h.2 with
  | J.obj tnkvs, h2 =>
    simp only [] at h2
    rw [leavesOfTransition]
    simp only []
    cases hdt : lookupKey tnkvs "Detail" with
    | none => simp
    | some dv =>
      rw [hdt] at h2
      match dv with
      | J.obj dkvs2 =>
        simp only [Bool.and_eq_true, List.all_eq_true] at h2
        rw [List.pairwise_map]
        refine List.Pairwise.imp ?_ (distinctKeys_pairwise dkvs2 h2.1)
        intro a b hne
        exact Or.inr (Or.inr ⟨a.1, b.1, rfl, rfl, hne⟩)
      | J.s v => simp
      | J.q v => simp
      | J.b v => simp
      | J.null => simp
      | J.arr v => simp

theorem leavesOfState_pairwise (p : String × J) (h : wfStateEntry p = true) :
    (leavesOfState p).Pairwise
      (fun a b => pathDisjoint (leafAddr a) (leafAddr b)) := by
  rw [wfStateEntry, Bool.and_eq_true] at h
  obtain ⟨pn, pv⟩ := p
  match pv, h.2 with
  | J.obj skvs, h2 =>
    simp only [] at h2
    rw [leavesOfState]
    simp only []
    cases htr : (lookupKey skvs "Transitions").getD (J.obj []) with
    | obj tv =>
      rw [htr] at h2
      simp only [Bool.and_eq_true, List.all_eq_true] at h2
      rw [List.pairwise_flatten]
      constructor
      · intro lst hlst
        rw [List.mem_map] at hlst
        obtain ⟨t2, ht2, rfl⟩ := hlst
        exact leavesOfTransition_pairwise pn t2 (h2.2 t2 ht2)
      · rw [List.pairwise_map]
        refine List.Pairwise.imp ?_ (distinctKeys_pairwise tv h2.1)
        intro t2 t3 hne l hl l2 hl2
        refine Or.inr (Or.inl ?_)
        rw [show (leafAddr l).2.1 = l.2.1 from rfl,
          (leavesOfTransition_addr pn t2 l hl).2]
        rw [show (leafAddr l2).2.1 = l2.2.1 from rfl,
          (leavesOfTransition_addr pn t3 l2 hl2).2]
        exact hne
    | s v => simp
    | q v => simp
    | b v => simp
    | null => simp
    | arr v => simp

theorem docLeaves_pairwise (data : J) (hwf : wfDoc data = true) :
    (docLeaves data).Pairwise
      (fun a b => pathDisjoint (leafAddr a) (leafAddr b)) := by
  match data with
  | J.obj dkvs =>
  rw [wfDoc] at hwf
  cases hst : lookupKey dkvs "State" with
  | none =>
    rw [hst] at hwf
    exact absurd hwf (by simp)
  | some sv =>
    rw [hst] at hwf
    match sv with
    | J.s v => exact absurd hwf (by simp)
    | J.q v => exact absurd hwf (by simp)
    | J.b v => exact absurd hwf (by simp)
    | J.null => exact absurd hwf (by simp)
    | J.arr v => exact absurd hwf (by simp)
    | J.obj states =>
      rw [Bool.and_eq_true, List.all_eq_true] at hwf
      rw [docLeaves, hst]
      simp only [Option.getD_some]
      rw [List.pairwise_flatten]
      constructor
      · intro lst hlst
        rw [List.mem_map] at hlst
        obtain ⟨p, hp, rfl⟩ := hlst
        exact leavesOfState_pairwise p (hwf.2 p hp)
      · rw [List.pairwise_map]
        refine List.Pairwise.imp ?_ (distinctKeys_pairwise states hwf.1)
        intro p p2 hne l hl l2 hl2
        refine Or.inl ?_
        rw [show (leafAddr l).1 = l.1 from rfl, leavesOfState_addr p l hl]
        rw [show (leafAddr l2).1 = l2.1 from rfl, leavesOfState_addr p2 l2 hl2]
        exact hne

theorem wfLeaf_obj (v : J) (h : wfLeaf v = true) : ∃ kvs, v = J.obj kvs := by
  match v, h with
  | J.obj kvs, _ => exact ⟨kvs, rfl⟩

theorem reset_resolves (data : J) (hwf : wfDoc data = true) :
    ∀ l ∈ docLeaves data, ∃ nodeKvs, l.2.2.2 = J.obj nodeKvs ∧
      _target_for_shock (resetDoc data) l.1 l.2.1 l.2.2.1 =
        .ok (J.obj (popKey nodeKvs "Shock")) := by
  intro l hm
  obtain ⟨haddr, hleaf⟩ := docLeaves_wf data hwf l hm
  obtain ⟨dkvs, states, p, he, hst, hp, hls⟩ := docLeaves_mem_elim data l hm
  subst he
  rw [wfDoc, hst, Bool.and_eq_true, List.all_eq_true] at hwf
  have hse := hwf.2 p hp
  rw [wfStateEntry, Bool.and_eq_true] at hse
  obtain ⟨skvs, tv, t2, hpv, htr, ht2, hlt⟩ := leavesOfState_mem_elim p l hls
  have hse2 := hse.2
  rw [hpv] at hse2
  simp only [] at hse2
  rw [htr] at hse2
  simp only [Bool.and_eq_true, List.all_eq_true] at hse2
  have htl : lookupKey skvs "Transitions" = some (J.obj tv) := by
    cases hlt2 : lookupKey skvs "Transitions" with
    | none =>
      rw [hlt2] at htr
      simp only [Option.getD_none] at htr
      injection htr with he2
      rw [← he2] at ht2
      simp at ht2
    | some w =>
      rw [hlt2] at htr
      simp only [Option.getD_some] at htr
      rw [htr]
  have hps : lookupKey states p.1 = some p.2 :=
    lookup_of_mem_distinct states p.1 p.2 hwf.1 hp
  have htt : lookupKey tv t2.1 = some t2.2 :=
    lookup_of_mem_distinct tv t2.1 t2.2 hse2.1 ht2
  have hreset : resetDoc (J.obj dkvs) = J.obj (setKey dkvs "State"
      (J.obj (states.map (fun p => (p.1, resetStateNode p.2))))) := by
    rw [show resetDoc (J.obj dkvs) = J.obj (updateKey dkvs "State" (fun st =>
      match st with
      | .obj sts => .obj (sts.map (fun p => (p.1, resetStateNode p.2)))
      | x => x)) from rfl, updateKey, hst]
  have hstate : resetStateNode p.2 = J.obj (setKey skvs "Transitions"
      (J.obj (tv.map (fun t => (t.1, resetTransitionNode t.2))))) := by
    rw [hpv, resetStateNode,
      show updVal (J.obj skvs) "Transitions" resetTransitions =
        J.obj (updateKey skvs "Transitions" resetTransitions) from rfl,
      updateKey, htl]
    rfl
  have hte := hse2.2 t2 ht2
  rw [wfTransitionEntry, Bool.and_eq_true] at hte
  rcases leavesOfTransition_mem_elim p.1 t2 l hlt with
    ⟨tnkvs, dkvs2, dnp, htv, hdt, hdnp, hl⟩ | ⟨hl, hnd⟩
  · -- grouped detail leaf
    subst hl
    have hte2 := hte.2
    rw [htv] at hte2
    simp only [] at hte2
    rw [hdt] at hte2
    simp only [Bool.and_eq_true, List.all_eq_true] at hte2
    obtain ⟨nodeKvs, hnode⟩ := wfLeaf_obj dnp.2 hleaf
    refine ⟨nodeKvs, hnode, ?_⟩
    have htnode : resetTransitionNode t2.2 = J.obj (setKey tnkvs "Detail"
        (J.obj (dkvs2.map (fun dn => (dn.1, resetLeafNode dn.2))))) := by
      rw [htv]
      simp only [resetTransitionNode, hdt, updateKey]
    rw [hreset]
    refine target_compute_some
      (setKey dkvs "State"
        (J.obj (states.map (fun p => (p.1, resetStateNode p.2)))))
      (states.map (fun p => (p.1, resetStateNode p.2)))
      (setKey skvs "Transitions"
        (J.obj (tv.map (fun t => (t.1, resetTransitionNode t.2)))))
      (tv.map (fun t => (t.1, resetTransitionNode t.2)))
      (setKey tnkvs "Detail"
        (J.obj (dkvs2.map (fun dn => (dn.1, resetLeafNode dn.2)))))
      (dkvs2.map (fun dn => (dn.1, resetLeafNode dn.2)))
      p.1 t2.1 dnp.1 (J.obj (popKey nodeKvs "Shock"))
      (lookup_setKey_self _ _ _) ?_ (lookup_setKey_self _ _ _) ?_
      (lookup_setKey_self _ _ _) ?_
    · rw [lookup_map_value states resetStateNode p.1, hps]
      rw [show (some p.2).map resetStateNode = some (resetStateNode p.2) from rfl]
      rw [hstate]
    · rw [lookup_map_value tv resetTransitionNode t2.1, htt]
      rw [show (some t2.2).map resetTransitionNode =
        some (resetTransitionNode t2.2) from rfl]
      rw [htnode]
    · rw [lookup_map_value dkvs2 resetLeafNode dnp.1,
        lookup_of_mem_distinct dkvs2 dnp.1 dnp.2 hte2.1 hdnp]
      rw [show (some dnp.2).map resetLeafNode = some (resetLeafNode dnp.2) from rfl]
      rw [hnode]
      rfl
  · -- plain transition leaf
    subst hl
    obtain ⟨nodeKvs, hnode⟩ := wfLeaf_obj t2.2 hleaf
    refine ⟨nodeKvs, hnode, ?_⟩
    have htnode : resetTransitionNode t2.2 = J.obj (popKey nodeKvs "Shock") := by
      rw [hnode,
        show resetTransitionNode (J.obj nodeKvs) =
          (match lookupKey nodeKvs "Detail" with
           | some (.obj dkvs) =>
             J.obj (updateKey nodeKvs "Detail" (fun _ =>
               .obj (dkvs.map (fun dn => (dn.1, resetLeafNode dn.2)))))
           | _ => resetLeafNode (J.obj nodeKvs)) from rfl]
      cases hdt2 : lookupKey nodeKvs "Detail" with
      | none => rfl
      | some dv =>
        match dv with
        | J.obj dkvs2 => exact absurd hdt2 (hnd nodeKvs dkvs2 hnode)
        | J.s v => rfl
        | J.q v => rfl
        | J.b v => rfl
        | J.null => rfl
        | J.arr v => rfl
    rw [hreset]
    refine target_compute_none
      (setKey dkvs "State"
        (J.obj (states.map (fun p => (p.1, resetStateNode p.2)))))
      (states.map (fun p => (p.1, resetStateNode p.2)))
      (setKey skvs "Transitions"
        (J.obj (tv.map (fun t => (t.1, resetTransitionNode t.2)))))
      (tv.map (fun t => (t.1, resetTransitionNode t.2)))
      p.1 t2.1 (J.obj (popKey nodeKvs "Shock"))
      (lookup_setKey_self _ _ _) ?_ (lookup_setKey_self _ _ _) ?_
    · rw [lookup_map_value states resetStateNode p.1, hps]
      rw [show (some p.2).map resetStateNode = some (resetStateNode p.2) from rfl]
      rw [hstate]
    · rw [lookup_map_value tv resetTransitionNode t2.1, htt]
      rw [show (some t2.2).map resetTransitionNode =
        some (resetTransitionNode t2.2) from rfl]
      rw [htnode]

theorem pathDisjoint_symm (a b : String × String × Option String)
    (h : pathDisjoint a b) : pathDisjoint b a := by
  rcases h with h | h | ⟨d, d2, h1, h2, h3⟩
  · exact Or.inl (Ne.symm h)
  · exact Or.inr (Or.inl (Ne.symm h))
  · exact Or.inr (Or.inr ⟨d2, d, h2, h1, Ne.symm h3⟩)

theorem apply_leaves (dsd : String) (dd : ℚ) :
    ∀ (ls : List Leaf) (doc : J),
      (∀ l ∈ ls, wfAddr l = true ∧ wfLeaf l.2.2.2 = true ∧
         ∃ nodeKvs, l.2.2.2 = J.obj nodeKvs ∧
           _target_for_shock doc l.1 l.2.1 l.2.2.1 =
             .ok (J.obj (popKey nodeKvs "Shock"))) →
      List.Pairwise (fun a b => pathDisjoint (leafAddr a) (leafAddr b)) ls →
      ∃ final,
        ((ls.map (leafOverride dsd dd)).flatten).foldlM applyStep doc =
          .ok final ∧
        (∀ l ∈ ls, ∃ nodeKvs, l.2.2.2 = J.obj nodeKvs ∧
           _target_for_shock final l.1 l.2.1 l.2.2.1 =
             .ok (J.obj (finalLeafKvs nodeKvs dsd dd))) ∧
        (∀ (s2 t2 : String) (dn2 : Option String),
           (∀ l ∈ ls, pathDisjoint (s2, t2, dn2) (leafAddr l)) →
           _target_for_shock final s2 t2 dn2 =
             _target_for_shock doc s2 t2 dn2) := by
  intro ls
  induction ls with
  | nil =>
    intro doc hres hpw
    exact ⟨doc, rfl, by simp, fun s2 t2 dn2 _ => rfl⟩
  | cons l rest ih =>
    intro doc hres hpw
    rw [List.pairwise_cons] at hpw
    obtain ⟨haddr, hleaf, nodeKvs, hnode, hres0⟩ :=
      hres l (List.mem_cons_self l rest)
    rw [List.map_cons, List.flatten_cons]
    by_cases hid : _is_identity_dial (leafDialQ l.2.2.2 dd) = true
    · have hov : leafOverride dsd dd l = [] := by
        rw [leafOverride, if_pos hid]
      obtain ⟨final, hfold, hfin, hframe⟩ :=
        ih doc (fun x hx => hres x (List.mem_cons_of_mem l hx)) hpw.2
      refine ⟨final, ?_, ?_, ?_⟩
      · rw [hov, List.nil_append]
        exact hfold
      · intro x hx
        rcases List.mem_cons.mp hx with he | hx2
        · subst he
          refine ⟨nodeKvs, hnode, ?_⟩
          rw [hframe x.1 x.2.1 x.2.2.1 (fun x2 hx2 => hpw.1 x2 hx2), hres0]
          rw [hnode] at hid
          rw [finalLeafKvs, if_pos hid]
        · exact hfin x hx2
      · intro s2 t2 dn2 hdisj
        exact hframe s2 t2 dn2 (fun x hx => hdisj x (List.mem_cons_of_mem l hx))
    · have hni : _is_identity_dial (leafDialQ l.2.2.2 dd) = false := by
        cases h : _is_identity_dial (leafDialQ l.2.2.2 dd)
        · rfl
        · exact absurd h hid
      have hov : leafOverride dsd dd l =
          [mkCompactOverride l.1 l.2.1 l.2.2.1
            (leafStartDateJ l.2.2.2 dsd) (leafDialQ l.2.2.2 dd)] := by
        rw [leafOverride, if_neg hid]
      have hdk : distinctKeys nodeKvs = true := by
        rw [hnode, wfLeaf, Bool.and_eq_true] at hleaf
        exact hleaf.1
      rw [wfAddr, Bool.and_eq_true, Bool.and_eq_true] at haddr
      have hdnames : ∀ d, l.2.2.1 = some d → wfName d = true := by
        intro d hdEq
        have h3 := haddr.2
        rw [hdEq] at h3
        exact h3
      have hstep := applyStep_compact doc l.1 l.2.1 l.2.2.1
        (popKey nodeKvs "Shock")
        (leafStartDateJ l.2.2.2 dsd) (leafDialQ l.2.2.2 dd)
        haddr.1.1 haddr.1.2 hdnames hres0
        (lookup_popKey_self nodeKvs "Shock" hdk) hni
      obtain ⟨final, hfold, hfin, hframe⟩ := ih
        (setLeaf doc l.1 l.2.1 l.2.2.1
          (J.obj (popKey nodeKvs "Shock" ++
            [("Shock", mkSimpleShock (leafStartDateJ l.2.2.2 dsd)
              (leafDialQ l.2.2.2 dd))])))
        (fun x hx => by
          obtain ⟨hxa, hxl, xkvs, hxnode, hxres⟩ :=
            hres x (List.mem_cons_of_mem l hx)
          exact ⟨hxa, hxl, xkvs, hxnode, by
            rw [target_setLeaf_frame doc l.1 l.2.1 l.2.2.1 _ _ hres0
              x.1 x.2.1 x.2.2.1 (hpw.1 x hx)]
            exact hxres⟩)
        hpw.2
      refine ⟨final, ?_, ?_, ?_⟩
      · rw [hov, show (mkCompactOverride l.1 l.2.1 l.2.2.1
            (leafStartDateJ l.2.2.2 dsd) (leafDialQ l.2.2.2 dd) ::
            []) ++ (rest.map (leafOverride dsd dd)).flatten =
          mkCompactOverride l.1 l.2.1 l.2.2.1
            (leafStartDateJ l.2.2.2 dsd) (leafDialQ l.2.2.2 dd) ::
            (rest.map (leafOverride dsd dd)).flatten from rfl,
          List.foldlM_cons, hstep]
        simp only [except_ok_bind]
        exact hfold
      · intro x hx
        rcases List.mem_cons.mp hx with he | hx2
        · subst he
          refine ⟨nodeKvs, hnode, ?_⟩
          rw [hframe x.1 x.2.1 x.2.2.1 (fun x2 hx2 => hpw.1 x2 hx2)]
          rw [target_setLeaf_self doc x.1 x.2.1 x.2.2.1 _ _ hres0]
          rw [hnode] at hni
          rw [finalLeafKvs, if_neg (by rw [hni]; simp)]
          rw [hnode]
        · exact hfin x hx2
      · intro s2 t2 dn2 hdisj
        rw [hframe s2 t2 dn2 (fun x hx => hdisj x (List.mem_cons_of_mem l hx))]
        exact target_setLeaf_frame doc l.1 l.2.1 l.2.2.1 _ _ hres0
          s2 t2 dn2 (pathDisjoint_symm _ _ (hdisj l (List.mem_cons_self l rest)))

theorem lookup_append_of_none (xs ys : List (String × J)) (k : String)
    (h : lookupKey xs k = none) : lookupKey (xs ++ ys) k = lookupKey ys k := by
  induction xs with
  | nil => rfl
  | cons p rest ih =>
    obtain ⟨k2, v⟩ := p
    rw [lookupKey] at h
    by_cases hk : k2 = k
    · rw [if_pos hk] at h
      exact absurd h (by simp)
    · rw [if_neg hk] at h
      rw [List.cons_append, lookupKey, if_neg hk, ih h]

theorem leafStartDateJ_truthy (nodeKvs skvs : List (String × J)) (v : J)
    (dsd : String)
    (hsk : lookupKey nodeKvs "Shock" = some (J.obj skvs))
    (hsd : pyGet skvs "StartDate" = some v) (htr : jTruthy v = true) :
    leafStartDateJ (J.obj nodeKvs) dsd = v := by
  rw [show leafStartDateJ (J.obj nodeKvs) dsd =
      (match pyGet nodeKvs "Shock" with
       | some (.obj skvs) => genStartDate skvs dsd
       | _ => J.s dsd) from rfl,
    pyGet_some_of_ne_null nodeKvs "Shock" (J.obj skvs) hsk (by simp)]
  rw [show (match some (J.obj skvs) with
       | some (.obj skvs) => genStartDate skvs dsd
       | _ => J.s dsd) = genStartDate skvs dsd from rfl,
    genStartDate, hsd]
  simp [htr]

/-- C5 (amended): for a document whose leaves hold only simple shocks (or
none), with distinct keys and shorthand-safe path names, generating with the
default flags (`group_by_model_detail = False`, `only_with_shock = False`,
`compact_targets = True`) and a nonnegative default dial succeeds, emitting
one compacted override per non-identity leaf; applying that list to the
identity-reset copy succeeds, and every non-identity leaf ends with exactly
the shock `{StartDate, Detail: dial(m)}` whose `StartDate` is the original
one whenever the original was truthy (a falsy or absent `StartDate` is
replaced by the default) and whose `Detail` re-parses to the original
multiplier rounded to 3 decimals; a leaf whose multiplier rounds to 1.0
emits no override, so its reset (shock-free) state survives and its original
`StartDate` is lost — the claim holds only with these two qualifications. -/
theorem c5_round_trip (data : J) (dsd : String) (dd : ℚ)
    (hwf : wfDoc data = true) (hdd : 0 ≤ dd) :
    ∃ final,
      generate_all_transition_overrides data dsd dd false false true =
        .ok (((docLeaves data).map (leafOverride dsd dd)).flatten) ∧
      apply_dial_overrides (resetDoc data)
        (((docLeaves data).map (leafOverride dsd dd)).flatten) = .ok final ∧
      ∀ l ∈ docLeaves data, ∃ nodeKvs, l.2.2.2 = J.obj nodeKvs ∧
        _target_for_shock final l.1 l.2.1 l.2.2.1 =
          .ok (J.obj (finalLeafKvs nodeKvs dsd dd)) ∧
        (_is_identity_dial (leafDialQ l.2.2.2 dd) = false →
          lookupKey (finalLeafKvs nodeKvs dsd dd) "Shock" =
            some (mkSimpleShock (leafStartDateJ l.2.2.2 dsd)
              (leafDialQ l.2.2.2 dd)) ∧
          (∀ skvs v, lookupKey nodeKvs "Shock" = some (J.obj skvs) →
            pyGet skvs "StartDate" = some v → jTruthy v = true →
            leafStartDateJ l.2.2.2 dsd = v) ∧
          parseLeadingDialL (dial (leafDialQ l.2.2.2 dd)).data =
            some (pyRound3 (leafDialQ l.2.2.2 dd))) ∧
        (_is_identity_dial (leafDialQ l.2.2.2 dd) = true →
          finalLeafKvs nodeKvs dsd dd = popKey nodeKvs "Shock") := by
  obtain ⟨final, hfold, hfin, _⟩ := apply_leaves dsd dd (docLeaves data)
    (resetDoc data)
    (fun l hl => by
      obtain ⟨ha, hb⟩ := docLeaves_wf data hwf l hl
      obtain ⟨nk, h1, h2⟩ := reset_resolves data hwf l hl
      exact ⟨ha, hb, nk, h1, h2⟩)
    (docLeaves_pairwise data hwf)
  refine ⟨final, generate_simple data dsd dd hwf, hfold, ?_⟩
  intro l hl
  obtain ⟨nk, hnode, hresfin⟩ := hfin l hl
  obtain ⟨_, hleaf⟩ := docLeaves_wf data hwf l hl
  have hdk : distinctKeys nk = true := by
    rw [hnode, wfLeaf, Bool.and_eq_true] at hleaf
    exact hleaf.1
  refine ⟨nk, hnode, hresfin, ?_, ?_⟩
  · intro hni
    rw [hnode] at hni
    refine ⟨?_, ?_, ?_⟩
    · rw [finalLeafKvs, if_neg (by rw [hni]; simp)]
      rw [lookup_append_of_none _ _ _ (lookup_popKey_self nk "Shock" hdk)]
      rw [hnode]
      rfl
    · intro skvs v hsk hsd htr
      rw [hnode]
      exact leafStartDateJ_truthy nk skvs v dsd hsk hsd htr
    · refine parse_dial_data _ ?_
      exact leafDialQ_nonneg l.2.2.2 dd hdd
  · intro hidt
    rw [hnode] at hidt
    rw [finalLeafKvs, if_pos hidt]

/-- C5 (counterexample): a document whose single leaf holds a simple
identity shock (`"1x for 36"`, multiplier exactly 1.0) with a StartDate.
The generator emits no override for it, applying the (empty) override list
to the identity-reset copy returns that copy unchanged, and the resulting
leaf holds no `Shock` key at all, so the original `StartDate` `"20200101"`
is not reproduced — the claimed round trip fails on identity-multiplier
leaves (their StartDate is silently dropped). -/
theorem c5_identity_leaf_counterexample :
    wfDoc (J.obj [("State", J.obj [("S", J.obj [("Transitions", J.obj
      [("T", J.obj [("Shock", J.obj [("StartDate", J.s "20200101"),
        ("Detail", J.s "1x for 36")])])])])])]) = true ∧
    _target_for_shock
      (J.obj [("State", J.obj [("S", J.obj [("Transitions", J.obj
        [("T", J.obj [("Shock", J.obj [("StartDate", J.s "20200101"),
          ("Detail", J.s "1x for 36")])])])])])]) "S" "T" none =
      .ok (J.obj [("Shock", J.obj [("StartDate", J.s "20200101"),
        ("Detail", J.s "1x for 36")])]) ∧
    generate_all_transition_overrides
      (J.obj [("State", J.obj [("S", J.obj [("Transitions", J.obj
        [("T", J.obj [("Shock", J.obj [("StartDate", J.s "20200101"),
          ("Detail", J.s "1x for 36")])])])])])])
      "20990101" (11/10) false false true = .ok [] ∧
    apply_dial_overrides
      (resetDoc (J.obj [("State", J.obj [("S", J.obj [("Transitions", J.obj
        [("T", J.obj [("Shock", J.obj [("StartDate", J.s "20200101"),
          ("Detail", J.s "1x for 36")])])])])])])) [] =
      .ok (J.obj [("State", J.obj [("S", J.obj [("Transitions", J.obj
        [("T", J.obj [])])])])]) ∧
    _target_for_shock (J.obj [("State", J.obj [("S", J.obj [("Transitions",
      J.obj [("T", J.obj [])])])])]) "S" "T" none = .ok (J.obj []) := by
  refine ⟨by decide, by decide, ?_, by decide, by decide⟩
  with_unfolding_all decide

/-- Witness for C5: the amended round trip instantiated at a concrete
one-leaf document holding the simple shock
`{StartDate: "20200101", Detail: "1.2x for 36"}`. -/
theorem c5_round_trip_witness :
    wfDoc (J.obj [("State", J.obj [("S", J.obj [("Transitions", J.obj
      [("T", J.obj [("Shock", J.obj [("StartDate", J.s "20200101"),
        ("Detail", J.s "1.2x for 36")])])])])])]) = true ∧
    (0 : ℚ) ≤ 11/10 ∧
    (∃ final,
      generate_all_transition_overrides
        (J.obj [("State", J.obj [("S", J.obj [("Transitions", J.obj
          [("T", J.obj [("Shock", J.obj [("StartDate", J.s "20200101"),
            ("Detail", J.s "1.2x for 36")])])])])])])
        "20990101" (11/10) false false true =
        .ok (((docLeaves (J.obj [("State", J.obj [("S", J.obj [("Transitions",
          J.obj [("T", J.obj [("Shock", J.obj [("StartDate", J.s "20200101"),
            ("Detail", J.s "1.2x for 36")])])])])])])).map
              (leafOverride "20990101" (11/10))).flatten) ∧
      apply_dial_overrides
        (resetDoc (J.obj [("State", J.obj [("S", J.obj [("Transitions", J.obj
          [("T", J.obj [("Shock", J.obj [("StartDate", J.s "20200101"),
            ("Detail", J.s "1.2x for 36")])])])])])]))
        (((docLeaves (J.obj [("State", J.obj [("S", J.obj [("Transitions",
          J.obj [("T", J.obj [("Shock", J.obj [("StartDate", J.s "20200101"),
            ("Detail", J.s "1.2x for 36")])])])])])])).map
              (leafOverride "20990101" (11/10))).flatten) = .ok final ∧
      ∀ l ∈ docLeaves (J.obj [("State", J.obj [("S", J.obj [("Transitions",
          J.obj [("T", J.obj [("Shock", J.obj [("StartDate", J.s "20200101"),
            ("Detail", J.s "1.2x for 36")])])])])])]),
        ∃ nodeKvs, l.2.2.2 = J.obj nodeKvs ∧
        _target_for_shock final l.1 l.2.1 l.2.2.1 =
          .ok (J.obj (finalLeafKvs nodeKvs "20990101" (11/10))) ∧
        (_is_identity_dial (leafDialQ l.2.2.2 (11/10)) = false →
          lookupKey (finalLeafKvs nodeKvs "20990101" (11/10)) "Shock" =
            some (mkSimpleShock (leafStartDateJ l.2.2.2 "20990101")
              (leafDialQ l.2.2.2 (11/10))) ∧
          (∀ skvs v, lookupKey nodeKvs "Shock" = some (J.obj skvs) →
            pyGet skvs "StartDate" = some v → jTruthy v = true →
            leafStartDateJ l.2.2.2 "20990101" = v) ∧
          parseLeadingDialL (dial (leafDialQ l.2.2.2 (11/10))).data =
            some (pyRound3 (leafDialQ l.2.2.2 (11/10)))) ∧
        (_is_identity_dial (leafDialQ l.2.2.2 (11/10)) = true →
          finalLeafKvs nodeKvs "20990101" (11/10) = popKey nodeKvs "Shock")) := by
  refine ⟨by decide, by norm_num, ?_⟩
  exact c5_round_trip
    (J.obj [("State", J.obj [("S", J.obj [("Transitions", J.obj
      [("T", J.obj [("Shock", J.obj [("StartDate", J.s "20200101"),
        ("Detail", J.s "1.2x for 36")])])])])])])
    "20990101" (11/10) (by decide) (by norm_num)
